import Mathlib

/-!
# imbued: a verification development of the daemon core

Shallow embedding of the Go sources of `NovaCove/imbued`:

* `pkg/auth/auth.go`      : `SimpleAuthenticator` (grant table with expiry)
* `pkg/config/config.go`  : `FindConfig`, `LoadConfig`, `IsWithinValidDepth`
* `pkg/secrets/*.go`      : the six secret backends and `NewBackend`
* `pkg/tracking`          : the `Tracker` interface as seen by the handlers,
                            the records and `FileTracker.trackEvent`
* `cmd/imbued/main.go`    : `handleConnection`, the nine command handlers and
                            the command `check-onepass`

Conventions of the embedding

* Go `string` is `String`; `fmt.Sprintf`/`fmt.Errorf` are string concatenation;
  a Go `error` is the `String` of its message, `nil` is `none`. Where the source
  indexes the bytes of a string, the string is the list of its UTF-8 bytes
  (`goBytes`), and a run-time panic is a result of its own (`Ending.panicked`).
* Go `map[string]V` is an association list `GoMap V`. A `range` over a map
  visits the entries in an order the runtime picks afresh for every loop: the
  `n`-th loop of a request visits `GoMap.range (w.rangeSeed n) m`, a
  permutation of `m` determined by a seed that is an input.
* `time.Time` and `time.Duration` are `Int` (nanoseconds) where times are
  compared; the tracker, which only prints the time, takes it as `WallTime`.
  Every call of `time.Now()` is an explicit input.
* Everything outside the process (files, the presence prompt, external
  command-line tools, the tracker's write result) is an input, collected in
  the structure `World`.
-/

namespace Imbued

/-! ## Go maps -/

/-- Go `map[string]V`: association list, the first binding of a key is the live one. -/
abbrev GoMap (V : Type) := List (String × V)

namespace GoMap

/-- Lookup `v, ok := m[k]`. -/
def get {V : Type} : GoMap V → String → Option V
  | [], _ => none
  | (k', v) :: m, k => if k' = k then some v else get m k

/-- Builtin `delete(m, k)`. -/
def delete {V : Type} : GoMap V → String → GoMap V
  | [], _ => []
  | (k', v) :: m, k => if k' = k then delete m k else (k', v) :: delete m k

/-- Assignment `m[k] = v`. -/
def set {V : Type} (m : GoMap V) (k : String) (v : V) : GoMap V :=
  (k, v) :: delete m k

/-- The keys of the map, in the order of the list. -/
def keys {V : Type} (m : GoMap V) : List String := m.map Prod.fst

/-- Well-formed maps bind every key once. -/
def WF {V : Type} (m : GoMap V) : Prop := m.keys.Nodup

instance decidableWF {V : Type} (m : GoMap V) : Decidable m.WF :=
  inferInstanceAs (Decidable (m.keys.Nodup))

/-- Insert `x` at position `i` of a list (at the end when `i` is too large). -/
def insertAt {α : Type} (x : α) : Nat → List α → List α
  | 0, l => x :: l
  | _ + 1, [] => [x]
  | i + 1, y :: ys => y :: insertAt x i ys

/-- Reorder a list: every element is inserted, at the position the seed gives
for it, into the reordered rest. Every result is a permutation of the list, and
every permutation is the result for some seed. -/
def shuffle {α : Type} : List Nat → List α → List α
  | i :: seed, x :: xs => insertAt x i (shuffle seed xs)
  | _, l => l

/-- The entries of the map in the order one `for k, v := range m` loop visits them. -/
def range {V : Type} (seed : List Nat) (m : GoMap V) : GoMap V := shuffle seed m

end GoMap

/-! ## pkg/auth/auth.go -/

/-- The struct `SimpleAuthenticator`: process id to expiry time, and the grant duration. -/
structure SimpleAuthenticator where
  authenticatedProcesses : GoMap Int
  authDuration : Int
  deriving DecidableEq, Repr

/-- Constructor `NewSimpleAuthenticator`. -/
def NewSimpleAuthenticator (authDuration : Int) : SimpleAuthenticator :=
  { authenticatedProcesses := [], authDuration := authDuration }

/-- Method `IsAuthenticated`; `now` is the value of `time.Now()` read in the body.
Returns the boolean and the authenticator after the lazy eviction. -/
def SimpleAuthenticator.IsAuthenticated (a : SimpleAuthenticator) (processID : String)
    (now : Int) : Bool × SimpleAuthenticator :=
  match a.authenticatedProcesses.get processID with
  | none => (false, a)
  | some expiryTime =>
    -- time.Now().After(expiryTime)
    if expiryTime < now then
      (false, { a with authenticatedProcesses := a.authenticatedProcesses.delete processID })
    else
      (true, a)

/-- What one call of `Authenticate` produced: the two return values, whether
`promptTouchID` was invoked, and the authenticator afterwards. -/
structure AuthResult where
  ok : Bool
  err : Option String
  prompted : Bool
  auth : SimpleAuthenticator
  deriving DecidableEq, Repr

/-- Method `Authenticate`. `now` is the clock read by the inner `IsAuthenticated`,
`prompt` is the answer `promptTouchID()` gives if it is invoked, `now0` is the
clock read when the grant is recorded (`time.Now().Add(a.authDuration)`). -/
def SimpleAuthenticator.Authenticate (a : SimpleAuthenticator) (processID : String)
    (_secretNames : List String) (now : Int) (prompt : Bool) (now0 : Int) : AuthResult :=
  let r := a.IsAuthenticated processID now
  if r.1 then
    { ok := true, err := none, prompted := false, auth := r.2 }
  else if !prompt then
    { ok := false, err := none, prompted := true, auth := r.2 }
  else
    { ok := true, err := none, prompted := true,
      auth := { r.2 with
        authenticatedProcesses :=
          r.2.authenticatedProcesses.set processID (now0 + r.2.authDuration) } }

/-! ### Sequences of authenticator calls -/

/-- One call on the authenticator, with the inputs it reads from outside. -/
inductive AuthCall where
  | authenticate (processID : String) (secretNames : List String) (now : Int)
      (prompt : Bool) (now0 : Int)
  | isAuthenticated (processID : String) (now : Int)
  deriving DecidableEq, Repr

/-- The process id a call is about. -/
def AuthCall.pid : AuthCall → String
  | .authenticate p _ _ _ _ => p
  | .isAuthenticated p _ => p

/-- The clock readings of a call, in the order they are taken (the second
reading of `Authenticate` is listed whether or not the call reaches it). -/
def AuthCall.times : AuthCall → List Int
  | .authenticate _ _ now _ now0 => [now, now0]
  | .isAuthenticated _ now => [now]

/-- The clock reading a call compares with the stored expiry. -/
def AuthCall.now : AuthCall → Int
  | .authenticate _ _ now _ _ => now
  | .isAuthenticated _ now => now

/-- The call is an `Authenticate(P)` whose presence prompt answers yes. -/
def AuthCall.confirms (P : String) : AuthCall → Bool
  | .authenticate p _ _ prompt _ => decide (p = P) && prompt
  | .isAuthenticated _ _ => false

/-- Run one call: the authenticator afterwards and the boolean returned. -/
def SimpleAuthenticator.call (a : SimpleAuthenticator) : AuthCall → SimpleAuthenticator × Bool
  | .authenticate p names now prompt now0 =>
    let r := a.Authenticate p names now prompt now0
    (r.auth, r.ok)
  | .isAuthenticated p now =>
    let r := a.IsAuthenticated p now
    (r.2, r.1)

/-- Run a sequence of calls, oldest first. -/
def SimpleAuthenticator.run (a : SimpleAuthenticator) : List AuthCall → SimpleAuthenticator
  | [] => a
  | c :: cs => SimpleAuthenticator.run (a.call c).1 cs

/-- All clock readings of a sequence of calls, in order. -/
def clockReadings (cs : List AuthCall) : List Int := (cs.map AuthCall.times).flatten

/-! ## Strings (package `strings`) -/

/-- The white-space test of `unicode.IsSpace`, which `strings.TrimSpace` uses. -/
def isSpace (c : Char) : Bool :=
  c.toNat = 9 || c.toNat = 10 || c.toNat = 11 || c.toNat = 12 || c.toNat = 13 ||
  c.toNat = 32 || c.toNat = 0x85 || c.toNat = 0xA0 || c.toNat = 0x1680 ||
  (0x2000 ≤ c.toNat && c.toNat ≤ 0x200A) || c.toNat = 0x2028 || c.toNat = 0x2029 ||
  c.toNat = 0x202F || c.toNat = 0x205F || c.toNat = 0x3000

/-- Drop the trailing characters that satisfy `p`. -/
def dropTrailing (p : Char → Bool) (cs : List Char) : List Char :=
  ((cs.reverse).dropWhile p).reverse

/-- The function `strings.TrimSpace`. -/
def TrimSpace (s : String) : String :=
  String.mk (dropTrailing isSpace (s.data.dropWhile isSpace))

/-- The function `strings.HasPrefix`. -/
def HasPrefix (s pre : String) : Bool := pre.data.isPrefixOf s.data

/-- Substring test on character lists. -/
def containsChars : List Char → List Char → Bool
  | [], sub => sub.isEmpty
  | c :: cs, sub => sub.isPrefixOf (c :: cs) || containsChars cs sub

/-- The function `strings.Contains`. -/
def Contains (s sub : String) : Bool := containsChars s.data sub.data

/-- The text before the first occurrence of `sep` and the text after it, if `sep` occurs. -/
def cutAt (sep : Char) : List Char → Option (List Char × List Char)
  | [] => none
  | c :: cs =>
    if c = sep then some ([], cs)
    else match cutAt sep cs with
      | none => none
      | some (a, b) => some (c :: a, b)

/-- The call `strings.SplitN(s, sep, 2)` for a one-character separator:
one part when `sep` does not occur, else the text before the first `sep` and
all the text after it. -/
def SplitN2 (s : String) (sep : Char) : List String :=
  match cutAt sep s.data with
  | none => [s]
  | some (a, b) => [String.mk a, String.mk b]

/-- All parts of a character list separated by `sep` (`strings.Split`). -/
def splitChars (sep : Char) : List Char → List (List Char)
  | [] => [[]]
  | c :: cs =>
    if c = sep then [] :: splitChars sep cs
    else match splitChars sep cs with
      | [] => [[c]]
      | part :: parts => (c :: part) :: parts

/-- Verb `%t` of `fmt`. -/
def fmtBool (b : Bool) : String := if b then "true" else "false"

/-- Verb `%d` of `fmt`. -/
def fmtInt (n : Int) : String := toString n

/-! ## The world outside the process -/

/-- The struct `config.ImbuedConfig`. -/
structure ImbuedConfig where
  Secrets : GoMap String
  ValidDepth : Int
  BackendType : String
  BackendConfig : GoMap String
  deriving DecidableEq, Repr

/-- What `exec.Cmd.Run` leaves behind: its error and the captured output streams. -/
structure ExecResult where
  err : Option String
  stdout : String
  stderr : String
  deriving DecidableEq, Repr

/-- What `os.Open` followed by a `bufio.Scanner` loop delivers: the lines
scanned, and the value of `scanner.Err()` after the loop. -/
structure FileScan where
  lines : List String
  err : Option String
  deriving DecidableEq, Repr

/-- A decoded JSON value (`interface{}` after `json.Unmarshal`). -/
inductive Json where
  | null
  | bool (b : Bool)
  | number (text : String)
  | string (s : String)
  | array (xs : List Json)
  | object (kvs : List (String × Json))

/-- The interface `tracking.Tracker` as the handlers use it: one constructor per method. -/
inductive TrackerCall where
  | TrackAuthenticationRequest (processID : String) (secretNames : List String)
  | TrackAuthenticationSuccess (processID : String) (secretNames : List String)
  | TrackAuthenticationFailure (processID : String) (secretNames : List String) (err : String)
  | TrackSecretAccess (processID : String) (secretNames : List String)
  | TrackSecretAccessFailure (processID : String) (secretNames : List String) (err : String)
  deriving DecidableEq, Repr

/-- The struct `Command` of `main.go`. -/
structure Command where
  Action : String
  ConfigPath : String := ""
  SecretName : String := ""
  ProcessID : String := ""
  MaxLevels : Int := 0
  CurrentDir : String := ""
  Environment : GoMap String := []
  BackendType : String := ""
  deriving DecidableEq, Repr

/-- What `keychain.AddItem` returns: nil, the error `keychain.ErrorDuplicateItem`,
or another error. -/
inductive KeychainAdd where
  | ok
  | duplicateItem
  | error (err : String)
  deriving DecidableEq, Repr

/-- Everything the daemon reads from outside while it serves one connection. -/
structure World where
  /-- The value of `time.Now()` read by `IsAuthenticated`. -/
  now : Int
  /-- The value of `time.Now()` read when `Authenticate` records a grant. -/
  nowGrant : Int
  /-- The call `exec.Command(name, args...).Run()`, with the variables added to `cmd.Env`. -/
  exec : String → List String → List String → ExecResult
  /-- The call `toml.DecodeFile(path, &imbuedConfigFile)`. -/
  decodeFile : String → Except String ImbuedConfig
  /-- The seed of the order in which the `n`-th `range` over a map, counted
  from 0 within one request, visits the entries. -/
  rangeSeed : Nat → List Nat
  /-- The error a `Tracker` method returns, if any. -/
  trackErr : TrackerCall → Option String
  /-- The call `os.Getwd()`. -/
  getwd : Except String String
  /-- Whether `os.Stat(path)` succeeds. -/
  stat : String → Bool
  /-- The calls `os.Open(path)` and the scanner loop over the file. -/
  openFile : String → Except String FileScan
  /-- The call `json.Unmarshal(stdout, &response)` into a `map[string]interface{}`. -/
  jsonObject : String → Except String (List (String × Json))
  /-- The result of `backend.StoreSecrets(m)` on a backend type that declares no
  such method (the interface `Backend` does not list it): left open. -/
  storeUndeclared : String → GoMap String → Option String
  /-- The call `keychain.QueryItem` for a generic password of a service and an
  account: the data of the matching items, or the error. -/
  keychainQuery : String → String → Except String (List String)
  /-- The call `keychain.AddItem` for a service, an account and a secret. -/
  keychainAdd : String → String → String → KeychainAdd
  /-- The error of the call `keychain.UpdateItem` for a service, an account and a secret. -/
  keychainUpdate : String → String → String → Option String

/-! ## pkg/config/config.go -/

/-- A cleaned absolute path: its components below the root, the root being `[]`. -/
abbrev Path := List String

/-- The text of a cleaned absolute path. -/
def Path.render : Path → String
  | [] => "/"
  | c :: cs => (c :: cs).foldl (fun acc x => acc ++ "/" ++ x) ""

/-- One step of `filepath.Clean` on a rooted path: empty and `.` components are
dropped, `..` removes the component before it (and is dropped at the root). -/
def cleanStep (acc : Path) (comp : String) : Path :=
  if comp = "" ∨ comp = "." then acc
  else if comp = ".." then acc.dropLast
  else acc ++ [comp]

/-- The function `filepath.Clean` on a path that starts with `/`, as components. -/
def cleanAbs (path : String) : Path :=
  ((splitChars '/' path.data).map String.mk).foldl cleanStep []

/-- The function `filepath.IsAbs` (Unix). -/
def IsAbs (path : String) : Bool := HasPrefix path "/"

/-- The function `filepath.Abs` (Unix): an absolute path is cleaned, a relative
one is joined to the working directory first. -/
def Abs (w : World) (path : String) : Except String Path :=
  if IsAbs path then .ok (cleanAbs path)
  else match w.getwd with
    | .error e => .error e
    | .ok wd => .ok (cleanAbs (wd ++ "/" ++ path))

/-- The function `filepath.Dir` on a cleaned absolute path; the root is its own parent. -/
def Dir (p : Path) : Path := p.dropLast

/-- The call `filepath.Join(dir, ".imbued")` on a cleaned absolute directory. -/
def configIn (dir : Path) : String := Path.render (dir ++ [".imbued"])

/-- The loop of `FindConfig` with `n` iterations left: `some path` for the
`return configPath, nil` inside the loop, `none` when the loop ends. -/
def FindConfig.loop (w : World) : Nat → Path → Option String
  | 0, _ => none
  | n + 1, currentDir =>
    if w.stat (configIn currentDir) then some (configIn currentDir)
    else if Dir currentDir = currentDir then none
    else FindConfig.loop w n (Dir currentDir)

/-- The function `FindConfig`: the path and the error it returns. The loop
`for i := 0; i <= maxLevels; i++` makes `maxLevels + 1` iterations (none when
`maxLevels` is negative) unless it returns or breaks earlier. -/
def FindConfig (w : World) (startDir : String) (maxLevels : Int) : String × Option String :=
  match Abs w startDir with
  | .error err => ("", some ("failed to get absolute path: " ++ err))
  | .ok currentDir =>
    match FindConfig.loop w (maxLevels + 1).toNat currentDir with
    | some configPath => (configPath, none)
    | none => ("", some ("no .imbued file found within " ++ fmtInt maxLevels ++
        " levels up from " ++ startDir))

/-- The function `LoadConfig`: decoding is the world's, the default of
`ValidDepth` is set here. -/
def LoadConfig (w : World) (configPath : String) : Except String ImbuedConfig :=
  match w.decodeFile configPath with
  | .error err => .error ("failed to decode config file: " ++ err)
  | .ok file =>
    let config : ImbuedConfig :=
      { Secrets := file.Secrets, ValidDepth := file.ValidDepth,
        BackendType := file.BackendType, BackendConfig := file.BackendConfig }
    if config.ValidDepth ≤ 0 then .ok { config with ValidDepth := 1 } else .ok config

/-! ## pkg/secrets -/

/-- The struct `EnvFileBackend`; the nil map of a fresh value reads as the empty map. -/
structure EnvFileBackend where
  filePath : String := ""
  secrets : GoMap String := []
  deriving DecidableEq, Repr

/-- The quote removal of `EnvFileBackend.Initialize`: when the value has more
than one character, starts with `"` or `'` and ends with the same character,
the first and the last character are cut off. (The source tests bytes; the
first and last byte are a quote exactly when the first and last character are.) -/
def unquote (value : String) : String :=
  match value.data with
  | [] => value
  | q :: rest =>
    if rest ≠ [] ∧ (q = Char.ofNat 34 ∨ q = Char.ofNat 39) ∧ rest.getLast? = some q then
      String.mk rest.dropLast
    else value

/-- The body of the scanner loop of `EnvFileBackend.Initialize` for one line. -/
def envFileLine (secrets : GoMap String) (text : String) : GoMap String :=
  let line := TrimSpace text
  if line = "" ∨ HasPrefix line "#" then secrets
  else match SplitN2 line '=' with
    | [k, v] => secrets.set (TrimSpace k) (unquote (TrimSpace v))
    | _ => secrets

/-- Method `EnvFileBackend.Initialize`: the backend afterwards and the error. -/
def EnvFileBackend.Initialize (w : World) (b : EnvFileBackend) (config : GoMap String) :
    EnvFileBackend × Option String :=
  match config.get "file_path" with
  | none => (b, some "file_path is required for env_file backend")
  | some filePath =>
    let b : EnvFileBackend := { b with filePath := filePath, secrets := [] }
    match w.openFile filePath with
    | .error err => (b, some ("failed to open env file: " ++ err))
    | .ok file =>
      let b : EnvFileBackend := { b with secrets := file.lines.foldl envFileLine b.secrets }
      match file.err with
      | some err => (b, some ("failed to read env file: " ++ err))
      | none => (b, none)

/-- Method `EnvFileBackend.GetSecret`. -/
def EnvFileBackend.GetSecret (b : EnvFileBackend) (key : String) : Except String String :=
  match b.secrets.get key with
  | none => .error ("secret not found: " ++ key)
  | some value => .ok value

/-- Method `EnvFileBackend.Close`. -/
def EnvFileBackend.Close (b : EnvFileBackend) : EnvFileBackend × Option String := (b, none)

/-- The struct `VaultBackend`. -/
structure VaultBackend where
  address : String := ""
  token : String := ""
  initialized : Bool := false
  deriving DecidableEq, Repr

/-- Method `VaultBackend.Initialize`. -/
def VaultBackend.Initialize (b : VaultBackend) (config : GoMap String) :
    VaultBackend × Option String :=
  match config.get "address" with
  | none => (b, some "address is required for vault backend")
  | some address =>
    match config.get "token" with
    | none => (b, some "token is required for vault backend")
    | some token => ({ address := address, token := token, initialized := true }, none)

/-- Method `VaultBackend.GetSecret`. -/
def VaultBackend.GetSecret (b : VaultBackend) (key : String) : Except String String :=
  if !b.initialized then .error "vault backend not initialized"
  else .ok ("vault-secret-" ++ key)

/-- Method `VaultBackend.Close`. -/
def VaultBackend.Close (b : VaultBackend) : VaultBackend × Option String :=
  ({ b with initialized := false }, none)

/-- The struct `AWSSecretManagerBackend`. -/
structure AWSSecretManagerBackend where
  region : String := ""
  accessKey : String := ""
  secretKey : String := ""
  sessionToken : String := ""
  initialized : Bool := false
  deriving DecidableEq, Repr

/-- Method `AWSSecretManagerBackend.Initialize`; the session token is optional. -/
def AWSSecretManagerBackend.Initialize (b : AWSSecretManagerBackend) (config : GoMap String) :
    AWSSecretManagerBackend × Option String :=
  match config.get "region" with
  | none => (b, some "region is required for aws_secret_manager backend")
  | some region =>
    match config.get "access_key" with
    | none => (b, some "access_key is required for aws_secret_manager backend")
    | some accessKey =>
      match config.get "secret_key" with
      | none => (b, some "secret_key is required for aws_secret_manager backend")
      | some secretKey =>
        ({ region := region, accessKey := accessKey, secretKey := secretKey,
           sessionToken := (config.get "session_token").getD "", initialized := true }, none)

/-- Method `AWSSecretManagerBackend.GetSecret`. -/
def AWSSecretManagerBackend.GetSecret (b : AWSSecretManagerBackend) (key : String) :
    Except String String :=
  if !b.initialized then .error "aws_secret_manager backend not initialized"
  else .ok ("aws-secret-" ++ key)

/-- Method `AWSSecretManagerBackend.Close`. -/
def AWSSecretManagerBackend.Close (b : AWSSecretManagerBackend) :
    AWSSecretManagerBackend × Option String :=
  ({ b with initialized := false }, none)

/-- The struct `GCPSecretManagerBackend`. -/
structure GCPSecretManagerBackend where
  projectID : String := ""
  credentials : String := ""
  initialized : Bool := false
  deriving DecidableEq, Repr

/-- Method `GCPSecretManagerBackend.Initialize`. -/
def GCPSecretManagerBackend.Initialize (b : GCPSecretManagerBackend) (config : GoMap String) :
    GCPSecretManagerBackend × Option String :=
  match config.get "project_id" with
  | none => (b, some "project_id is required for gcp_secret_manager backend")
  | some projectID =>
    match config.get "credentials" with
    | none => (b, some "credentials is required for gcp_secret_manager backend")
    | some credentials =>
      ({ projectID := projectID, credentials := credentials, initialized := true }, none)

/-- Method `GCPSecretManagerBackend.GetSecret`. -/
def GCPSecretManagerBackend.GetSecret (b : GCPSecretManagerBackend) (key : String) :
    Except String String :=
  if !b.initialized then .error "gcp_secret_manager backend not initialized"
  else .ok ("gcp-secret-" ++ key)

/-- Method `GCPSecretManagerBackend.Close`. -/
def GCPSecretManagerBackend.Close (b : GCPSecretManagerBackend) :
    GCPSecretManagerBackend × Option String :=
  ({ b with initialized := false }, none)

/-- Constant `KeychainServiceName`. -/
def KeychainServiceName : String := "com.novacove.imbued.onepass"

/-- Constant `KeychainAccountTokenKey`. -/
def KeychainAccountTokenKey : String := "account_token"

/-- Constant `KeychainVaultIDKey`. -/
def KeychainVaultIDKey : String := "vault_id"

/-- The struct `OnePassBackend`. -/
structure OnePassBackend where
  accountToken : String := ""
  vaultID : String := ""
  initialized : Bool := false
  deriving DecidableEq, Repr

/-- The function `GetKeychainItem`. -/
def GetKeychainItem (w : World) (service account : String) : Except String String :=
  let r := w.exec "security" ["find-generic-password", "-s", service, "-a", account, "-w"] []
  match r.err with
  | some err =>
    if Contains r.stderr "could not be found" then
      .error ("keychain item not found: service=" ++ service ++ ", account=" ++ account)
    else
      .error ("failed to get keychain item: " ++ err ++ ", stderr: " ++ r.stderr)
  | none => .ok (TrimSpace r.stdout)

/-- Method `OnePassBackend.verifyCliInstallation`. -/
def OnePassBackend.verifyCliInstallation (w : World) : Option String :=
  let r := w.exec "op" ["--version"] []
  match r.err with
  | some err =>
    some ("1Password CLI not found or not working: " ++ err ++ ", stderr: " ++ r.stderr)
  | none => none

/-- Method `OnePassBackend.Initialize`. -/
def OnePassBackend.Initialize (w : World) (b : OnePassBackend) (_config : GoMap String) :
    OnePassBackend × Option String :=
  match OnePassBackend.verifyCliInstallation w with
  | some err => (b, some ("1Password CLI verification failed: " ++ err))
  | none =>
    match GetKeychainItem w KeychainServiceName KeychainAccountTokenKey with
    | .error err =>
      (b, some ("failed to get 1Password account token from keychain: " ++ err))
    | .ok accountToken =>
      match GetKeychainItem w KeychainServiceName KeychainVaultIDKey with
      | .error err => (b, some ("failed to get 1Password vault ID from keychain: " ++ err))
      | .ok vaultID =>
        ({ accountToken := accountToken, vaultID := vaultID, initialized := true }, none)

/-- The loop of `OnePassBackend.GetSecret` over the `fields` array: the value of
the first object whose `label` is the string `password` and whose `value` is a string. -/
def passwordField : List Json → Option String
  | [] => none
  | .object fieldMap :: fields =>
    match GoMap.get fieldMap "label" with
    | some (.string label) =>
      if label = "password" then
        match GoMap.get fieldMap "value" with
        | some (.string value) => some value
        | _ => passwordField fields
      else passwordField fields
    | _ => passwordField fields
  | _ :: fields => passwordField fields

/-- Method `OnePassBackend.GetSecret`. -/
def OnePassBackend.GetSecret (w : World) (b : OnePassBackend) (key : String) :
    Except String String :=
  if !b.initialized then .error "onepass backend not initialized"
  else
    let r := w.exec "op" ["item", "get", key, "--vault", b.vaultID, "--format", "json"]
      ["OP_SERVICE_ACCOUNT_TOKEN=" ++ b.accountToken]
    match r.err with
    | some err =>
      if Contains r.stderr "not found" then .error ("secret not found: " ++ key)
      else .error ("failed to get secret from 1Password: " ++ err ++ ", stderr: " ++ r.stderr)
    | none =>
      match w.jsonObject r.stdout with
      | .error err => .error ("failed to parse 1Password response: " ++ err)
      | .ok response =>
        match GoMap.get response "fields" with
        | some (.array fields) =>
          match passwordField fields with
          | some value => .ok value
          | none => .error ("password field not found in 1Password item: " ++ key)
        | _ => .error "unexpected response format from 1Password"

/-- The loop of `OnePassBackend.StoreSecrets` over the entries in the order
they are visited: `some err` for a `return` inside the loop, `none` when the
loop runs to its end. -/
def OnePassBackend.storeLoop (w : World) (b : OnePassBackend) : GoMap String → Option String
  | [] => none
  | (key, value) :: secrets =>
    match OnePassBackend.GetSecret w b key with
    | .ok _ => some ("secret with key " ++ key ++ " already exists")
    | .error _ =>
      let r := w.exec "op" ["item", "create", "--vault", b.vaultID, "--category", "password",
        "--title", key, "password=" ++ value] ["OP_SERVICE_ACCOUNT_TOKEN=" ++ b.accountToken]
      match r.err with
      | some err =>
        some ("failed to store secret in 1Password: " ++ err ++ ", stderr: " ++ r.stderr)
      | none => OnePassBackend.storeLoop w b secrets

/-- Method `OnePassBackend.StoreSecrets`: the error it returns. -/
def OnePassBackend.StoreSecrets (w : World) (b : OnePassBackend) (secrets : GoMap String) :
    Option String :=
  if !b.initialized then some "onepass backend not initialized"
  else match OnePassBackend.storeLoop w b (secrets.range (w.rangeSeed 0)) with
    | some err => some err
    | none => some "storing secrets in 1Password is not implemented"

/-- Method `OnePassBackend.Close`. -/
def OnePassBackend.Close (b : OnePassBackend) : OnePassBackend × Option String :=
  ({ b with initialized := false }, none)

/-- The struct `MacOSKeychainBackend` (it has no fields). -/
structure MacOSKeychainBackend where
  deriving DecidableEq, Repr

/-- Constructor `NewMacOSKeychainBackend`. -/
def NewMacOSKeychainBackend : MacOSKeychainBackend := {}

/-- Method `MacOSKeychainBackend.Get`: the data of the first matching item, the
empty string when nothing matches. -/
def MacOSKeychainBackend.Get (w : World) (_b : MacOSKeychainBackend) (service account : String) :
    Except String String :=
  match w.keychainQuery service account with
  | .error err => .error err
  | .ok [] => .ok ""
  | .ok (data :: _) => .ok data

/-- Method `MacOSKeychainBackend.Set`: add the item, update it when it exists already. -/
def MacOSKeychainBackend.Set (w : World) (_b : MacOSKeychainBackend)
    (service account secret : String) : Option String :=
  match w.keychainAdd service account secret with
  | .duplicateItem => w.keychainUpdate service account secret
  | .ok => none
  | .error err => some err

/-- Method `MacOSKeychainBackend.Initialize`. -/
def MacOSKeychainBackend.Initialize (b : MacOSKeychainBackend) (_config : GoMap String) :
    MacOSKeychainBackend × Option String := (b, none)

/-- Method `MacOSKeychainBackend.GetSecret`. -/
def MacOSKeychainBackend.GetSecret (w : World) (b : MacOSKeychainBackend) (key : String) :
    Except String String :=
  if key = "" then .ok ""
  else match b.Get w "imbued" key with
    | .error err => .error err
    | .ok secret => .ok secret

/-- The loop of `MacOSKeychainBackend.StoreSecrets` over the entries in the
order they are visited. -/
def MacOSKeychainBackend.storeLoop (w : World) (b : MacOSKeychainBackend) :
    GoMap String → Option String
  | [] => none
  | (key, value) :: secrets =>
    match b.Set w "imbued" key value with
    | some err => some err
    | none => MacOSKeychainBackend.storeLoop w b secrets

/-- Method `MacOSKeychainBackend.StoreSecrets`: the error it returns. -/
def MacOSKeychainBackend.StoreSecrets (w : World) (b : MacOSKeychainBackend)
    (secrets : GoMap String) : Option String :=
  MacOSKeychainBackend.storeLoop w b (secrets.range (w.rangeSeed 0))

/-- Method `MacOSKeychainBackend.Close`. -/
def MacOSKeychainBackend.Close (b : MacOSKeychainBackend) :
    MacOSKeychainBackend × Option String := (b, none)

/-- A value of the interface `secrets.Backend`: one of the six types of the
package that have its methods. `NewBackend` returns five of them. -/
inductive Backend where
  | envFile (b : EnvFileBackend)
  | vault (b : VaultBackend)
  | onePass (b : OnePassBackend)
  | aws (b : AWSSecretManagerBackend)
  | gcp (b : GCPSecretManagerBackend)
  | macOSKeychain (b : MacOSKeychainBackend)
  deriving DecidableEq, Repr

/-- The function `NewBackend`. -/
def NewBackend (backendType : String) : Except String Backend :=
  if backendType = "env_file" then .ok (.envFile {})
  else if backendType = "vault" then .ok (.vault {})
  else if backendType = "onepass" then .ok (.onePass {})
  else if backendType = "aws_secret_manager" then .ok (.aws {})
  else if backendType = "gcp_secret_manager" then .ok (.gcp {})
  else .error ("unsupported backend type: " ++ backendType)

/-- Interface method `Initialize`, dispatched on the dynamic type. -/
def Backend.Initialize (w : World) (backend : Backend) (config : GoMap String) :
    Backend × Option String :=
  match backend with
  | .envFile b => ((b.Initialize w config).map Backend.envFile id)
  | .vault b => ((b.Initialize config).map Backend.vault id)
  | .onePass b => ((b.Initialize w config).map Backend.onePass id)
  | .aws b => ((b.Initialize config).map Backend.aws id)
  | .gcp b => ((b.Initialize config).map Backend.gcp id)
  | .macOSKeychain b => ((b.Initialize config).map Backend.macOSKeychain id)

/-- Interface method `GetSecret`, dispatched on the dynamic type. -/
def Backend.GetSecret (w : World) (backend : Backend) (key : String) : Except String String :=
  match backend with
  | .envFile b => b.GetSecret key
  | .vault b => b.GetSecret key
  | .onePass b => b.GetSecret w key
  | .aws b => b.GetSecret key
  | .gcp b => b.GetSecret key
  | .macOSKeychain b => b.GetSecret w key

/-- Interface method `Close`, dispatched on the dynamic type. -/
def Backend.Close (backend : Backend) : Backend × Option String :=
  match backend with
  | .envFile b => (b.Close.map Backend.envFile id)
  | .vault b => (b.Close.map Backend.vault id)
  | .onePass b => (b.Close.map Backend.onePass id)
  | .aws b => (b.Close.map Backend.aws id)
  | .gcp b => (b.Close.map Backend.gcp id)
  | .macOSKeychain b => (b.Close.map Backend.macOSKeychain id)

/-- The constant of type `BackendType` that names the dynamic type in the
`switch` of `NewBackend`; the package has no such constant for `MacOSKeychainBackend`. -/
def Backend.typeName : Backend → Option String
  | .envFile _ => some "env_file"
  | .vault _ => some "vault"
  | .onePass _ => some "onepass"
  | .aws _ => some "aws_secret_manager"
  | .gcp _ => some "gcp_secret_manager"
  | .macOSKeychain _ => none

/-- The call `backend.StoreSecrets(m)` of `handleStoreSecrets`. Only
`OnePassBackend` and `MacOSKeychainBackend` declare the method; for the other
types the result is the world's `storeUndeclared`. -/
def Backend.StoreSecrets (w : World) (backend : Backend) (secrets : GoMap String) :
    Option String :=
  match backend with
  | .onePass b => b.StoreSecrets w secrets
  | .macOSKeychain b => b.StoreSecrets w secrets
  | .envFile _ => w.storeUndeclared "env_file" secrets
  | .vault _ => w.storeUndeclared "vault" secrets
  | .aws _ => w.storeUndeclared "aws_secret_manager" secrets
  | .gcp _ => w.storeUndeclared "gcp_secret_manager" secrets

/-! ## cmd/imbued/main.go: the connection handlers -/

/-- The struct `Response` of `main.go`; a nil `Data` map is `none`. -/
structure Response where
  Success : Bool
  Error : String := ""
  Data : Option (GoMap String) := none
  Output : String := ""
  deriving DecidableEq, Repr

/-- A call on the secret backend made by a handler. -/
inductive BackendOp where
  | NewBackend (backendType : String)
  | Initialize
  | GetSecret (key : String)
  | StoreSecrets (secrets : GoMap String)
  | Close
  deriving DecidableEq, Repr

/-- What a handler does that is visible outside of it, in the order it happens. -/
inductive Event where
  /-- The call `sendResponse(conn, r)` wrote the response `r` to the connection. -/
  | response (r : Response)
  /-- A method of the `Tracker` was called. -/
  | tracked (call : TrackerCall)
  /-- The line `log.Printf` prints when a `Tracker` method returned an error. -/
  | logged (line : String)
  /-- The call `authenticator.IsAuthenticated(processID)`. -/
  | isAuthenticated (processID : String)
  /-- The call `authenticator.Authenticate(processID, secretNames)`. -/
  | authenticate (processID : String) (secretNames : List String)
  /-- The presence prompt `promptTouchID()` was shown. -/
  | prompt
  /-- A call on the secret backend. -/
  | backend (op : BackendOp)
  deriving DecidableEq, Repr

/-- The state a handler works on: the shared authenticator and the trace of
what has happened on the connection so far. -/
structure Conn where
  auth : SimpleAuthenticator
  trace : List Event := []
  deriving DecidableEq, Repr

/-- Add an event to the trace. -/
def Conn.emit (c : Conn) (e : Event) : Conn := { c with trace := c.trace ++ [e] }

/-- The responses written to the connection, oldest first. -/
def Conn.responses (c : Conn) : List Response :=
  c.trace.filterMap fun e => match e with
    | .response r => some r
    | _ => none

/-- The calls made on the `Tracker`, oldest first: the records it is asked to append. -/
def Conn.tracked (c : Conn) : List TrackerCall :=
  c.trace.filterMap fun e => match e with
    | .tracked call => some call
    | _ => none

/-- The calls made on the secret backend, oldest first. -/
def Conn.backendOps (c : Conn) : List BackendOp :=
  c.trace.filterMap fun e => match e with
    | .backend op => some op
    | _ => none

/-- The function `sendResponse`. -/
def sendResponse (c : Conn) (resp : Response) : Conn := c.emit (.response resp)

/-- The handlers' idiom `if err := tracker.M(...); err != nil { log.Printf(what, err) }`. -/
def track (w : World) (c : Conn) (call : TrackerCall) (what : String) : Conn :=
  match w.trackErr call with
  | some err => ((c.emit (.tracked call)).emit (.logged (what ++ ": " ++ err)))
  | none => c.emit (.tracked call)

/-- The function `promptTouchID`: run the `security authorize` tool, true when it exits well. -/
def promptTouchID (w : World) : Bool :=
  (w.exec "security" ["authorize", "-u", "-p",
    "imbued would like to use TouchID authentication to hydrate your environment"] []).err.isNone

/-- The call `authenticator.IsAuthenticated(processID)` from a handler. -/
def Conn.isAuthenticated (w : World) (c : Conn) (processID : String) : Bool × Conn :=
  let r := c.auth.IsAuthenticated processID w.now
  (r.1, { (c.emit (.isAuthenticated processID)) with auth := r.2 })

/-- The call `authenticator.Authenticate(processID, secretNames)` from a handler. -/
def Conn.authenticate (w : World) (c : Conn) (processID : String) (secretNames : List String) :
    AuthResult × Conn :=
  let r := c.auth.Authenticate processID secretNames w.now (promptTouchID w) w.nowGrant
  let c := c.emit (.authenticate processID secretNames)
  let c := if r.prompted then c.emit .prompt else c
  (r, { c with auth := r.auth })

/-- A failure response with the given message. -/
def failure (msg : String) : Response := { Success := false, Error := msg }

/-- Handler `handleCheckAuth`. -/
def handleCheckAuth (w : World) (cmd : Command) (c : Conn) : Conn :=
  let r := c.isAuthenticated w cmd.ProcessID
  sendResponse r.2 { Success := true, Data := some [("authenticated", fmtBool r.1)] }

/-- Handler `handleAuthenticate`. -/
def handleAuthenticate (w : World) (cmd : Command) (c : Conn) : Conn :=
  match LoadConfig w cmd.ConfigPath with
  | .error err => sendResponse c (failure ("Failed to load config: " ++ err))
  | .ok cfg =>
    let secretNames := (cfg.Secrets.range (w.rangeSeed 0)).keys
    let c := track w c (.TrackAuthenticationRequest cmd.ProcessID secretNames)
      "Failed to track authentication request"
    let r := c.authenticate w cmd.ProcessID secretNames
    let c := r.2
    match r.1.err with
    | some err =>
      let c := track w c (.TrackAuthenticationFailure cmd.ProcessID secretNames err)
        "Failed to track authentication failure"
      sendResponse c (failure ("Authentication failed: " ++ err))
    | none =>
      if !r.1.ok then
        let c := track w c
          (.TrackAuthenticationFailure cmd.ProcessID secretNames "authentication denied")
          "Failed to track authentication failure"
        sendResponse c (failure "Authentication denied")
      else
        let c := track w c (.TrackAuthenticationSuccess cmd.ProcessID secretNames)
          "Failed to track authentication success"
        sendResponse c { Success := true, Output := "Authentication successful" }

/-- Handler `handleGetSecret`. -/
def handleGetSecret (w : World) (cmd : Command) (c : Conn) : Conn :=
  match LoadConfig w cmd.ConfigPath with
  | .error err => sendResponse c (failure ("Failed to load config: " ++ err))
  | .ok cfg =>
    match cfg.Secrets.get cmd.SecretName with
    | none => sendResponse c (failure ("Secret not found: " ++ cmd.SecretName))
    | some envName =>
      let r := c.isAuthenticated w cmd.ProcessID
      let c := r.2
      if !r.1 then sendResponse c (failure "Process is not authenticated")
      else
        let c := track w c (.TrackSecretAccess cmd.ProcessID [cmd.SecretName])
          "Failed to track secret access"
        let c := c.emit (.backend (.NewBackend cfg.BackendType))
        match NewBackend cfg.BackendType with
        | .error err => sendResponse c (failure ("Failed to create secret backend: " ++ err))
        | .ok backend =>
          let c := c.emit (.backend .Initialize)
          match backend.Initialize w cfg.BackendConfig with
          | (_, some err) =>
            sendResponse c (failure ("Failed to initialize secret backend: " ++ err))
          | (backend, none) =>
            let c := c.emit (.backend (.GetSecret cmd.SecretName))
            match backend.GetSecret w cmd.SecretName with
            | .error err =>
              let c := track w c (.TrackSecretAccessFailure cmd.ProcessID [cmd.SecretName] err)
                "Failed to track secret access failure"
              let c := sendResponse c (failure ("Failed to get secret: " ++ err))
              c.emit (.backend .Close)
            | .ok secretValue =>
              let c := sendResponse c
                { Success := true,
                  Data := some [("env_name", envName), ("value", secretValue)] }
              c.emit (.backend .Close)

/-- Handler `handleStoreSecrets`. -/
def handleStoreSecrets (w : World) (cmd : Command) (c : Conn) : Conn :=
  match LoadConfig w cmd.ConfigPath with
  | .error err => sendResponse c (failure ("Failed to load config: " ++ err))
  | .ok cfg =>
    let r := c.isAuthenticated w cmd.ProcessID
    let c := r.2
    if !r.1 then sendResponse c (failure "Process is not authenticated")
    else
      let c := track w c (.TrackSecretAccess cmd.ProcessID [cmd.SecretName])
        "Failed to track secret access"
      let c := c.emit (.backend (.NewBackend cfg.BackendType))
      match NewBackend cfg.BackendType with
      | .error err => sendResponse c (failure ("Failed to create secret backend: " ++ err))
      | .ok backend =>
        let c := c.emit (.backend .Initialize)
        match backend.Initialize w cfg.BackendConfig with
        | (_, some err) =>
          sendResponse c (failure ("Failed to initialize secret backend: " ++ err))
        | (backend, none) =>
          let c := c.emit (.backend (.StoreSecrets cmd.Environment))
          match backend.StoreSecrets w cmd.Environment with
          | some err =>
            let c := sendResponse c (failure ("Failed to store secrets: " ++ err))
            c.emit (.backend .Close)
          | none =>
            let c := sendResponse c { Success := true }
            c.emit (.backend .Close)

/-- Handler `handleListSecrets`. -/
def handleListSecrets (w : World) (cmd : Command) (c : Conn) : Conn :=
  match LoadConfig w cmd.ConfigPath with
  | .error err => sendResponse c (failure ("Failed to load config: " ++ err))
  | .ok cfg =>
    let data := (cfg.Secrets.range (w.rangeSeed 0)).foldl
      (fun (data : GoMap String) kv => data.set kv.1 kv.2) []
    sendResponse c { Success := true, Data := some data }

/-- The body of the loop of `handleInjectEnv` for one configured secret. -/
def injectStep (w : World) (cmd : Command) (backend : Backend)
    (st : Conn × GoMap String) (kv : String × String) : Conn × GoMap String :=
  let c := st.1.emit (.backend (.GetSecret kv.1))
  match backend.GetSecret w kv.1 with
  | .error err =>
    (track w c (.TrackSecretAccessFailure cmd.ProcessID [kv.1] err)
      "Failed to track secret access failure", st.2)
  | .ok secretValue => (c, st.2.set kv.2 secretValue)

/-- Handler `handleInjectEnv`. -/
def handleInjectEnv (w : World) (cmd : Command) (c : Conn) : Conn :=
  match LoadConfig w cmd.ConfigPath with
  | .error err => sendResponse c (failure ("Failed to load config: " ++ err))
  | .ok cfg =>
    let r := c.isAuthenticated w cmd.ProcessID
    let c := r.2
    if !r.1 then sendResponse c (failure "Process is not authenticated")
    else
      let secretNames := (cfg.Secrets.range (w.rangeSeed 0)).keys
      let c := track w c (.TrackSecretAccess cmd.ProcessID secretNames)
        "Failed to track secret access"
      let c := c.emit (.backend (.NewBackend cfg.BackendType))
      match NewBackend cfg.BackendType with
      | .error err => sendResponse c (failure ("Failed to create secret backend: " ++ err))
      | .ok backend =>
        let c := c.emit (.backend .Initialize)
        match backend.Initialize w cfg.BackendConfig with
        | (_, some err) =>
          sendResponse c (failure ("Failed to initialize secret backend: " ++ err))
        | (backend, none) =>
          let st := (cfg.Secrets.range (w.rangeSeed 1)).foldl (injectStep w cmd backend) (c, [])
          let c := sendResponse st.1 { Success := true, Data := some st.2 }
          c.emit (.backend .Close)

/-- Handler `handleCleanEnv`. -/
def handleCleanEnv (w : World) (cmd : Command) (c : Conn) : Conn :=
  match LoadConfig w cmd.ConfigPath with
  | .error err => sendResponse c (failure ("Failed to load config: " ++ err))
  | .ok cfg =>
    let data := (cfg.Secrets.range (w.rangeSeed 0)).foldl
      (fun (data : GoMap String) kv => data.set kv.2 "") []
    sendResponse c { Success := true, Data := some data }

/-- Handler `handleShowConfig`. -/
def handleShowConfig (w : World) (cmd : Command) (c : Conn) : Conn :=
  match LoadConfig w cmd.ConfigPath with
  | .error err => sendResponse c (failure ("Failed to load config: " ++ err))
  | .ok cfg =>
    let data : GoMap String :=
      [("config_file", cmd.ConfigPath), ("valid_depth", fmtInt cfg.ValidDepth),
       ("backend_type", cfg.BackendType)]
    let data := (cfg.BackendConfig.range (w.rangeSeed 0)).foldl
      (fun (data : GoMap String) kv => data.set ("backend_config." ++ kv.1) kv.2) data
    let data := (cfg.Secrets.range (w.rangeSeed 1)).foldl
      (fun (data : GoMap String) kv => data.set ("secret." ++ kv.1) kv.2) data
    sendResponse c { Success := true, Data := some data }

/-- Handler `handleFindConfig`. -/
def handleFindConfig (w : World) (cmd : Command) (c : Conn) : Conn :=
  match FindConfig w cmd.CurrentDir cmd.MaxLevels with
  | (_, some err) => sendResponse c (failure ("Failed to find config: " ++ err))
  | (configPath, none) =>
    sendResponse c { Success := true, Data := some [("config_path", configPath)] }

/-- What `json.NewDecoder(conn).Decode(&cmd)` yields on a connection. -/
inductive Decoded where
  | error (err : String)
  | command (cmd : Command)
  deriving DecidableEq, Repr

/-- The error of `json.MarshalIndent(cmd, "", "  ")` in `handleConnection`: every
field of `Command` is a string, an int or a map of strings, which `encoding/json`
always encodes, so the error is nil. -/
def marshalIndentErr (_cmd : Command) : Option String := none

/-- The function `handleConnection`, from the decoding of the command on. -/
def handleConnection (w : World) (input : Decoded) (c : Conn) : Conn :=
  match input with
  | .error err => sendResponse c (failure ("Failed to decode command: " ++ err))
  | .command cmd =>
    match marshalIndentErr cmd with
    | some err => sendResponse c (failure ("Failed to stringify command: " ++ err))
    | none =>
      if cmd.Action = "check_auth" then handleCheckAuth w cmd c
      else if cmd.Action = "authenticate" then handleAuthenticate w cmd c
      else if cmd.Action = "get_secret" then handleGetSecret w cmd c
      else if cmd.Action = "list_secrets" then handleListSecrets w cmd c
      else if cmd.Action = "inject_env" then handleInjectEnv w cmd c
      else if cmd.Action = "clean_env" then handleCleanEnv w cmd c
      else if cmd.Action = "show_config" then handleShowConfig w cmd c
      else if cmd.Action = "find_config" then handleFindConfig w cmd c
      else if cmd.Action = "store_secrets" then handleStoreSecrets w cmd c
      else sendResponse c (failure ("Unknown action: " ++ cmd.Action))

/-! ## pkg/tracking/tracking.go -/

/-- The type `AccessType`, a string type. -/
abbrev AccessType := String

/-- Constant `AuthenticationRequest`. -/
def AuthenticationRequest : AccessType := "authentication_request"

/-- Constant `AuthenticationSuccess`. -/
def AuthenticationSuccess : AccessType := "authentication_success"

/-- Constant `AuthenticationFailure`. -/
def AuthenticationFailure : AccessType := "authentication_failure"

/-- Constant `SecretAccess`. -/
def SecretAccess : AccessType := "secret_access"

/-- Constant `SecretAccessFailure`. -/
def SecretAccessFailure : AccessType := "secret_access_failure"

/-- A `time.Time` as the tracker uses it, which only prints it: the calendar
fields of the instant in its location, and the offset of the zone in seconds
east of UTC. -/
structure WallTime where
  year : Int
  month : Nat
  day : Nat
  hour : Nat
  minute : Nat
  second : Nat
  nanosecond : Nat
  offset : Int
  deriving DecidableEq, Repr

/-- The struct `AccessRecord`. -/
structure AccessRecord where
  Timestamp : WallTime
  /-- The field `Type` (a keyword here). -/
  Type_ : AccessType
  ProcessID : String
  SecretNames : List String := []
  Error : String := ""
  deriving DecidableEq, Repr

/-- The record each `FileTracker` method passes to `trackEvent`; `now` is the
value of `time.Now()` read by the method. -/
def TrackerCall.record (now : WallTime) : TrackerCall → AccessRecord
  | .TrackAuthenticationRequest processID secretNames =>
    { Timestamp := now, Type_ := AuthenticationRequest, ProcessID := processID,
      SecretNames := secretNames }
  | .TrackAuthenticationSuccess processID secretNames =>
    { Timestamp := now, Type_ := AuthenticationSuccess, ProcessID := processID,
      SecretNames := secretNames }
  | .TrackAuthenticationFailure processID secretNames err =>
    { Timestamp := now, Type_ := AuthenticationFailure, ProcessID := processID,
      SecretNames := secretNames, Error := err }
  | .TrackSecretAccess processID secretNames =>
    { Timestamp := now, Type_ := SecretAccess, ProcessID := processID,
      SecretNames := secretNames }
  | .TrackSecretAccessFailure processID secretNames err =>
    { Timestamp := now, Type_ := SecretAccessFailure, ProcessID := processID,
      SecretNames := secretNames, Error := err }

/-! ### `json.Marshal` of an `AccessRecord`

The text is modelled by its characters. `encoding/json` writes UTF-8 bytes; the
byte of a line feed occurs in the bytes exactly where the character occurs. -/

/-- The line feed, `'\n'`. -/
def lineFeed : Char := Char.ofNat 10

/-- The double quote. -/
def doubleQuote : Char := Char.ofNat 34

/-- The backslash. -/
def backslash : Char := Char.ofNat 92

/-- The decimal digit of `n % 10`. -/
def digitChar (n : Nat) : Char :=
  match n % 10 with
  | 0 => '0' | 1 => '1' | 2 => '2' | 3 => '3' | 4 => '4'
  | 5 => '5' | 6 => '6' | 7 => '7' | 8 => '8' | _ => '9'

/-- The digit `hex[n % 16]` of `encoding/json`. -/
def hexChar (n : Nat) : Char :=
  match n % 16 with
  | 0 => '0' | 1 => '1' | 2 => '2' | 3 => '3' | 4 => '4' | 5 => '5' | 6 => '6' | 7 => '7'
  | 8 => '8' | 9 => '9' | 10 => 'a' | 11 => 'b' | 12 => 'c' | 13 => 'd' | 14 => 'e'
  | _ => 'f'

/-- The decimal digits of `n` in front of `acc`; `fuel` bounds their number. -/
def decimalCore : Nat → Nat → List Char → List Char
  | 0, _, acc => acc
  | fuel + 1, n, acc =>
    if n < 10 then digitChar n :: acc
    else decimalCore fuel (n / 10) (digitChar n :: acc)

/-- The decimal digits of `n`, most significant first. -/
def decimal (n : Nat) : List Char := decimalCore (n + 1) n []

/-- The function `appendInt` of package `time`: a sign for a negative number,
then the decimal digits, padded with zeros to at least `width` digits. -/
def appendInt (x : Int) (width : Nat) : List Char :=
  (if x < 0 then ['-'] else []) ++
    List.replicate (width - (decimal x.natAbs).length) '0' ++ decimal x.natAbs

/-- The function `appendNano` of package `time` for the layout `.999999999`:
nothing for zero nanoseconds, else a dot and nine digits without the trailing zeros. -/
def appendNano (nanosecond : Nat) : List Char :=
  if nanosecond = 0 then []
  else dropTrailing (fun c => c = '0') ('.' :: appendInt nanosecond 9)

/-- The function `Time.appendFormatRFC3339` with nanoseconds. -/
def WallTime.appendFormatRFC3339 (t : WallTime) : List Char :=
  appendInt t.year 4 ++ ['-'] ++ appendInt t.month 2 ++ ['-'] ++ appendInt t.day 2 ++ ['T'] ++
    appendInt t.hour 2 ++ [':'] ++ appendInt t.minute 2 ++ [':'] ++ appendInt t.second 2 ++
    appendNano t.nanosecond ++
    (if t.offset = 0 then ['Z']
     else
      (if t.offset ≤ -60 then ['-'] else ['+']) ++
        appendInt (t.offset.natAbs / 60 / 60) 2 ++ [':'] ++
        appendInt (t.offset.natAbs / 60 % 60) 2)

/-- The method `Time.MarshalJSON`: the quoted RFC 3339 text, or the error of
`appendStrictRFC3339` when the year is not four digits wide or the hour of the
zone is not below 24. -/
def WallTime.MarshalJSON (t : WallTime) : Except String (List Char) :=
  if t.year < 0 ∨ 9999 < t.year then
    .error "Time.MarshalJSON: year outside of range [0,9999]"
  else if t.offset ≠ 0 ∧ 24 ≤ t.offset.natAbs / 60 / 60 then
    .error "Time.MarshalJSON: timezone hour outside of range [0,23]"
  else .ok ([doubleQuote] ++ t.appendFormatRFC3339 ++ [doubleQuote])

/-- How `encoding/json` writes one character of a string: quote, backslash and
the control characters are escaped, as are `<`, `>`, `&`, U+2028 and U+2029. -/
def jsonEscape (c : Char) : List Char :=
  if c = backslash ∨ c = doubleQuote then [backslash, c]
  else if c.toNat = 8 then [backslash, 'b']
  else if c.toNat = 12 then [backslash, 'f']
  else if c.toNat = 10 then [backslash, 'n']
  else if c.toNat = 13 then [backslash, 'r']
  else if c.toNat = 9 then [backslash, 't']
  else if c.toNat < 32 ∨ c = '<' ∨ c = '>' ∨ c = '&' then
    [backslash, 'u', '0', '0', hexChar (c.toNat / 16), hexChar c.toNat]
  else if c.toNat = 0x2028 ∨ c.toNat = 0x2029 then
    [backslash, 'u', '2', '0', '2', hexChar c.toNat]
  else [c]

/-- A JSON string as `encoding/json` writes it. -/
def jsonString (s : String) : List Char :=
  [doubleQuote] ++ s.data.flatMap jsonEscape ++ [doubleQuote]

/-- The elements of a JSON array of strings, separated by commas. -/
def jsonElements : List String → List Char
  | [] => []
  | [s] => jsonString s
  | s :: rest => jsonString s ++ [','] ++ jsonElements rest

/-- A JSON array of strings. -/
def jsonStrings (l : List String) : List Char := ['['] ++ jsonElements l ++ [']']

/-- The call `json.Marshal(record)`: the fields in the order of the struct, the
fields `secret_names` and `error` left out when empty (`omitempty`). -/
def AccessRecord.Marshal (r : AccessRecord) : Except String String :=
  match r.Timestamp.MarshalJSON with
  | .error err => .error ("json: error calling MarshalJSON for type time.Time: " ++ err)
  | .ok timestamp =>
    .ok (String.mk
      ("\x7b\"timestamp\":".data ++ timestamp ++
        ",\"type\":".data ++ jsonString r.Type_ ++
        ",\"process_id\":".data ++ jsonString r.ProcessID ++
        (if r.SecretNames = [] then [] else ",\"secret_names\":".data ++ jsonStrings r.SecretNames) ++
        (if r.Error = "" then [] else ",\"error\":".data ++ jsonString r.Error) ++
        "\x7d".data))

/-- The struct `FileTracker`: the content of the file behind `logFile`, which
`NewFileTracker` opens for appending. -/
structure FileTracker where
  logFile : String
  deriving DecidableEq, Repr

/-- The function `NewFileTracker` on a path whose file holds `content` (empty
when the file is created): the flags are `O_APPEND|O_CREATE|O_WRONLY`, so the
content stays. -/
def NewFileTracker (content : String) : FileTracker := { logFile := content }

/-- What `logFile.Write(b)` does: all of `b` is appended and the error is nil,
or the first `written` bytes are appended and an error is returned. -/
inductive WriteResult where
  | ok
  | failed (written : Nat) (err : String)
  deriving DecidableEq, Repr

/-- The method `FileTracker.trackEvent`: the tracker afterwards and the error. -/
def FileTracker.trackEvent (t : FileTracker) (record : AccessRecord) (write : WriteResult) :
    FileTracker × Option String :=
  match record.Marshal with
  | .error err => (t, some ("failed to marshal record: " ++ err))
  | .ok data =>
    let line := data.data ++ [lineFeed]
    match write with
    | .ok => ({ logFile := String.mk (t.logFile.data ++ line) }, none)
    | .failed written err =>
      ({ logFile := String.mk (t.logFile.data ++ line.take written) },
        some ("failed to write to log file: " ++ err))

/-! ## The method set of `EnvFileBackend` -/

/-- A call of one of the methods `envfile.go` declares on `EnvFileBackend`:
`Initialize`, `GetSecret` and `Close`; there is no other. -/
inductive EnvFileCall where
  | Initialize (config : GoMap String)
  | GetSecret (key : String)
  | Close
  deriving DecidableEq, Repr

/-- The backend after one method call. -/
def EnvFileBackend.call (w : World) (b : EnvFileBackend) : EnvFileCall → EnvFileBackend
  | .Initialize config => (b.Initialize w config).1
  | .GetSecret _ => b
  | .Close => b.Close.1

/-- The backend after a sequence of method calls, oldest first. -/
def EnvFileBackend.run (w : World) (b : EnvFileBackend) : List EnvFileCall → EnvFileBackend
  | [] => b
  | c :: cs => EnvFileBackend.run w (b.call w c) cs

/-! ## Properties named by the statements below -/

/-- The invariant of a response: a failure carries a message, a success carries none. -/
def Response.errorMatchesSuccess (r : Response) : Prop :=
  (r.Success = false → r.Error ≠ "") ∧ (r.Success = true → r.Error = "")

/-- The `k`-th ancestor of a directory: `filepath.Dir` applied `k` times. -/
def ancestor (dir : Path) : Nat → Path
  | 0 => dir
  | k + 1 => ancestor (Dir dir) k

/-- A path component as `filepath.Clean` leaves it: not empty, not `.` or `..`,
and without a separator. -/
def normalComponent (c : String) : Prop :=
  c ≠ "" ∧ c ≠ "." ∧ c ≠ ".." ∧ '/' ∉ c.data

/-- The registry `NewBackend` implements with its `switch`: type string to fresh backend. -/
def registeredBackends : GoMap Backend :=
  [("env_file", .envFile {}), ("vault", .vault {}), ("onepass", .onePass {}),
   ("aws_secret_manager", .aws {}), ("gcp_secret_manager", .gcp {})]

/-- The keys a backend requires of its config, in the order `Initialize` asks for them. -/
def requiredKeys : Backend → List String
  | .envFile _ => ["file_path"]
  | .vault _ => ["address", "token"]
  | .aws _ => ["region", "access_key", "secret_key"]
  | .gcp _ => ["project_id", "credentials"]
  | .onePass _ => []
  | .macOSKeychain _ => []

/-- The field `initialized` of a backend, for the four types that have one. -/
def Backend.initialized : Backend → Option Bool
  | .vault b => some b.initialized
  | .onePass b => some b.initialized
  | .aws b => some b.initialized
  | .gcp b => some b.initialized
  | .envFile _ => none
  | .macOSKeychain _ => none

/-- The first of the given keys that the config does not hold, if any. -/
def firstAbsent (keys : List String) (config : GoMap String) : Option String :=
  keys.find? (fun k => (config.get k).isNone)

/-- The same world, except that the methods of the tracker return what `f` says. -/
def World.withTrackErr (w : World) (f : TrackerCall → Option String) : World :=
  { w with trackErr := f }

/-- The nine actions `handleConnection` routes to a handler. -/
def knownActions : List String :=
  ["check_auth", "authenticate", "get_secret", "list_secrets", "inject_env", "clean_env",
   "show_config", "find_config", "store_secrets"]

/-! ## Concrete worlds for the examples -/

/-- A world in which every external call fails: no files, no tools. -/
def World.bare : World where
  now := 0
  nowGrant := 0
  exec := fun _ _ _ => { err := some "exit status 1", stdout := "", stderr := "" }
  decodeFile := fun _ => .error "no such file or directory"
  rangeSeed := fun _ => []
  trackErr := fun _ => none
  getwd := .ok "/"
  stat := fun _ => false
  openFile := fun _ => .error "no such file or directory"
  jsonObject := fun _ => .error "unexpected end of JSON input"
  storeUndeclared := fun _ _ => none
  keychainQuery := fun _ _ => .error "keychain unavailable"
  keychainAdd := fun _ _ _ => .error "keychain unavailable"
  keychainUpdate := fun _ _ _ => some "keychain unavailable"

/-- A config with the secrets A, B, C read from the env file `/srv/app/.env`. -/
def sampleConfig : ImbuedConfig where
  Secrets := [("A", "ENV_A"), ("B", "ENV_B"), ("C", "ENV_C")]
  ValidDepth := 1
  BackendType := "env_file"
  BackendConfig := [("file_path", "/srv/app/.env")]

/-- A world at time 100 with `sampleConfig` at `/srv/app/.imbued` and an env
file that defines A and C but not B. -/
def World.sample : World :=
  { World.bare with
    now := 100
    nowGrant := 101
    rangeSeed := fun n => [n, 0, 1]
    decodeFile := fun path =>
      if path = "/srv/app/.imbued" then .ok sampleConfig
      else .error "no such file or directory"
    stat := fun path => decide (path = "/srv/app/.imbued")
    openFile := fun path =>
      if path = "/srv/app/.env" then .ok { lines := ["A=va", "# no B here", "C=vc"], err := none }
      else .error "no such file or directory" }

/-- A config that selects the onepass backend. -/
def onepassConfig : ImbuedConfig where
  Secrets := [("A", "ENV_A")]
  ValidDepth := 1
  BackendType := "onepass"
  BackendConfig := []

/-- A world with `onepassConfig` at `/srv/op/.imbued` in which every tool runs
well, except that `op item get` reports that the item is not found. -/
def World.onepass : World :=
  { World.bare with
    now := 100
    nowGrant := 101
    decodeFile := fun path =>
      if path = "/srv/op/.imbued" then .ok onepassConfig
      else .error "no such file or directory"
    exec := fun name args _ =>
      if name = "op" ∧ args.take 2 = ["item", "get"] then
        { err := some "exit status 1", stdout := "", stderr := "item not found" }
      else { err := none, stdout := "tok\n", stderr := "" } }

/-- A reading of the clock: 9 March 2025, 07:05:01.12, five hours west of UTC. -/
def sampleTime : WallTime :=
  { year := 2025, month := 3, day := 9, hour := 7, minute := 5, second := 1,
    nanosecond := 120000000, offset := -18000 }

/-- The record of `TrackSecretAccessFailure` whose process id, secret name and
error message each hold a line feed. -/
def sampleRecord : AccessRecord :=
  TrackerCall.record sampleTime (.TrackSecretAccessFailure "4\n2" ["A\nB"] "x\ny")

/-- A tracker whose log file already holds one line. -/
def sampleTracker : FileTracker := NewFileTracker "earlier\n"

/-! ## The table of an env file, in the words of the specification -/

/-- Specification side: one pair of surrounding quotes is removed exactly when
the value has length above 1 and begins and ends with the same quote character,
`'` or `"`. (A value that begins with a quote has more than one character
exactly when it has more than one byte.) -/
def specStripQuotes (value : String) : String :=
  if 1 < value.data.length ∧
      ((value.data.head? = some (Char.ofNat 34) ∧ value.data.getLast? = some (Char.ofNat 34)) ∨
       (value.data.head? = some (Char.ofNat 39) ∧ value.data.getLast? = some (Char.ofNat 39)))
  then String.mk (value.data.drop 1).dropLast
  else value

/-- Specification side: the pair a line defines. The line is trimmed; it is
skipped if it is empty, starts with `#` or contains no `=`; otherwise the key is
the trimmed text before the first `=` and the value the trimmed text after it,
quotes stripped. -/
def specPair (text : String) : Option (String × String) :=
  let line := TrimSpace text
  if line.data = [] then none
  else if line.data.head? = some '#' then none
  else if '=' ∉ line.data then none
  else
    some (TrimSpace (String.mk (line.data.takeWhile (fun c => c != '='))),
      specStripQuotes
        (TrimSpace (String.mk ((line.data.dropWhile (fun c => c != '=')).drop 1))))

/-- Specification side: the table of a file, a later line for a key overriding
an earlier one: the value of the last line that defines the key. -/
def specTable (lines : List String) (k : String) : Option String :=
  match (lines.filterMap specPair).reverse.find? (fun kv => kv.1 = k) with
  | some kv => some kv.2
  | none => none

/-- The lines of an env file with blanks, a comment, a line without `=`, quoted
values, a value that holds `=`, and a key defined twice. -/
def sampleEnvLines : List String :=
  ["  A = \"x=y\" ", "# B=hidden", "no assignment here", "", "A='z'", "B=\"", "C = 'open"]

/-- A world whose every file opens and scans as `sampleEnvLines`. -/
def World.envLines : World :=
  { World.bare with openFile := fun _ => .ok { lines := sampleEnvLines, err := none } }

/-! ## pkg/config/config.go: `IsWithinValidDepth` -/

/-- The call `strings.Count(s, string(os.PathSeparator))`. -/
def countSeparators (s : String) : Nat := s.data.count '/'

/-- The loop of `filepath.Rel` that steps over the leading elements the base
and the target share: what is left of the base and of the target. -/
def Rel.skipShared : Path → Path → Path × Path
  | b :: base, t :: targ => if t = b then Rel.skipShared base targ else (b :: base, t :: targ)
  | base, targ => (base, targ)

/-- Elements joined by the separator. -/
def joinElements : List String → String
  | [] => ""
  | [c] => c
  | c :: cs => c ++ "/" ++ joinElements cs

/-- The function `filepath.Rel` on two cleaned absolute paths (Unix): `.` for
equal paths; else one `..` for every element left of the base, then the
elements left of the target. The error is the one of a base whose next element
is `..`, which a cleaned absolute path never has. -/
def Rel (basepath targpath : Path) : Except String String :=
  if targpath = basepath then .ok "."
  else
    let rest := Rel.skipShared basepath targpath
    if rest.1.head? = some ".." then
      .error ("Rel: can't make " ++ Path.render targpath ++ " relative to " ++
        Path.render basepath)
    else if rest.1 ≠ [] then .ok (joinElements (rest.1.map (fun _ => "..") ++ rest.2))
    else .ok (joinElements rest.2)

/-- The function `IsWithinValidDepth`. -/
def IsWithinValidDepth (w : World) (configDir currentDir : String) (validDepth : Int) :
    Except String Bool :=
  match Abs w configDir with
  | .error err => .error ("failed to get absolute path for config dir: " ++ err)
  | .ok absConfigDir =>
    match Abs w currentDir with
    | .error err => .error ("failed to get absolute path for current dir: " ++ err)
    | .ok absCurrentDir =>
      if !HasPrefix (Path.render absCurrentDir) (Path.render absConfigDir) then .ok false
      else
        match Rel absConfigDir absCurrentDir with
        | .error err => .error ("failed to get relative path: " ++ err)
        | .ok relPath =>
          if relPath = "." then .ok true
          else
            let depth : Int := countSeparators relPath + 1
            .ok (decide (depth ≤ validDepth))

/-! ## cmd/imbued/main.go: the command `check-onepass` -/

/-- The bytes of a character in UTF-8, the encoding of a Go string. -/
def utf8Bytes (c : Char) : List Nat :=
  if c.toNat < 0x80 then [c.toNat]
  else if c.toNat < 0x800 then [0xC0 + c.toNat / 0x40, 0x80 + c.toNat % 0x40]
  else if c.toNat < 0x10000 then
    [0xE0 + c.toNat / 0x1000, 0x80 + c.toNat / 0x40 % 0x40, 0x80 + c.toNat % 0x40]
  else
    [0xF0 + c.toNat / 0x40000, 0x80 + c.toNat / 0x1000 % 0x40, 0x80 + c.toNat / 0x40 % 0x40,
      0x80 + c.toNat % 0x40]

/-- A Go string as the sequence of its bytes. -/
def goBytes (s : String) : List Nat := s.data.flatMap utf8Bytes

/-- The slice expression `s[:high]` on a Go string: the first `high` bytes, or
the run-time panic when `high` exceeds `len(s)`. -/
def sliceTo (s : List Nat) (high : Nat) : Except String (List Nat) :=
  if high ≤ s.length then .ok (s.take high)
  else
    .error ("runtime error: slice bounds out of range [:" ++ String.mk (decimal high) ++
      "] with length " ++ String.mk (decimal s.length))

/-- How the function of a command ends: it returns its error, or it panics. -/
inductive Ending where
  | returned (err : Option String)
  | panicked (message : String)
  deriving DecidableEq, Repr

/-- The function `RunE` of `checkOnePassCredentialsCmd`: the lines written to
the standard output, as bytes, and how the function ends. -/
def checkOnePassCredentialsCmd (w : World) : List (List Nat) × Ending :=
  match GetKeychainItem w KeychainServiceName KeychainAccountTokenKey with
  | .error err =>
    ([], .returned (some ("1Password account token not found in keychain: " ++ err)))
  | .ok accountToken =>
    match GetKeychainItem w KeychainServiceName KeychainVaultIDKey with
    | .error err => ([], .returned (some ("1Password vault ID not found in keychain: " ++ err)))
    | .ok vaultID =>
      let out := [goBytes "1Password credentials found in the macOS Keychain:\n"]
      match sliceTo (goBytes accountToken) 10 with
      | .error message => (out, .panicked message)
      | .ok masked =>
        (out ++
          [goBytes "Account token: " ++ (masked ++ goBytes "***") ++ goBytes "...\n",
           goBytes "Vault ID: " ++ goBytes vaultID ++ goBytes "\n"],
          .returned none)

/-- A world whose keychain holds the account token `tok` and the vault id `vault-1234567`. -/
def World.shortToken : World :=
  { World.bare with
    exec := fun _ args _ =>
      if args.contains KeychainAccountTokenKey then
        { err := none, stdout := "tok\n", stderr := "" }
      else { err := none, stdout := "vault-1234567\n", stderr := "" } }

/-- The same world, except that a call of `StoreSecrets` on a backend type that
declares no such method returns what `store` says. -/
def World.withStore (w : World) (store : String → GoMap String → Option String) : World :=
  { w with storeUndeclared := store }

/-! # Theorems -/

/-! ## Go maps -/

theorem GoMap.get_delete_self {V : Type} (m : GoMap V) (k : String) :
    (m.delete k).get k = none := by
  induction m with
  | nil => rfl
  | cons kv m ih =>
    obtain ⟨k', v⟩ := kv
    by_cases h : k' = k <;> simp [GoMap.delete, GoMap.get, h, ih]

theorem GoMap.get_delete_of_ne {V : Type} (m : GoMap V) (k q : String) (h : q ≠ k) :
    (m.delete k).get q = m.get q := by
  induction m with
  | nil => rfl
  | cons kv m ih =>
    obtain ⟨k', v⟩ := kv
    by_cases h1 : k' = k
    · subst h1
      simp [GoMap.delete, GoMap.get, Ne.symm h, ih]
    · by_cases h2 : k' = q
      · subst h2
        simp [GoMap.delete, GoMap.get, h]
      · simp [GoMap.delete, GoMap.get, h1, h2, ih]

theorem GoMap.get_set_self {V : Type} (m : GoMap V) (k : String) (v : V) :
    (m.set k v).get k = some v := by
  simp [GoMap.set, GoMap.get]

theorem GoMap.get_set_of_ne {V : Type} (m : GoMap V) (k q : String) (v : V) (h : q ≠ k) :
    (m.set k v).get q = m.get q := by
  simp [GoMap.set, GoMap.get, Ne.symm h, GoMap.get_delete_of_ne m k q h]

theorem GoMap.insertAt_perm {α : Type} (x : α) (i : Nat) (l : List α) :
    (GoMap.insertAt x i l).Perm (x :: l) := by
  induction l generalizing i with
  | nil => cases i <;> exact List.Perm.refl _
  | cons y ys ih =>
    cases i with
    | zero => exact List.Perm.refl _
    | succ i => exact ((ih i).cons y).trans (List.Perm.swap x y ys)

theorem GoMap.shuffle_perm {α : Type} (seed : List Nat) (l : List α) :
    (GoMap.shuffle seed l).Perm l := by
  induction l generalizing seed with
  | nil => cases seed <;> exact List.Perm.refl _
  | cons x xs ih =>
    cases seed with
    | nil => exact List.Perm.refl _
    | cons i seed => exact (GoMap.insertAt_perm x i _).trans ((ih seed).cons x)

theorem GoMap.insertAt_length_append {α : Type} (x : α) (a b : List α) :
    GoMap.insertAt x a.length (a ++ b) = a ++ x :: b := by
  induction a with
  | nil => cases b <;> rfl
  | cons y ys ih => simp [GoMap.insertAt, ih]

/-- Every order of the entries is the order of some seed. -/
theorem GoMap.shuffle_complete {α : Type} (l l' : List α) (h : l'.Perm l) :
    ∃ seed, GoMap.shuffle seed l = l' := by
  induction l generalizing l' with
  | nil =>
    rw [List.perm_nil] at h
    exact ⟨[], by rw [h]; rfl⟩
  | cons x xs ih =>
    have hx : x ∈ l' := h.symm.subset (List.mem_cons_self x xs)
    obtain ⟨a, b, hab⟩ := List.append_of_mem hx
    subst hab
    have hrest : (a ++ b).Perm xs := by
      have := h
      rw [List.perm_comm] at this
      exact (List.perm_middle.symm.trans this.symm).cons_inv
    obtain ⟨seed, hseed⟩ := ih (a ++ b) hrest
    exact ⟨a.length :: seed, by simp [GoMap.shuffle, hseed, GoMap.insertAt_length_append]⟩

/-- A `range` loop visits a permutation of the entries. -/
theorem GoMap.range_perm {V : Type} (seed : List Nat) (m : GoMap V) :
    (m.range seed).Perm m := GoMap.shuffle_perm seed m

/-! ## Authenticator -/

theorem SimpleAuthenticator.IsAuthenticated_duration (a : SimpleAuthenticator) (P : String)
    (now : Int) : (a.IsAuthenticated P now).2.authDuration = a.authDuration := by
  unfold SimpleAuthenticator.IsAuthenticated
  split
  · rfl
  · split <;> rfl

/-- The result of `IsAuthenticated` in terms of the table. -/
theorem SimpleAuthenticator.IsAuthenticated_eq_true_iff (a : SimpleAuthenticator) (P : String)
    (now : Int) :
    (a.IsAuthenticated P now).1 = true ↔
      ∃ e, a.authenticatedProcesses.get P = some e ∧ now ≤ e := by
  unfold SimpleAuthenticator.IsAuthenticated
  split
  · rename_i h; simp [h]
  · rename_i e h
    split
    · rename_i hlt; simp [h]; omega
    · rename_i hlt; simp [h]; omega

/-- After a call that answered false, the process has no entry. -/
theorem SimpleAuthenticator.IsAuthenticated_false_get (a : SimpleAuthenticator) (P : String)
    (now : Int) (h : (a.IsAuthenticated P now).1 = false) :
    (a.IsAuthenticated P now).2.authenticatedProcesses.get P = none := by
  unfold SimpleAuthenticator.IsAuthenticated at h ⊢
  split
  · rename_i hg; exact hg
  · rename_i e hg
    split
    · exact GoMap.get_delete_self _ _
    · rename_i hlt; simp [hg, hlt] at h

/-- A call that answered true leaves the authenticator as it was. -/
theorem SimpleAuthenticator.IsAuthenticated_true_state (a : SimpleAuthenticator) (P : String)
    (now : Int) (h : (a.IsAuthenticated P now).1 = true) :
    (a.IsAuthenticated P now).2 = a := by
  unfold SimpleAuthenticator.IsAuthenticated at h ⊢
  split
  · rfl
  · split
    · rename_i e hg hlt; simp [hg, hlt] at h
    · rfl

/-- A call for `P` never touches the entry of another process. -/
theorem SimpleAuthenticator.IsAuthenticated_get_other (a : SimpleAuthenticator) (P Q : String)
    (now : Int) (h : Q ≠ P) :
    (a.IsAuthenticated P now).2.authenticatedProcesses.get Q =
      a.authenticatedProcesses.get Q := by
  unfold SimpleAuthenticator.IsAuthenticated
  split
  · rfl
  · split
    · exact GoMap.get_delete_of_ne _ _ _ h
    · rfl

/-- C1. If `Authenticate(P, names)` consults the presence prompt and the prompt
confirms, the call returns true and records the grant at the clock reading `now0`;
`IsAuthenticated(P)` called next at time `t` returns true for every `t` before
`now0 + authDuration` and false for every `t` after `now0 + authDuration`. -/
theorem C1_grant_valid_until_expiry (a : SimpleAuthenticator) (P : String)
    (names : List String) (now now0 t : Int)
    (hprompt : (a.Authenticate P names now true now0).prompted = true) :
    (a.Authenticate P names now true now0).ok = true ∧
    (t < now0 + a.authDuration →
      ((a.Authenticate P names now true now0).auth.IsAuthenticated P t).1 = true) ∧
    (now0 + a.authDuration < t →
      ((a.Authenticate P names now true now0).auth.IsAuthenticated P t).1 = false) := by
  have hd := SimpleAuthenticator.IsAuthenticated_duration a P now
  unfold SimpleAuthenticator.Authenticate at hprompt ⊢
  by_cases h1 : (a.IsAuthenticated P now).1 = true
  · simp [h1] at hprompt
  · simp only [h1, Bool.false_eq_true, if_false, Bool.not_true]
    refine ⟨trivial, ?_, ?_⟩
    · intro ht
      rw [SimpleAuthenticator.IsAuthenticated_eq_true_iff]
      exact ⟨_, GoMap.get_set_self _ _ _, by rw [hd]; omega⟩
    · intro ht
      cases hr : (SimpleAuthenticator.IsAuthenticated
        { (a.IsAuthenticated P now).2 with
          authenticatedProcesses :=
            (a.IsAuthenticated P now).2.authenticatedProcesses.set P
              (now0 + (a.IsAuthenticated P now).2.authDuration) } P t).1 with
      | false => rfl
      | true =>
        rw [SimpleAuthenticator.IsAuthenticated_eq_true_iff] at hr
        obtain ⟨e, he, hle⟩ := hr
        simp only [GoMap.get_set_self, Option.some.injEq] at he
        rw [hd] at he
        omega

theorem C1_grant_valid_until_expiry_witness :
    ((NewSimpleAuthenticator 10).Authenticate "42" ["A"] 100 true 101).prompted = true ∧
    (((NewSimpleAuthenticator 10).Authenticate "42" ["A"] 100 true 101).ok = true ∧
    ((105 : Int) < 101 + (NewSimpleAuthenticator 10).authDuration →
      (((NewSimpleAuthenticator 10).Authenticate "42" ["A"] 100 true 101).auth.IsAuthenticated
        "42" 105).1 = true) ∧
    (101 + (NewSimpleAuthenticator 10).authDuration < (105 : Int) →
      (((NewSimpleAuthenticator 10).Authenticate "42" ["A"] 100 true 101).auth.IsAuthenticated
        "42" 105).1 = false)) :=
  ⟨by decide, C1_grant_valid_until_expiry (NewSimpleAuthenticator 10) "42" ["A"] 100 101 105
    (by decide)⟩

/-- C3. A second `Authenticate(P, names)` while the grant of `P` is still valid
returns `(true, nil)` without invoking the presence prompt and leaves the
authenticator, hence the expiry of `P`, exactly as it was. -/
theorem C3_authenticate_idempotent (a : SimpleAuthenticator) (P : String)
    (names : List String) (now : Int) (prompt : Bool) (now0 e : Int)
    (hgrant : a.authenticatedProcesses.get P = some e) (hvalid : now ≤ e) :
    (a.Authenticate P names now prompt now0).ok = true ∧
    (a.Authenticate P names now prompt now0).err = none ∧
    (a.Authenticate P names now prompt now0).prompted = false ∧
    (a.Authenticate P names now prompt now0).auth = a := by
  have h1 : (a.IsAuthenticated P now).1 = true :=
    (SimpleAuthenticator.IsAuthenticated_eq_true_iff a P now).2 ⟨e, hgrant, hvalid⟩
  have h2 := SimpleAuthenticator.IsAuthenticated_true_state a P now h1
  simp [SimpleAuthenticator.Authenticate, h1, h2]

theorem C3_authenticate_idempotent_witness :
    ((⟨[("42", 110)], 10⟩ : SimpleAuthenticator).Authenticate "42" ["A"] 105 true 106).ok = true ∧
    ((⟨[("42", 110)], 10⟩ : SimpleAuthenticator).Authenticate "42" ["A"] 105 true 106).err = none ∧
    ((⟨[("42", 110)], 10⟩ : SimpleAuthenticator).Authenticate "42" ["A"] 105 true 106).prompted
      = false ∧
    ((⟨[("42", 110)], 10⟩ : SimpleAuthenticator).Authenticate "42" ["A"] 105 true 106).auth
      = ⟨[("42", 110)], 10⟩ :=
  C3_authenticate_idempotent ⟨[("42", 110)], 10⟩ "42" ["A"] 105 true 106 110
    (by decide) (by decide)

/-- C4. When `P` holds no valid grant (no entry, or an entry whose expiry is
before the clock reading) and the presence prompt is denied or fails,
`Authenticate(P, names)` returns `(false, nil)`, the table afterwards has no
entry for `P`, and `IsAuthenticated(P)` is false at every time `t`. -/
theorem C4_denied_records_no_grant (a : SimpleAuthenticator) (P : String)
    (names : List String) (now now0 t : Int)
    (hno : ∀ e, a.authenticatedProcesses.get P = some e → e < now) :
    (a.Authenticate P names now false now0).ok = false ∧
    (a.Authenticate P names now false now0).err = none ∧
    (a.Authenticate P names now false now0).auth.authenticatedProcesses.get P = none ∧
    ((a.Authenticate P names now false now0).auth.IsAuthenticated P t).1 = false := by
  have h1 : (a.IsAuthenticated P now).1 = false := by
    cases h : (a.IsAuthenticated P now).1 with
    | false => rfl
    | true =>
      obtain ⟨e, he, hle⟩ := (SimpleAuthenticator.IsAuthenticated_eq_true_iff a P now).1 h
      have := hno e he
      omega
  have h2 := SimpleAuthenticator.IsAuthenticated_false_get a P now h1
  have h3 : (a.Authenticate P names now false now0).auth = (a.IsAuthenticated P now).2 := by
    simp [SimpleAuthenticator.Authenticate, h1]
  refine ⟨by simp [SimpleAuthenticator.Authenticate, h1],
    by simp [SimpleAuthenticator.Authenticate, h1], by rw [h3]; exact h2, ?_⟩
  rw [h3]
  cases h : ((a.IsAuthenticated P now).2.IsAuthenticated P t).1 with
  | false => rfl
  | true =>
    obtain ⟨e, he, _⟩ := (SimpleAuthenticator.IsAuthenticated_eq_true_iff _ P t).1 h
    rw [h2] at he
    cases he

theorem C4_denied_records_no_grant_witness :
    ((⟨[("7", 500), ("42", 90)], 10⟩ : SimpleAuthenticator).Authenticate
      "42" ["A"] 100 false 101).ok = false ∧
    ((⟨[("7", 500), ("42", 90)], 10⟩ : SimpleAuthenticator).Authenticate
      "42" ["A"] 100 false 101).err = none ∧
    ((⟨[("7", 500), ("42", 90)], 10⟩ : SimpleAuthenticator).Authenticate
      "42" ["A"] 100 false 101).auth.authenticatedProcesses.get "42" = none ∧
    (((⟨[("7", 500), ("42", 90)], 10⟩ : SimpleAuthenticator).Authenticate
      "42" ["A"] 100 false 101).auth.IsAuthenticated "42" 80).1 = false :=
  C4_denied_records_no_grant ⟨[("7", 500), ("42", 90)], 10⟩ "42" ["A"] 100 101 80
    (by decide)

/-! ### Sequences of calls -/

theorem SimpleAuthenticator.run_append (a : SimpleAuthenticator) (cs ds : List AuthCall) :
    a.run (cs ++ ds) = (a.run cs).run ds := by
  induction cs generalizing a with
  | nil => rfl
  | cons c cs ih => exact ih _

/-- An entry seen after `IsAuthenticated` was there before the call. -/
theorem SimpleAuthenticator.IsAuthenticated_get_some (a : SimpleAuthenticator) (P Q : String)
    (now e : Int) (h : (a.IsAuthenticated P now).2.authenticatedProcesses.get Q = some e) :
    a.authenticatedProcesses.get Q = some e := by
  by_cases hq : Q = P
  · subst hq
    cases hr : (a.IsAuthenticated Q now).1 with
    | false =>
      rw [SimpleAuthenticator.IsAuthenticated_false_get a Q now hr] at h
      cases h
    | true =>
      rw [SimpleAuthenticator.IsAuthenticated_true_state a Q now hr] at h
      exact h
  · rw [SimpleAuthenticator.IsAuthenticated_get_other a P Q now hq] at h
    exact h

theorem SimpleAuthenticator.call_duration (a : SimpleAuthenticator) (c : AuthCall) :
    (a.call c).1.authDuration = a.authDuration := by
  cases c with
  | authenticate p names now prompt now0 =>
    have hd := SimpleAuthenticator.IsAuthenticated_duration a p now
    simp only [SimpleAuthenticator.call, SimpleAuthenticator.Authenticate]
    split
    · exact hd
    · split <;> exact hd
  | isAuthenticated p now => exact SimpleAuthenticator.IsAuthenticated_duration a p now

theorem SimpleAuthenticator.run_duration (a : SimpleAuthenticator) (cs : List AuthCall) :
    (a.run cs).authDuration = a.authDuration := by
  induction cs generalizing a with
  | nil => rfl
  | cons c cs ih =>
    show ((a.call c).1.run cs).authDuration = a.authDuration
    rw [ih, SimpleAuthenticator.call_duration]

/-- A call that is not a confirmed `Authenticate(P)` cannot create an entry for `P`. -/
theorem SimpleAuthenticator.call_keeps_absent (a : SimpleAuthenticator) (P : String)
    (c : AuthCall) (hnone : a.authenticatedProcesses.get P = none)
    (hc : c.confirms P = false) : (a.call c).1.authenticatedProcesses.get P = none := by
  have key : ∀ p now, (a.IsAuthenticated p now).2.authenticatedProcesses.get P = none := by
    intro p now
    cases h : (a.IsAuthenticated p now).2.authenticatedProcesses.get P with
    | none => rfl
    | some e =>
      rw [SimpleAuthenticator.IsAuthenticated_get_some a p P now e h] at hnone
      cases hnone
  cases c with
  | isAuthenticated p now => exact key p now
  | authenticate p names now prompt now0 =>
    simp only [SimpleAuthenticator.call, SimpleAuthenticator.Authenticate]
    split
    · exact key p now
    · split
      · exact key p now
      · rename_i hp
        have hprompt : prompt = true := by simpa using hp
        have hne : P ≠ p := by
          intro e
          simp [AuthCall.confirms, hprompt, e] at hc
        show (((a.IsAuthenticated p now).2.authenticatedProcesses.set p _).get P) = none
        rw [GoMap.get_set_of_ne _ _ _ _ hne]
        exact key p now

theorem SimpleAuthenticator.run_keeps_absent (a : SimpleAuthenticator) (P : String)
    (cs : List AuthCall) (hnone : a.authenticatedProcesses.get P = none)
    (hcs : ∀ c ∈ cs, AuthCall.confirms P c = false) :
    (a.run cs).authenticatedProcesses.get P = none := by
  induction cs generalizing a with
  | nil => exact hnone
  | cons c cs ih =>
    exact ih _ (SimpleAuthenticator.call_keeps_absent a P c hnone
      (hcs c (List.mem_cons_self _ _))) (fun c' h' => hcs c' (List.mem_cons_of_mem _ h'))

/-- A call for `P` made after the expiry of its grant, when it is not a
confirmed `Authenticate`, leaves `P` without an entry. -/
theorem SimpleAuthenticator.call_evicts (a : SimpleAuthenticator) (P : String) (c : AuthCall)
    (hpid : c.pid = P) (hc : c.confirms P = false)
    (hexp : ∀ e, a.authenticatedProcesses.get P = some e → e < c.now) :
    (a.call c).1.authenticatedProcesses.get P = none := by
  have h1 : ∀ now, (∀ e, a.authenticatedProcesses.get P = some e → e < now) →
      (a.IsAuthenticated P now).1 = false := by
    intro now hno
    cases h : (a.IsAuthenticated P now).1 with
    | false => rfl
    | true =>
      obtain ⟨e, he, hle⟩ := (SimpleAuthenticator.IsAuthenticated_eq_true_iff a P now).1 h
      have := hno e he
      omega
  cases c with
  | isAuthenticated p now =>
    simp only [AuthCall.pid] at hpid
    subst hpid
    exact SimpleAuthenticator.IsAuthenticated_false_get a p now (h1 now hexp)
  | authenticate p names now prompt now0 =>
    simp only [AuthCall.pid] at hpid
    subst hpid
    have hprompt : prompt = false := by simpa [AuthCall.confirms] using hc
    have h2 := h1 now hexp
    simp only [SimpleAuthenticator.call, SimpleAuthenticator.Authenticate, h2, hprompt]
    exact SimpleAuthenticator.IsAuthenticated_false_get a p now h2

/-- Every entry of the table of an authenticator that started empty was
recorded by a confirmed `Authenticate` of the history. -/
theorem SimpleAuthenticator.entry_has_grant (d : Int) (cs : List AuthCall) (Q : String)
    (e : Int)
    (h : ((NewSimpleAuthenticator d).run cs).authenticatedProcesses.get Q = some e) :
    ∃ pre names now t0 post, cs = pre ++ AuthCall.authenticate Q names now true t0 :: post ∧
      (((NewSimpleAuthenticator d).run pre).Authenticate Q names now true t0).prompted = true ∧
      e = t0 + d := by
  induction cs using List.reverseRecOn generalizing Q e with
  | nil => simp [SimpleAuthenticator.run, NewSimpleAuthenticator, GoMap.get] at h
  | append_singleton cs c ih =>
    rw [SimpleAuthenticator.run_append] at h
    have lift : ((NewSimpleAuthenticator d).run cs).authenticatedProcesses.get Q = some e →
        ∃ pre names now t0 post,
          cs ++ [c] = pre ++ AuthCall.authenticate Q names now true t0 :: post ∧
          (((NewSimpleAuthenticator d).run pre).Authenticate Q names now true t0).prompted
            = true ∧ e = t0 + d := by
      intro h0
      obtain ⟨pre, names, now, t0, post, hcs, hp, he⟩ := ih Q e h0
      exact ⟨pre, names, now, t0, post ++ [c], by simp [hcs], hp, he⟩
    cases c with
    | isAuthenticated p now =>
      exact lift (SimpleAuthenticator.IsAuthenticated_get_some _ p Q now e h)
    | authenticate p names now prompt now0 =>
      simp only [SimpleAuthenticator.run, SimpleAuthenticator.call,
        SimpleAuthenticator.Authenticate] at h
      split at h
      · exact lift (SimpleAuthenticator.IsAuthenticated_get_some _ p Q now e h)
      · rename_i hfalse
        split at h
        · exact lift (SimpleAuthenticator.IsAuthenticated_get_some _ p Q now e h)
        · rename_i hp
          have hprompt : prompt = true := by simpa using hp
          subst hprompt
          by_cases hq : Q = p
          · subst hq
            simp only [GoMap.get_set_self, Option.some.injEq] at h
            rw [SimpleAuthenticator.IsAuthenticated_duration,
              SimpleAuthenticator.run_duration] at h
            refine ⟨cs, names, now, now0, [], rfl, ?_, ?_⟩
            · simp [SimpleAuthenticator.Authenticate, hfalse]
            · simpa [NewSimpleAuthenticator] using h.symm
          · rw [GoMap.get_set_of_ne _ _ _ _ hq] at h
            exact lift (SimpleAuthenticator.IsAuthenticated_get_some _ p Q now e h)

theorem clockReadings_append (cs ds : List AuthCall) :
    clockReadings (cs ++ ds) = clockReadings cs ++ clockReadings ds := by
  simp [clockReadings]

/-- C2. On an authenticator created by `NewSimpleAuthenticator d` and driven by
any sequence of calls: (a) once a call for `P` that is not a confirmed
`Authenticate` has been made at a time later than the expiry of the grant of
`P`, `IsAuthenticated(P)` is false at every time `t` after any further calls
`mid` that contain no confirmed `Authenticate(P)`; and (b) when the clock
readings are non-decreasing, `IsAuthenticated(P)` returns true at time `t` only
if an earlier `Authenticate(P)` consulted the prompt, was confirmed and recorded
its grant at some `t0` with `t0 ≤ t ≤ t0 + d`. -/
theorem C2_expired_grant_never_valid_again (d : Int) (P : String) (pre : List AuthCall)
    (c : AuthCall) (mid : List AuthCall) (t : Int) :
    (c.pid = P → c.confirms P = false →
      (∀ e, ((NewSimpleAuthenticator d).run pre).authenticatedProcesses.get P = some e →
        e < c.now) →
      (∀ c' ∈ mid, AuthCall.confirms P c' = false) →
      (((NewSimpleAuthenticator d).run (pre ++ c :: mid)).IsAuthenticated P t).1 = false) ∧
    ((clockReadings (pre ++ [AuthCall.isAuthenticated P t])).Pairwise (fun x y => x ≤ y) →
      (((NewSimpleAuthenticator d).run pre).IsAuthenticated P t).1 = true →
      ∃ pre1 names now t0 post,
        pre = pre1 ++ AuthCall.authenticate P names now true t0 :: post ∧
        (((NewSimpleAuthenticator d).run pre1).Authenticate P names now true t0).prompted
          = true ∧
        t0 ≤ t ∧ t ≤ t0 + d) := by
  constructor
  · intro hpid hc hexp hmid
    rw [SimpleAuthenticator.run_append]
    have h0 := SimpleAuthenticator.call_evicts _ P c hpid hc hexp
    have h1 := SimpleAuthenticator.run_keeps_absent _ P mid h0 hmid
    cases h : ((((NewSimpleAuthenticator d).run pre).run (c :: mid)).IsAuthenticated P t).1 with
    | false => rfl
    | true =>
      obtain ⟨e, he, _⟩ := (SimpleAuthenticator.IsAuthenticated_eq_true_iff _ P t).1 h
      have h1' : ((((NewSimpleAuthenticator d).run pre).run (c :: mid))).authenticatedProcesses.get
          P = none := h1
      rw [h1'] at he
      cases he
  · intro hmono htrue
    obtain ⟨e, he, hle⟩ := (SimpleAuthenticator.IsAuthenticated_eq_true_iff _ P t).1 htrue
    obtain ⟨pre1, names, now, t0, post, hpre, hp, hexp⟩ :=
      SimpleAuthenticator.entry_has_grant d pre P e he
    refine ⟨pre1, names, now, t0, post, hpre, hp, ?_, by omega⟩
    rw [clockReadings_append, List.pairwise_append] at hmono
    refine hmono.2.2 t0 ?_ t (by simp [clockReadings, AuthCall.times])
    rw [hpre, clockReadings_append]
    simp [clockReadings, AuthCall.times]

theorem C2_expired_grant_never_valid_again_witness :
    (((NewSimpleAuthenticator 10).run
        ([AuthCall.authenticate "42" ["A"] 100 true 101] ++
          AuthCall.isAuthenticated "42" 120 ::
            [AuthCall.isAuthenticated "7" 121,
              AuthCall.authenticate "42" ["A"] 122 false 123])).IsAuthenticated "42" 105).1
      = false ∧
    (∃ pre1 names now t0 post,
      [AuthCall.authenticate "42" ["A"] 100 true 101] =
        pre1 ++ AuthCall.authenticate "42" names now true t0 :: post ∧
      (((NewSimpleAuthenticator 10).run pre1).Authenticate "42" names now true t0).prompted
        = true ∧
      t0 ≤ 105 ∧ (105 : Int) ≤ t0 + 10) :=
  ⟨(C2_expired_grant_never_valid_again 10 "42" [AuthCall.authenticate "42" ["A"] 100 true 101]
      (AuthCall.isAuthenticated "42" 120)
      [AuthCall.isAuthenticated "7" 121, AuthCall.authenticate "42" ["A"] 122 false 123]
      105).1 (by decide) (by decide) (by decide) (by decide),
   (C2_expired_grant_never_valid_again 10 "42" [AuthCall.authenticate "42" ["A"] 100 true 101]
      (AuthCall.isAuthenticated "42" 120)
      [AuthCall.isAuthenticated "7" 121, AuthCall.authenticate "42" ["A"] 122 false 123]
      105).2 (by decide) (by decide)⟩

/-! ## Handlers: the responses written -/

theorem append_ne_empty (s t : String) (h : s.length ≠ 0) : s ++ t ≠ "" := by
  intro e
  have := congrArg String.length e
  simp [String.length_append] at this
  exact h this.1

@[simp] theorem Conn.responses_sendResponse (c : Conn) (r : Response) :
    (sendResponse c r).responses = c.responses ++ [r] := by
  simp [sendResponse, Conn.emit, Conn.responses, List.filterMap_append]

@[simp] theorem Conn.responses_emit_tracked (c : Conn) (call : TrackerCall) :
    (c.emit (.tracked call)).responses = c.responses := by
  simp [Conn.emit, Conn.responses, List.filterMap_append]

@[simp] theorem Conn.responses_emit_logged (c : Conn) (line : String) :
    (c.emit (.logged line)).responses = c.responses := by
  simp [Conn.emit, Conn.responses, List.filterMap_append]

@[simp] theorem Conn.responses_emit_backend (c : Conn) (op : BackendOp) :
    (c.emit (.backend op)).responses = c.responses := by
  simp [Conn.emit, Conn.responses, List.filterMap_append]

@[simp] theorem Conn.responses_track (w : World) (c : Conn) (call : TrackerCall) (what : String) :
    (track w c call what).responses = c.responses := by
  unfold track
  split <;> simp

@[simp] theorem Conn.responses_isAuthenticated (w : World) (c : Conn) (p : String) :
    (c.isAuthenticated w p).2.responses = c.responses := by
  simp [Conn.isAuthenticated, Conn.emit, Conn.responses, List.filterMap_append]

@[simp] theorem Conn.responses_authenticate (w : World) (c : Conn) (p : String)
    (names : List String) : (c.authenticate w p names).2.responses = c.responses := by
  unfold Conn.authenticate
  simp only
  split <;> simp [Conn.emit, Conn.responses, List.filterMap_append]

theorem failure_ok (msg : String) (h : msg ≠ "") : (failure msg).errorMatchesSuccess := by
  simp [failure, Response.errorMatchesSuccess, h]

theorem failure_append_ok (s t : String) (h : s.length ≠ 0) :
    (failure (s ++ t)).errorMatchesSuccess := failure_ok _ (append_ne_empty s t h)

theorem handleGetSecret_responses (w : World) (cmd : Command) (c : Conn) :
    ∃ r, (handleGetSecret w cmd c).responses = c.responses ++ [r] ∧ r.errorMatchesSuccess := by
  unfold handleGetSecret
  dsimp only
  repeat' split
  all_goals
    simp
    first
      | exact failure_append_ok _ _ (by decide)
      | exact failure_ok _ (by decide)
      | simp [Response.errorMatchesSuccess]

theorem handleInjectEnv_fold_responses (w : World) (cmd : Command) (backend : Backend)
    (l : GoMap String) (st : Conn × GoMap String) :
    (l.foldl (injectStep w cmd backend) st).1.responses = st.1.responses := by
  induction l generalizing st with
  | nil => rfl
  | cons kv l ih =>
    rw [List.foldl_cons, ih]
    unfold injectStep
    split <;> simp

theorem handleInjectEnv_responses (w : World) (cmd : Command) (c : Conn) :
    ∃ r, (handleInjectEnv w cmd c).responses = c.responses ++ [r] ∧ r.errorMatchesSuccess := by
  unfold handleInjectEnv
  dsimp only
  repeat' split
  all_goals
    simp [handleInjectEnv_fold_responses]
    first
      | exact failure_append_ok _ _ (by decide)
      | exact failure_ok _ (by decide)
      | simp [Response.errorMatchesSuccess]
theorem handleCheckAuth_responses (w : World) (cmd : Command) (c : Conn) :
    ∃ r, (handleCheckAuth w cmd c).responses = c.responses ++ [r] ∧ r.errorMatchesSuccess := by
  simp [handleCheckAuth, Response.errorMatchesSuccess]

theorem handleAuthenticate_responses (w : World) (cmd : Command) (c : Conn) :
    ∃ r, (handleAuthenticate w cmd c).responses = c.responses ++ [r] ∧ r.errorMatchesSuccess := by
  unfold handleAuthenticate
  dsimp only
  repeat' split
  all_goals
    simp
    first
      | exact failure_append_ok _ _ (by decide)
      | exact failure_ok _ (by decide)
      | simp [Response.errorMatchesSuccess]

theorem handleStoreSecrets_responses (w : World) (cmd : Command) (c : Conn) :
    ∃ r, (handleStoreSecrets w cmd c).responses = c.responses ++ [r] ∧ r.errorMatchesSuccess := by
  unfold handleStoreSecrets
  dsimp only
  repeat' split
  all_goals
    simp
    first
      | exact failure_append_ok _ _ (by decide)
      | exact failure_ok _ (by decide)
      | simp [Response.errorMatchesSuccess]

theorem handleListSecrets_responses (w : World) (cmd : Command) (c : Conn) :
    ∃ r, (handleListSecrets w cmd c).responses = c.responses ++ [r] ∧ r.errorMatchesSuccess := by
  unfold handleListSecrets
  dsimp only
  repeat' split
  all_goals
    simp
    first
      | exact failure_append_ok _ _ (by decide)
      | exact failure_ok _ (by decide)
      | simp [Response.errorMatchesSuccess]

theorem handleCleanEnv_responses (w : World) (cmd : Command) (c : Conn) :
    ∃ r, (handleCleanEnv w cmd c).responses = c.responses ++ [r] ∧ r.errorMatchesSuccess := by
  unfold handleCleanEnv
  dsimp only
  repeat' split
  all_goals
    simp
    first
      | exact failure_append_ok _ _ (by decide)
      | exact failure_ok _ (by decide)
      | simp [Response.errorMatchesSuccess]

theorem handleShowConfig_responses (w : World) (cmd : Command) (c : Conn) :
    ∃ r, (handleShowConfig w cmd c).responses = c.responses ++ [r] ∧ r.errorMatchesSuccess := by
  unfold handleShowConfig
  dsimp only
  repeat' split
  all_goals
    simp
    first
      | exact failure_append_ok _ _ (by decide)
      | exact failure_ok _ (by decide)
      | simp [Response.errorMatchesSuccess]

theorem handleFindConfig_responses (w : World) (cmd : Command) (c : Conn) :
    ∃ r, (handleFindConfig w cmd c).responses = c.responses ++ [r] ∧ r.errorMatchesSuccess := by
  unfold handleFindConfig
  repeat' split
  all_goals
    simp
    first
      | exact failure_append_ok _ _ (by decide)
      | exact failure_ok _ (by decide)
      | simp [Response.errorMatchesSuccess]

/-- Every run of `handleConnection` writes one response, and that response
satisfies the invariant. -/
theorem handleConnection_responses (w : World) (input : Decoded) (c : Conn) :
    ∃ r, (handleConnection w input c).responses = c.responses ++ [r] ∧
      r.errorMatchesSuccess := by
  unfold handleConnection
  cases input with
  | error err =>
    exact ⟨_, Conn.responses_sendResponse _ _, failure_append_ok _ _ (by decide)⟩
  | command cmd =>
    simp only [marshalIndentErr]
    split_ifs
    · exact handleCheckAuth_responses w cmd c
    · exact handleAuthenticate_responses w cmd c
    · exact handleGetSecret_responses w cmd c
    · exact handleListSecrets_responses w cmd c
    · exact handleInjectEnv_responses w cmd c
    · exact handleCleanEnv_responses w cmd c
    · exact handleShowConfig_responses w cmd c
    · exact handleFindConfig_responses w cmd c
    · exact handleStoreSecrets_responses w cmd c
    · exact ⟨_, Conn.responses_sendResponse _ _, failure_append_ok _ _ (by decide)⟩

/-- C10. Whatever the command (or the decoding failure), the authenticator
state, the outcome of loading the config and the behaviour of backend and
tracker, every response `handleConnection` and its handlers write has a
non-empty `Error` when `Success` is false and an empty `Error` when `Success`
is true. -/
theorem C10_error_present_iff_failure (w : World) (input : Decoded) (a : SimpleAuthenticator) :
    ∀ r ∈ (handleConnection w input { auth := a }).responses,
      (r.Success = false → r.Error ≠ "") ∧ (r.Success = true → r.Error = "") := by
  intro r hr
  obtain ⟨r0, h0, hgood⟩ := handleConnection_responses w input { auth := a }
  rw [h0] at hr
  have : r = r0 := by simpa [Conn.responses] using hr
  subst this
  exact hgood

/-- C7. For a decoded command whose action is none of the nine known ones,
`handleConnection` writes exactly the response
`Success = false, Error = "Unknown action: " ++ action` with no data and no
output; the authenticator (grant table) is unchanged and no tracker method, no
authenticator method and no backend is called: the trace holds the response only. -/
theorem C7_unknown_action (w : World) (cmd : Command) (a : SimpleAuthenticator)
    (hunknown : cmd.Action ∉ knownActions) :
    handleConnection w (.command cmd) { auth := a } =
      { auth := a,
        trace := [.response { Success := false, Error := "Unknown action: " ++ cmd.Action,
                              Data := none, Output := "" }] } := by
  simp only [knownActions, List.mem_cons, List.mem_singleton, not_or, List.not_mem_nil,
    or_false] at hunknown
  obtain ⟨h1, h2, h3, h4, h5, h6, h7, h8, h9⟩ := hunknown
  simp [handleConnection, marshalIndentErr, h1, h2, h3, h4, h5, h6, h7, h8, h9, sendResponse,
    Conn.emit, failure]

theorem C7_unknown_action_witness :
    handleConnection World.sample (.command { Action := "bogus" })
        { auth := { authenticatedProcesses := [("42", 500)], authDuration := 10 } } =
      { auth := { authenticatedProcesses := [("42", 500)], authDuration := 10 },
        trace := [.response { Success := false, Error := "Unknown action: " ++ "bogus",
                              Data := none, Output := "" }] } :=
  C7_unknown_action World.sample { Action := "bogus" }
    { authenticatedProcesses := [("42", 500)], authDuration := 10 } (by decide)

theorem C10_error_present_iff_failure_witness :
    ((failure "Unknown action: bogus").Success = false →
        (failure "Unknown action: bogus").Error ≠ "") ∧
      ((failure "Unknown action: bogus").Success = true →
        (failure "Unknown action: bogus").Error = "") :=
  C10_error_present_iff_failure World.sample (.command { Action := "bogus" })
    (NewSimpleAuthenticator 10) (failure "Unknown action: bogus") (by decide)

/-! ## get_secret -/

@[simp] theorem Conn.backendOps_sendResponse (c : Conn) (r : Response) :
    (sendResponse c r).backendOps = c.backendOps := by
  simp [sendResponse, Conn.emit, Conn.backendOps, List.filterMap_append]

@[simp] theorem Conn.backendOps_isAuthenticated (w : World) (c : Conn) (p : String) :
    (c.isAuthenticated w p).2.backendOps = c.backendOps := by
  simp [Conn.isAuthenticated, Conn.emit, Conn.backendOps, List.filterMap_append]

@[simp] theorem Conn.tracked_sendResponse (c : Conn) (r : Response) :
    (sendResponse c r).tracked = c.tracked := by
  simp [sendResponse, Conn.emit, Conn.tracked, List.filterMap_append]

@[simp] theorem Conn.tracked_isAuthenticated (w : World) (c : Conn) (p : String) :
    (c.isAuthenticated w p).2.tracked = c.tracked := by
  simp [Conn.isAuthenticated, Conn.emit, Conn.tracked, List.filterMap_append]

@[simp] theorem Conn.responses_start (a : SimpleAuthenticator) :
    ({ auth := a } : Conn).responses = [] := rfl

@[simp] theorem Conn.tracked_start (a : SimpleAuthenticator) :
    ({ auth := a } : Conn).tracked = [] := rfl

@[simp] theorem Conn.backendOps_start (a : SimpleAuthenticator) :
    ({ auth := a } : Conn).backendOps = [] := rfl

@[simp] theorem Conn.isAuthenticated_fst (w : World) (c : Conn) (p : String) :
    (c.isAuthenticated w p).1 = (c.auth.IsAuthenticated p w.now).1 := rfl

/-- What `handleGetSecret` does for a configured secret and a process without a valid grant. -/
theorem handleGetSecret_denied (w : World) (cmd : Command) (c : Conn) (cfg : ImbuedConfig)
    (envName : String) (hcfg : LoadConfig w cmd.ConfigPath = .ok cfg)
    (hname : cfg.Secrets.get cmd.SecretName = some envName)
    (hno : (c.auth.IsAuthenticated cmd.ProcessID w.now).1 = false) :
    handleGetSecret w cmd c =
      sendResponse (c.isAuthenticated w cmd.ProcessID).2 (failure "Process is not authenticated") := by
  unfold handleGetSecret
  simp [hcfg, hname, hno]

/-- C5 (amended). For every `get_secret` command whose config loads, whose
secret name is a key of the config's secrets and whose process id has no valid
grant, the handler answers `Success = false`, `Error = "Process is not
authenticated"`; no backend is created and nothing is tracked, so two worlds
that differ in what the backend holds get the same response. -/
theorem C5_get_secret_denied_for_configured_secret (w w' : World) (cmd : Command)
    (a : SimpleAuthenticator) (cfg cfg' : ImbuedConfig) (envName envName' : String)
    (hcfg : LoadConfig w cmd.ConfigPath = .ok cfg)
    (hname : cfg.Secrets.get cmd.SecretName = some envName)
    (hno : (a.IsAuthenticated cmd.ProcessID w.now).1 = false)
    (hcfg' : LoadConfig w' cmd.ConfigPath = .ok cfg')
    (hname' : cfg'.Secrets.get cmd.SecretName = some envName')
    (hno' : (a.IsAuthenticated cmd.ProcessID w'.now).1 = false) :
    (handleGetSecret w cmd { auth := a }).responses =
        [{ Success := false, Error := "Process is not authenticated", Data := none,
           Output := "" }] ∧
      (handleGetSecret w cmd { auth := a }).backendOps = [] ∧
      (handleGetSecret w cmd { auth := a }).tracked = [] ∧
      (handleGetSecret w' cmd { auth := a }).responses =
        (handleGetSecret w cmd { auth := a }).responses := by
  rw [handleGetSecret_denied w cmd _ cfg envName hcfg hname hno,
    handleGetSecret_denied w' cmd _ cfg' envName' hcfg' hname' hno']
  simp [failure]

/-- C5 as stated fails: with a loadable config that does not list the secret
name `X`, a process without any grant is answered `Secret not found: X`, not
`Process is not authenticated`. -/
theorem C5_counterexample_unconfigured_name :
    LoadConfig World.sample "/srv/app/.imbued" = .ok sampleConfig ∧
    ((NewSimpleAuthenticator 10).IsAuthenticated "42" World.sample.now).1 = false ∧
    (handleGetSecret World.sample
        { Action := "get_secret", ConfigPath := "/srv/app/.imbued", SecretName := "X",
          ProcessID := "42" }
        { auth := NewSimpleAuthenticator 10 }).responses =
      [{ Success := false, Error := "Secret not found: X", Data := none, Output := "" }] ∧
    (handleGetSecret World.sample
        { Action := "get_secret", ConfigPath := "/srv/app/.imbued", SecretName := "X",
          ProcessID := "42" }
        { auth := NewSimpleAuthenticator 10 }).responses ≠
      [{ Success := false, Error := "Process is not authenticated", Data := none,
         Output := "" }] :=
  ⟨rfl, by decide, by decide, by decide⟩

theorem C5_get_secret_denied_for_configured_secret_witness :
    (handleGetSecret World.sample
        { Action := "get_secret", ConfigPath := "/srv/app/.imbued", SecretName := "B",
          ProcessID := "42" }
        { auth := NewSimpleAuthenticator 10 }).responses =
        [{ Success := false, Error := "Process is not authenticated", Data := none,
           Output := "" }] ∧
      (handleGetSecret World.sample
        { Action := "get_secret", ConfigPath := "/srv/app/.imbued", SecretName := "B",
          ProcessID := "42" }
        { auth := NewSimpleAuthenticator 10 }).backendOps = [] ∧
      (handleGetSecret World.sample
        { Action := "get_secret", ConfigPath := "/srv/app/.imbued", SecretName := "B",
          ProcessID := "42" }
        { auth := NewSimpleAuthenticator 10 }).tracked = [] ∧
      (handleGetSecret { World.sample with openFile := fun _ => .ok { lines := [], err := none } }
        { Action := "get_secret", ConfigPath := "/srv/app/.imbued", SecretName := "B",
          ProcessID := "42" }
        { auth := NewSimpleAuthenticator 10 }).responses =
      (handleGetSecret World.sample
        { Action := "get_secret", ConfigPath := "/srv/app/.imbued", SecretName := "B",
          ProcessID := "42" }
        { auth := NewSimpleAuthenticator 10 }).responses :=
  C5_get_secret_denied_for_configured_secret World.sample
    { World.sample with openFile := fun _ => .ok { lines := [], err := none } }
    { Action := "get_secret", ConfigPath := "/srv/app/.imbued", SecretName := "B",
      ProcessID := "42" }
    (NewSimpleAuthenticator 10) sampleConfig sampleConfig "ENV_B" "ENV_B"
    rfl (by decide) (by decide) rfl (by decide) (by decide)

/-! ## inject_env -/

/-- The tracker call the loop of `handleInjectEnv` makes for one secret, if any. -/
theorem injectStep_snd (w : World) (cmd : Command) (backend : Backend)
    (st : Conn × GoMap String) (kv : String × String) :
    (injectStep w cmd backend st kv).2 =
      match backend.GetSecret w kv.1 with
      | .ok v => st.2.set kv.2 v
      | .error _ => st.2 := by
  cases h : backend.GetSecret w kv.1 <;> simp [injectStep, h]

theorem injectStep_tracked (w : World) (cmd : Command) (backend : Backend)
    (st : Conn × GoMap String) (kv : String × String) :
    (injectStep w cmd backend st kv).1.tracked =
      st.1.tracked ++
        match backend.GetSecret w kv.1 with
        | .ok _ => []
        | .error err => [.TrackSecretAccessFailure cmd.ProcessID [kv.1] err] := by
  cases h : backend.GetSecret w kv.1 with
  | ok v => simp [injectStep, h, Conn.emit, Conn.tracked, List.filterMap_append]
  | error err =>
    simp only [injectStep, h, track]
    split <;> simp [Conn.emit, Conn.tracked, List.filterMap_append]

/-- The failure record the loop of `handleInjectEnv` asks the tracker to append for a secret. -/
theorem injectFold_tracked (w : World) (cmd : Command) (backend : Backend)
    (l : GoMap String) (st : Conn × GoMap String) :
    (l.foldl (injectStep w cmd backend) st).1.tracked =
      st.1.tracked ++ l.filterMap (fun kv =>
        match backend.GetSecret w kv.1 with
        | .ok _ => none
        | .error err => some (.TrackSecretAccessFailure cmd.ProcessID [kv.1] err)) := by
  induction l generalizing st with
  | nil => simp
  | cons kv l ih =>
    rw [List.foldl_cons, ih, injectStep_tracked, List.filterMap_cons]
    cases h : backend.GetSecret w kv.1 <;> simp

theorem injectFold_data (w : World) (cmd : Command) (backend : Backend)
    (l : GoMap String) (st : Conn × GoMap String) (hnodup : (l.map Prod.snd).Nodup)
    (e v : String) :
    (l.foldl (injectStep w cmd backend) st).2.get e = some v ↔
      (∃ s, (s, e) ∈ l ∧ backend.GetSecret w s = .ok v) ∨
      ((∀ s, (s, e) ∈ l → ∀ v', backend.GetSecret w s ≠ .ok v') ∧ st.2.get e = some v) := by
  induction l generalizing st with
  | nil => simp
  | cons kv l ih =>
    obtain ⟨s0, e0⟩ := kv
    simp only [List.map_cons, List.nodup_cons, List.mem_map, Prod.exists, exists_eq_right,
      not_exists] at hnodup
    obtain ⟨hfresh, hnodup⟩ := hnodup
    rw [List.foldl_cons, ih _ hnodup, injectStep_snd]
    by_cases he : e = e0
    · subst he
      have hnone : ∀ s, (s, e) ∉ l := fun s => hfresh s
      cases h0 : backend.GetSecret w s0 with
      | ok v0 =>
        simp only [GoMap.get_set_self, List.mem_cons, Prod.mk.injEq]
        constructor
        · rintro (⟨s, hs, _⟩ | ⟨_, hv⟩)
          · exact absurd hs (hnone s)
          · left
            refine ⟨s0, Or.inl ⟨rfl, trivial⟩, ?_⟩
            rw [h0]
            simp only [Option.some.injEq] at hv
            rw [hv]
        · rintro (⟨s, hs | hs, hok⟩ | ⟨hall, _⟩)
          · right
            obtain ⟨rfl, _⟩ := hs
            rw [h0] at hok
            injection hok with hok
            exact ⟨fun s hs => absurd hs (hnone s), by rw [hok]⟩
          · exact absurd hs (hnone s)
          · exact absurd h0 (hall s0 (Or.inl ⟨rfl, trivial⟩) v0)
      | error err =>
        simp only [List.mem_cons, Prod.mk.injEq]
        constructor
        · rintro (⟨s, hs, _⟩ | ⟨_, hv⟩)
          · exact absurd hs (hnone s)
          · right
            refine ⟨?_, hv⟩
            rintro s (⟨rfl, _⟩ | hs) v'
            · rw [h0]; simp
            · exact absurd hs (hnone s)
        · rintro (⟨s, hs | hs, hok⟩ | ⟨_, hv⟩)
          · obtain ⟨rfl, _⟩ := hs
            rw [h0] at hok
            cases hok
          · exact absurd hs (hnone s)
          · right
            exact ⟨fun s hs => absurd hs (hnone s), hv⟩
    · have hmem : ∀ s, (s, e) ∈ (s0, e0) :: l ↔ (s, e) ∈ l := by
        intro s
        simp [he]
      have hget : (match backend.GetSecret w s0 with
          | .ok v => st.2.set e0 v
          | .error _ => st.2).get e = st.2.get e := by
        cases backend.GetSecret w s0 with
        | ok v0 => exact GoMap.get_set_of_ne _ _ _ _ he
        | error err => rfl
      simp only [hmem, hget]

@[simp] theorem Conn.tracked_emit_backend (c : Conn) (op : BackendOp) :
    (c.emit (.backend op)).tracked = c.tracked := by
  simp [Conn.emit, Conn.tracked, List.filterMap_append]

@[simp] theorem Conn.tracked_track (w : World) (c : Conn) (call : TrackerCall) (what : String) :
    (track w c call what).tracked = c.tracked ++ [call] := by
  unfold track
  split <;> simp [Conn.emit, Conn.tracked, List.filterMap_append]

/-- The run of `handleInjectEnv` once the config is loaded, the process is
authenticated and the backend is initialized. -/
theorem handleInjectEnv_granted (w : World) (cmd : Command) (c : Conn) (cfg : ImbuedConfig)
    (backend0 backend : Backend) (hcfg : LoadConfig w cmd.ConfigPath = .ok cfg)
    (hauth : (c.auth.IsAuthenticated cmd.ProcessID w.now).1 = true)
    (hnew : NewBackend cfg.BackendType = .ok backend0)
    (hinit : backend0.Initialize w cfg.BackendConfig = (backend, none)) :
    handleInjectEnv w cmd c =
      (sendResponse
        ((cfg.Secrets.range (w.rangeSeed 1)).foldl (injectStep w cmd backend)
          ((((track w (c.isAuthenticated w cmd.ProcessID).2
              (.TrackSecretAccess cmd.ProcessID (cfg.Secrets.range (w.rangeSeed 0)).keys)
              "Failed to track secret access").emit
                (.backend (.NewBackend cfg.BackendType))).emit (.backend .Initialize)), [])).1
        { Success := true,
          Data := some ((cfg.Secrets.range (w.rangeSeed 1)).foldl (injectStep w cmd backend)
            ((((track w (c.isAuthenticated w cmd.ProcessID).2
              (.TrackSecretAccess cmd.ProcessID (cfg.Secrets.range (w.rangeSeed 0)).keys)
              "Failed to track secret access").emit
                (.backend (.NewBackend cfg.BackendType))).emit (.backend .Initialize)), [])).2
        }).emit (.backend .Close) := by
  unfold handleInjectEnv
  simp [hcfg, hauth, hnew, hinit]

/-- C6. For an authenticated process, a loadable config whose secret names are
distinct (it is a map) and whose environment-variable names are pairwise
distinct, and a backend that is created and initialized: `inject_env` writes
the single response `Success = true` whose data binds `e` to `v` exactly when
some configured secret `s` with environment name `e` has `GetSecret(s) = v`
(failing secrets are left out, the data may be empty); and the tracker is
asked to append the `secret_access` record naming the configured secrets,
followed by the `secret_access_failure` records of the loop, which are exactly
one per failing secret, each naming only that secret (the two loops over the
secrets may run in different orders). -/
theorem C6_inject_env_partial_success (w : World) (cmd : Command) (a : SimpleAuthenticator)
    (cfg : ImbuedConfig) (backend0 backend : Backend)
    (hcfg : LoadConfig w cmd.ConfigPath = .ok cfg)
    (hwf : cfg.Secrets.WF)
    (henv : (cfg.Secrets.map Prod.snd).Nodup)
    (hauth : (a.IsAuthenticated cmd.ProcessID w.now).1 = true)
    (hnew : NewBackend cfg.BackendType = .ok backend0)
    (hinit : backend0.Initialize w cfg.BackendConfig = (backend, none)) :
    ∃ (data : GoMap String) (names : List String) (visited : GoMap String),
      (handleInjectEnv w cmd { auth := a }).responses =
        [{ Success := true, Error := "", Data := some data, Output := "" }] ∧
      (∀ e v, data.get e = some v ↔
        ∃ s, (s, e) ∈ cfg.Secrets ∧ backend.GetSecret w s = .ok v) ∧
      names.Perm cfg.Secrets.keys ∧ visited.Perm cfg.Secrets ∧
      (handleInjectEnv w cmd { auth := a }).tracked =
        .TrackSecretAccess cmd.ProcessID names ::
          visited.filterMap (fun kv =>
            match backend.GetSecret w kv.1 with
            | .ok _ => none
            | .error err => some (.TrackSecretAccessFailure cmd.ProcessID [kv.1] err)) ∧
      (∀ s err, s ∈ cfg.Secrets.keys → backend.GetSecret w s = .error err →
        (handleInjectEnv w cmd { auth := a }).tracked.count
          (.TrackSecretAccessFailure cmd.ProcessID [s] err) = 1) := by
  have hrun := handleInjectEnv_granted w cmd { auth := a } cfg backend0 backend hcfg hauth
    hnew hinit
  have hperm0 : (cfg.Secrets.range (w.rangeSeed 0)).keys.Perm cfg.Secrets.keys :=
    (GoMap.range_perm (w.rangeSeed 0) cfg.Secrets).map Prod.fst
  have hperm1 := GoMap.range_perm (w.rangeSeed 1) cfg.Secrets
  have hkeys1 : (cfg.Secrets.range (w.rangeSeed 1)).keys.Perm cfg.Secrets.keys :=
    hperm1.map Prod.fst
  have henv1 : ((cfg.Secrets.range (w.rangeSeed 1)).map Prod.snd).Nodup :=
    ((hperm1.map Prod.snd).nodup_iff).2 henv
  have hwf1 : (cfg.Secrets.range (w.rangeSeed 1)).keys.Nodup := (hkeys1.nodup_iff).2 hwf
  have htracked : (handleInjectEnv w cmd { auth := a }).tracked =
      .TrackSecretAccess cmd.ProcessID (cfg.Secrets.range (w.rangeSeed 0)).keys ::
        (cfg.Secrets.range (w.rangeSeed 1)).filterMap (fun kv =>
          match backend.GetSecret w kv.1 with
          | .ok _ => none
          | .error err => some (.TrackSecretAccessFailure cmd.ProcessID [kv.1] err)) := by
    rw [hrun]
    simp [injectFold_tracked]
  refine ⟨((cfg.Secrets.range (w.rangeSeed 1)).foldl (injectStep w cmd backend)
    ((((track w (({ auth := a } : Conn).isAuthenticated w cmd.ProcessID).2
      (.TrackSecretAccess cmd.ProcessID (cfg.Secrets.range (w.rangeSeed 0)).keys)
      "Failed to track secret access").emit
        (.backend (.NewBackend cfg.BackendType))).emit (.backend .Initialize)), [])).2,
    (cfg.Secrets.range (w.rangeSeed 0)).keys, cfg.Secrets.range (w.rangeSeed 1),
    ?_, ?_, hperm0, hperm1, htracked, ?_⟩
  · rw [hrun]
    simp [handleInjectEnv_fold_responses]
  · intro e v
    rw [injectFold_data w cmd backend _ _ henv1 e v]
    simp [GoMap.get, hperm1.mem_iff]
  · intro s err hs herr
    rw [htracked, List.count_cons]
    have hfm : (cfg.Secrets.range (w.rangeSeed 1)).filterMap (fun kv =>
          match backend.GetSecret w kv.1 with
          | .ok _ => none
          | .error err => some (TrackerCall.TrackSecretAccessFailure cmd.ProcessID [kv.1] err)) =
        (cfg.Secrets.range (w.rangeSeed 1)).keys.filterMap (fun k =>
          match backend.GetSecret w k with
          | .ok _ => none
          | .error err => some (TrackerCall.TrackSecretAccessFailure cmd.ProcessID [k] err)) := by
      simp only [GoMap.keys, List.filterMap_map]
      rfl
    rw [hfm]
    have hnd : ((cfg.Secrets.range (w.rangeSeed 1)).keys.filterMap (fun k =>
          match backend.GetSecret w k with
          | .ok _ => none
          | .error err =>
            some (TrackerCall.TrackSecretAccessFailure cmd.ProcessID [k] err))).Nodup := by
      refine List.Nodup.filterMap ?_ hwf1
      intro k k' call hk hk'
      cases h1 : backend.GetSecret w k with
      | ok v => simp [h1] at hk
      | error e1 =>
        cases h2 : backend.GetSecret w k' with
        | ok v => simp [h2] at hk'
        | error e2 =>
          simp only [h1, Option.mem_def, Option.some.injEq] at hk
          simp only [h2, Option.mem_def, Option.some.injEq] at hk'
          rw [← hk] at hk'
          simp only [TrackerCall.TrackSecretAccessFailure.injEq, List.cons.injEq, and_true,
            true_and] at hk'
          exact hk'.1.symm
    have hmem : TrackerCall.TrackSecretAccessFailure cmd.ProcessID [s] err ∈
        (cfg.Secrets.range (w.rangeSeed 1)).keys.filterMap (fun k =>
          match backend.GetSecret w k with
          | .ok _ => none
          | .error err => some (TrackerCall.TrackSecretAccessFailure cmd.ProcessID [k] err)) := by
      rw [List.mem_filterMap]
      exact ⟨s, (hkeys1.mem_iff).2 hs, by rw [herr]⟩
    rw [List.count_eq_one_of_mem hnd hmem]
    simp

theorem C6_inject_env_partial_success_witness :
    (∃ (data : GoMap String) (names : List String) (visited : GoMap String),
      (handleInjectEnv World.sample
          { Action := "inject_env", ConfigPath := "/srv/app/.imbued", ProcessID := "42" }
          { auth := { authenticatedProcesses := [("42", 500)], authDuration := 10 } }).responses =
        [{ Success := true, Error := "", Data := some data, Output := "" }] ∧
      (∀ e v, data.get e = some v ↔
        ∃ s, (s, e) ∈ sampleConfig.Secrets ∧
          (Backend.envFile { filePath := "/srv/app/.env",
                             secrets := [("C", "vc"), ("A", "va")] }).GetSecret
            World.sample s = .ok v) ∧
      names.Perm sampleConfig.Secrets.keys ∧ visited.Perm sampleConfig.Secrets ∧
      (handleInjectEnv World.sample
          { Action := "inject_env", ConfigPath := "/srv/app/.imbued", ProcessID := "42" }
          { auth := { authenticatedProcesses := [("42", 500)], authDuration := 10 } }).tracked =
        .TrackSecretAccess "42" names ::
          visited.filterMap (fun kv =>
            match (Backend.envFile { filePath := "/srv/app/.env",
                                     secrets := [("C", "vc"), ("A", "va")] }).GetSecret
              World.sample kv.1 with
            | .ok _ => none
            | .error err => some (.TrackSecretAccessFailure "42" [kv.1] err)) ∧
      (∀ s err, s ∈ sampleConfig.Secrets.keys →
        (Backend.envFile { filePath := "/srv/app/.env",
                           secrets := [("C", "vc"), ("A", "va")] }).GetSecret
          World.sample s = .error err →
        (handleInjectEnv World.sample
          { Action := "inject_env", ConfigPath := "/srv/app/.imbued", ProcessID := "42" }
          { auth := { authenticatedProcesses := [("42", 500)],
                      authDuration := 10 } }).tracked.count
          (.TrackSecretAccessFailure "42" [s] err) = 1)) ∧
    (handleInjectEnv World.sample
        { Action := "inject_env", ConfigPath := "/srv/app/.imbued", ProcessID := "42" }
        { auth := { authenticatedProcesses := [("42", 500)], authDuration := 10 } }).responses =
      [{ Success := true, Error := "", Data := some [("ENV_C", "vc"), ("ENV_A", "va")],
         Output := "" }] ∧
    (handleInjectEnv World.sample
        { Action := "inject_env", ConfigPath := "/srv/app/.imbued", ProcessID := "42" }
        { auth := { authenticatedProcesses := [("42", 500)], authDuration := 10 } }).tracked =
      [.TrackSecretAccess "42" ["A", "B", "C"],
       .TrackSecretAccessFailure "42" ["B"] "secret not found: B"] :=
  ⟨C6_inject_env_partial_success World.sample
      { Action := "inject_env", ConfigPath := "/srv/app/.imbued", ProcessID := "42" }
      { authenticatedProcesses := [("42", 500)], authDuration := 10 } sampleConfig
      (.envFile {})
      (.envFile { filePath := "/srv/app/.env", secrets := [("C", "vc"), ("A", "va")] })
      rfl (by decide) (by decide) (by decide) rfl (by decide),
    by decide, by decide⟩

/-! ## Paths: `filepath.Clean` on the text of a cleaned path -/

theorem splitChars_of_not_mem (sep : Char) (a : List Char) (h : sep ∉ a) :
    splitChars sep a = [a] := by
  induction a with
  | nil => rfl
  | cons c cs ih =>
    have hc : c ≠ sep := fun e => h (by simp [e])
    have hcs : sep ∉ cs := fun e => h (by simp [e])
    simp [splitChars, hc, ih hcs]

theorem splitChars_append_sep (sep : Char) (a r : List Char) (h : sep ∉ a) :
    splitChars sep (a ++ sep :: r) = a :: splitChars sep r := by
  induction a with
  | nil => simp [splitChars]
  | cons c cs ih =>
    have hc : c ≠ sep := fun e => h (by simp [e])
    have hcs : sep ∉ cs := fun e => h (by simp [e])
    simp [splitChars, hc, ih hcs]

theorem render_foldl_data (p : Path) (acc : String) :
    (p.foldl (fun acc x => acc ++ "/" ++ x) acc).data =
      acc.data ++ (p.map (fun c => '/' :: c.data)).flatten := by
  induction p generalizing acc with
  | nil => simp
  | cons c cs ih => simp [ih, String.data_append]

theorem splitChars_components (p : Path) (a : List Char) (ha : '/' ∉ a)
    (hp : ∀ c ∈ p, normalComponent c) :
    splitChars '/' (a ++ (p.map (fun c => '/' :: c.data)).flatten) =
      a :: p.map String.data := by
  induction p generalizing a with
  | nil => simpa using splitChars_of_not_mem '/' a ha
  | cons c cs ih =>
    have hc := hp c (List.mem_cons_self c cs)
    have := ih c.data hc.2.2.2 (fun c' h' => hp c' (List.mem_cons_of_mem c h'))
    simp only [List.map_cons, List.flatten_cons, List.cons_append]
    rw [splitChars_append_sep '/' a _ ha, this]

theorem foldl_cleanStep_normal (p acc : Path) (hp : ∀ c ∈ p, normalComponent c) :
    p.foldl cleanStep acc = acc ++ p := by
  induction p generalizing acc with
  | nil => simp
  | cons c cs ih =>
    have hc := hp c (List.mem_cons_self c cs)
    rw [List.foldl_cons, ih _ (fun c' h' => hp c' (List.mem_cons_of_mem c h'))]
    simp [cleanStep, hc.1, hc.2.1, hc.2.2.1]

/-- Cleaning the text of a cleaned absolute path gives its components back:
`Path.render` and `cleanAbs` agree on what a path is. -/
theorem cleanAbs_render (p : Path) (hp : ∀ c ∈ p, normalComponent c) :
    cleanAbs (Path.render p) = p := by
  cases p with
  | nil => decide
  | cons c cs =>
    have hdata : (Path.render (c :: cs)).data =
        [] ++ ((c :: cs).map (fun c => '/' :: c.data)).flatten := by
      simp only [Path.render]
      rw [render_foldl_data]
    unfold cleanAbs
    rw [hdata, splitChars_components (c :: cs) [] (by simp) hp]
    have hmk : ((c :: cs).map String.data).map String.mk = c :: cs := by
      rw [List.map_map]
      exact List.map_id'' (fun _ => rfl) _
    rw [List.map_cons, hmk]
    have h0 : cleanStep [] (String.mk []) = [] := by decide
    rw [List.foldl_cons, h0, foldl_cleanStep_normal (c :: cs) [] hp]
    rfl

/-- The text of a cleaned absolute path is an absolute path. -/
theorem IsAbs_render (p : Path) : IsAbs (Path.render p) = true := by
  cases p with
  | nil => decide
  | cons c cs =>
    have hdata := render_foldl_data (c :: cs) ""
    unfold IsAbs HasPrefix
    simp only [Path.render]
    rw [hdata]
    simp [List.isPrefixOf]

/-! ## find_config -/

/-- At the root every ancestor is the root. -/
theorem ancestor_root (dir : Path) (h : Dir dir = dir) (k : Nat) : ancestor dir k = dir := by
  induction k with
  | zero => rfl
  | succ k ih => rw [ancestor, h, ih]

/-- The loop returns the nearest config file within its bound. -/
theorem FindConfig.loop_found (w : World) (n : Nat) (dir : Path) (k : Nat) (hk : k < n)
    (hstat : w.stat (configIn (ancestor dir k)) = true)
    (hmin : ∀ j, j < k → w.stat (configIn (ancestor dir j)) = false) :
    FindConfig.loop w n dir = some (configIn (ancestor dir k)) := by
  induction n generalizing dir k with
  | zero => omega
  | succ n ih =>
    cases k with
    | zero =>
      simp only [ancestor] at hstat
      simp [FindConfig.loop, hstat, ancestor]
    | succ k =>
      have h0 : w.stat (configIn dir) = false := hmin 0 (by omega)
      by_cases hroot : Dir dir = dir
      · rw [ancestor_root dir hroot] at hstat
        rw [h0] at hstat
        cases hstat
      · simp only [FindConfig.loop, h0, hroot, Bool.false_eq_true, if_false]
        exact ih (Dir dir) k (by omega) hstat (fun j hj => hmin (j + 1) (by omega))

/-- The loop ends without a path when no ancestor within the bound has a config file. -/
theorem FindConfig.loop_not_found (w : World) (n : Nat) (dir : Path)
    (hnone : ∀ k, k < n → w.stat (configIn (ancestor dir k)) = false) :
    FindConfig.loop w n dir = none := by
  induction n generalizing dir with
  | zero => rfl
  | succ n ih =>
    have h0 : w.stat (configIn dir) = false := hnone 0 (by omega)
    by_cases hroot : Dir dir = dir
    · simp [FindConfig.loop, h0, hroot]
    · simp only [FindConfig.loop, h0, hroot, Bool.false_eq_true, if_false]
      exact ih (Dir dir) (fun k hk => hnone (k + 1) (by omega))

/-- C9. With the file system given by `w.stat`, for every `find_config`
command whose start directory is absolute and whose depth `N` is not negative:
if `k ≤ N` is the smallest distance at which the ancestor of the (cleaned)
start directory holds a `.imbued` file, `FindConfig` returns that file's path
with no error and the handler answers with it as `config_path`; if no ancestor
at distance `0..N` holds one (whatever lies further up), `FindConfig` returns
the empty path with the not-found error and the handler answers with a failure
that carries no data. -/
theorem C9_find_config_nearest_within_depth (w : World) (cmd : Command)
    (a : SimpleAuthenticator) (habs : IsAbs cmd.CurrentDir = true) (hN : 0 ≤ cmd.MaxLevels) :
    (∀ k : Nat, (k : Int) ≤ cmd.MaxLevels →
      w.stat (configIn (ancestor (cleanAbs cmd.CurrentDir) k)) = true →
      (∀ j, j < k → w.stat (configIn (ancestor (cleanAbs cmd.CurrentDir) j)) = false) →
      FindConfig w cmd.CurrentDir cmd.MaxLevels =
        (configIn (ancestor (cleanAbs cmd.CurrentDir) k), none) ∧
      (handleFindConfig w cmd { auth := a }).responses =
        [{ Success := true, Error := "",
           Data := some [("config_path", configIn (ancestor (cleanAbs cmd.CurrentDir) k))],
           Output := "" }]) ∧
    ((∀ k : Nat, (k : Int) ≤ cmd.MaxLevels →
        w.stat (configIn (ancestor (cleanAbs cmd.CurrentDir) k)) = false) →
      FindConfig w cmd.CurrentDir cmd.MaxLevels =
        ("", some ("no .imbued file found within " ++ fmtInt cmd.MaxLevels ++
          " levels up from " ++ cmd.CurrentDir)) ∧
      (handleFindConfig w cmd { auth := a }).responses =
        [{ Success := false,
           Error := "Failed to find config: " ++ ("no .imbued file found within " ++
             fmtInt cmd.MaxLevels ++ " levels up from " ++ cmd.CurrentDir),
           Data := none, Output := "" }]) := by
  constructor
  · intro k hk hstat hmin
    have hloop := FindConfig.loop_found w (cmd.MaxLevels + 1).toNat (cleanAbs cmd.CurrentDir) k
      (by omega) hstat hmin
    have hfind : FindConfig w cmd.CurrentDir cmd.MaxLevels =
        (configIn (ancestor (cleanAbs cmd.CurrentDir) k), none) := by
      simp [FindConfig, Abs, habs, hloop]
    refine ⟨hfind, ?_⟩
    simp [handleFindConfig, hfind]
  · intro hnone
    have hloop := FindConfig.loop_not_found w (cmd.MaxLevels + 1).toNat
      (cleanAbs cmd.CurrentDir) (fun k hk => hnone k (by omega))
    have hfind : FindConfig w cmd.CurrentDir cmd.MaxLevels =
        ("", some ("no .imbued file found within " ++ fmtInt cmd.MaxLevels ++
          " levels up from " ++ cmd.CurrentDir)) := by
      simp [FindConfig, Abs, habs, hloop]
    refine ⟨hfind, ?_⟩
    simp [handleFindConfig, hfind, failure]

theorem C9_find_config_nearest_within_depth_witness :
    (FindConfig World.sample "/srv/app/x/y" 2 = ("/srv/app/.imbued", none) ∧
      (handleFindConfig World.sample
          { Action := "find_config", CurrentDir := "/srv/app/x/y", MaxLevels := 2 }
          { auth := NewSimpleAuthenticator 10 }).responses =
        [{ Success := true, Error := "", Data := some [("config_path", "/srv/app/.imbued")],
           Output := "" }]) ∧
    (FindConfig World.sample "/srv/app/x/y" 1 =
        ("", some "no .imbued file found within 1 levels up from /srv/app/x/y") ∧
      (handleFindConfig World.sample
          { Action := "find_config", CurrentDir := "/srv/app/x/y", MaxLevels := 1 }
          { auth := NewSimpleAuthenticator 10 }).responses =
        [{ Success := false,
           Error := "Failed to find config: no .imbued file found within 1 levels up from /srv/app/x/y",
           Data := none, Output := "" }]) :=
  ⟨(C9_find_config_nearest_within_depth World.sample
      { Action := "find_config", CurrentDir := "/srv/app/x/y", MaxLevels := 2 }
      (NewSimpleAuthenticator 10) (by decide) (by decide)).1 2 (by decide) (by decide)
      (by decide),
   (C9_find_config_nearest_within_depth World.sample
      { Action := "find_config", CurrentDir := "/srv/app/x/y", MaxLevels := 1 }
      (NewSimpleAuthenticator 10) (by decide) (by decide)).2
      (by
        intro k hk
        have hk1 : k ≤ 1 := Int.ofNat_le.mp (show (k : Int) ≤ ((1 : Nat) : Int) from hk)
        interval_cases k <;> decide)⟩

/-! ## The env_file backend -/

theorem dropTrailing_eq_rdropWhile (p : Char → Bool) (l : List Char) :
    dropTrailing p l = l.rdropWhile p := rfl

/-- A text that `TrimSpace` leaves alone neither starts nor ends with white space. -/
theorem trimmed_ends (s : String) (h : TrimSpace s = s) :
    s.data.dropWhile isSpace = s.data ∧ s.data.rdropWhile isSpace = s.data := by
  have h1 : (s.data.dropWhile isSpace).rdropWhile isSpace = s.data := by
    have := congrArg String.data h
    simpa [TrimSpace, dropTrailing_eq_rdropWhile] using this
  have hpre : s.data <+: s.data.dropWhile isSpace := by
    have := List.rdropWhile_prefix isSpace (s.data.dropWhile isSpace)
    rwa [h1] at this
  have hsuf : s.data.dropWhile isSpace <:+ s.data := List.dropWhile_suffix isSpace
  have hlen : (s.data.dropWhile isSpace).length = s.data.length :=
    le_antisymm hsuf.length_le hpre.length_le
  have h2 : s.data.dropWhile isSpace = s.data := hsuf.eq_of_length hlen
  rw [h2] at h1
  exact ⟨h2, h1⟩

theorem dropWhile_assignment (a b : List Char) (ha : a.dropWhile isSpace = a) :
    (a ++ '=' :: b).dropWhile isSpace = a ++ '=' :: b := by
  cases a with
  | nil =>
    have : isSpace '=' = false := by decide
    simp [this]
  | cons c cs =>
    by_cases hc : isSpace c = true
    · rw [List.dropWhile_cons_of_pos hc] at ha
      have := (List.dropWhile_suffix isSpace (l := cs)).length_le
      rw [ha] at this
      simp at this
    · simp [hc]

theorem rdropWhile_assignment (a b : List Char) (hb : b.rdropWhile isSpace = b) :
    (a ++ '=' :: b).rdropWhile isSpace = a ++ '=' :: b := by
  rcases List.eq_nil_or_concat b with hnil | ⟨b', x, hx⟩
  · subst hnil
    exact List.rdropWhile_concat_neg isSpace a '=' (by decide)
  · rw [List.concat_eq_append] at hx
    subst hx
    by_cases hp : isSpace x = true
    · rw [List.rdropWhile_concat_pos isSpace b' x hp] at hb
      have := (List.rdropWhile_prefix isSpace b').length_le
      rw [hb] at this
      simp at this
    · have : a ++ '=' :: (b' ++ [x]) = (a ++ '=' :: b') ++ [x] := by simp
      rw [this]
      exact List.rdropWhile_concat_neg isSpace _ x hp

/-- Joining two trimmed texts with `=` gives a trimmed text. -/
theorem TrimSpace_assignment (k v : String) (hk : TrimSpace k = k) (hv : TrimSpace v = v) :
    TrimSpace (k ++ "=" ++ v) = k ++ "=" ++ v := by
  have hk1 := (trimmed_ends k hk).1
  have hv2 := (trimmed_ends v hv).2
  have hdata : (k ++ "=" ++ v).data = k.data ++ '=' :: v.data := by
    simp [String.data_append]
  apply String.ext
  simp only [TrimSpace, dropTrailing_eq_rdropWhile, hdata,
    dropWhile_assignment k.data v.data hk1, rdropWhile_assignment k.data v.data hv2]

theorem cutAt_assignment (k v : List Char) (hk : '=' ∉ k) :
    cutAt '=' (k ++ '=' :: v) = some (k, v) := by
  induction k with
  | nil => simp [cutAt]
  | cons c cs ih =>
    have hc : c ≠ '=' := fun e => hk (by simp [e])
    have hcs : '=' ∉ cs := fun e => hk (by simp [e])
    simp [cutAt, hc, ih hcs]

/-- The scanner loop stores the pair of a well-formed line `k=v`. -/
theorem envFileLine_assignment (secrets : GoMap String) (k v : String)
    (hk : TrimSpace k = k) (hv : TrimSpace v = v) (hkeq : '=' ∉ k.data)
    (hhash : HasPrefix k "#" = false) (hquote : unquote v = v) :
    envFileLine secrets (k ++ "=" ++ v) = secrets.set k v := by
  have hdata : (k ++ "=" ++ v).data = k.data ++ '=' :: v.data := by
    simp [String.data_append]
  have hne : k ++ "=" ++ v ≠ "" := by
    intro e
    have := congrArg String.data e
    rw [hdata] at this
    simp at this
  have hpre : HasPrefix (k ++ "=" ++ v) "#" = false := by
    unfold HasPrefix at hhash ⊢
    rw [hdata]
    have h1 : ("#" : String).data = ['#'] := rfl
    rw [h1] at hhash ⊢
    cases hkd : k.data with
    | nil => simp [List.isPrefixOf]
    | cons c cs =>
      rw [hkd] at hhash
      simpa [List.isPrefixOf] using hhash
  have hsplit : SplitN2 (k ++ "=" ++ v) '=' = [k, v] := by
    unfold SplitN2
    rw [hdata, cutAt_assignment k.data v.data hkeq]
  unfold envFileLine
  simp only [TrimSpace_assignment k v hk hv, hne, hpre, hsplit, hk, hv, hquote]
  simp

theorem foldl_envFileLine_last (pre : List String) (line : String) (secrets : GoMap String) :
    (pre ++ [line]).foldl envFileLine secrets = envFileLine (pre.foldl envFileLine secrets) line := by
  simp [List.foldl_append]

/-- A pair reaches the table of `EnvFileBackend` through the file `Initialize`
reads. When the last line of the
env file is `k=v`, with `k` and `v` free of leading and trailing white space,
`k` free of `=` and not starting with `#`, and `v` not wrapped in a pair of
equal quotes, `Initialize` succeeds and `GetSecret(k)` returns exactly `v`
with no error. -/
theorem env_file_round_trip_through_file (w : World) (b : EnvFileBackend)
    (config : GoMap String) (path : String) (pre : List String) (k v : String)
    (hpath : config.get "file_path" = some path)
    (hfile : w.openFile path = .ok { lines := pre ++ [k ++ "=" ++ v], err := none })
    (hk : TrimSpace k = k) (hv : TrimSpace v = v) (hkeq : '=' ∉ k.data)
    (hhash : HasPrefix k "#" = false) (hquote : unquote v = v) :
    (b.Initialize w config).2 = none ∧ (b.Initialize w config).1.GetSecret k = .ok v := by
  simp only [EnvFileBackend.Initialize, hpath, hfile, foldl_envFileLine_last,
    envFileLine_assignment _ k v hk hv hkeq hhash hquote, EnvFileBackend.GetSecret,
    GoMap.get_set_self, and_self]

theorem env_file_round_trip_sample :
    (({} : EnvFileBackend).Initialize World.sample [("file_path", "/srv/app/.env")]).2 = none ∧
    (({} : EnvFileBackend).Initialize World.sample
      [("file_path", "/srv/app/.env")]).1.GetSecret "C" = .ok "vc" :=
  env_file_round_trip_through_file World.sample {} [("file_path", "/srv/app/.env")]
    "/srv/app/.env" ["A=va", "# no B here"] "C" "vc" (by decide) rfl (by decide) (by decide)
    (by decide) (by decide) (by decide)

/-- In the sample world no table `Initialize` can load binds the key `k`. -/
theorem sample_Initialize_no_k (b : EnvFileBackend) (config : GoMap String) :
    (b.Initialize World.sample config).1.secrets.get "k" = none ∨
      (b.Initialize World.sample config).1 = b := by
  unfold EnvFileBackend.Initialize
  cases hc : config.get "file_path" with
  | none => right; rfl
  | some path =>
    left
    by_cases hp : path = "/srv/app/.env"
    · subst hp
      dsimp only
      decide
    · simp [World.sample, World.bare, hp, GoMap.get]

/-- In a world whose env file defines only A and C, the initialized backend
answers `GetSecret("k")` with `secret not found: k`, and no sequence of the
methods `EnvFileBackend` declares makes `GetSecret("k")` return `"v"`. -/
theorem env_file_no_method_stores :
    (({} : EnvFileBackend).Initialize World.sample [("file_path", "/srv/app/.env")]).2 = none ∧
    (({} : EnvFileBackend).Initialize World.sample
      [("file_path", "/srv/app/.env")]).1.GetSecret "k" = .error "secret not found: k" ∧
    ¬ ∃ cs : List EnvFileCall,
      (EnvFileBackend.run World.sample {} cs).GetSecret "k" = .ok "v" := by
  have key : ∀ (cs : List EnvFileCall) (b : EnvFileBackend), b.secrets.get "k" = none →
      (EnvFileBackend.run World.sample b cs).secrets.get "k" = none := by
    intro cs
    induction cs with
    | nil => intro b hb; exact hb
    | cons c cs ih =>
      intro b hb
      apply ih
      cases c with
      | Initialize config =>
        rcases sample_Initialize_no_k b config with h | h
        · exact h
        · simp only [EnvFileBackend.call]
          rw [h]
          exact hb
      | GetSecret key => exact hb
      | Close => exact hb
  refine ⟨by decide, rfl, ?_⟩
  rintro ⟨cs, hcs⟩
  have h := key cs {} rfl
  simp [EnvFileBackend.GetSecret, h] at hcs

/-! ## Exactly one response -/

/-- C11. For every connection input, an undecodable one or a decoded command
with any action, and every outcome of config loading, authentication, backend
and tracker calls, `handleConnection` calls `sendResponse` exactly once: the
trace of the connection holds one response, never none and never two. -/
theorem C11_exactly_one_response (w : World) (input : Decoded) (a : SimpleAuthenticator) :
    (handleConnection w input { auth := a }).responses.length = 1 ∧
    ((handleConnection w input { auth := a }).trace.filter
      (fun e => match e with
        | .response _ => true
        | _ => false)).length = 1 := by
  obtain ⟨r, hr, _⟩ := handleConnection_responses w input { auth := a }
  have hlen : (handleConnection w input { auth := a }).responses.length = 1 := by
    rw [hr]
    simp
  refine ⟨hlen, ?_⟩
  have hgen : ∀ l : List Event,
      (l.filter (fun e => match e with
        | .response _ => true
        | _ => false)).length =
      (l.filterMap (fun e => match e with
        | .response r => some r
        | _ => none)).length := by
    intro l
    induction l with
    | nil => rfl
    | cons e l ih => cases e <;> simp [List.filter, List.filterMap, ih]
  rw [hgen]
  exact hlen

/-! ## store_secrets -/

@[simp] theorem Conn.backendOps_track (w : World) (c : Conn) (call : TrackerCall)
    (what : String) : (track w c call what).backendOps = c.backendOps := by
  unfold track
  split <;> simp [Conn.emit, Conn.backendOps, List.filterMap_append]

@[simp] theorem Conn.backendOps_emit_backend (c : Conn) (op : BackendOp) :
    (c.emit (.backend op)).backendOps = c.backendOps ++ [op] := by
  simp [Conn.emit, Conn.backendOps, List.filterMap_append]

/-- C12. `store_secrets` writes one response, and its `Success` is true if and
only if the config loads, the process id holds a valid grant, the backend is
created and initialized, and the call of `StoreSecrets` returns no error. For a
process without a valid grant no backend call is made, and when the config
loads the error is `Process is not authenticated`. An error `e` of
`StoreSecrets` gives `Success = false` with the error `Failed to store secrets: e`. -/
theorem C12_store_secrets_all_or_nothing (w : World) (cmd : Command)
    (a : SimpleAuthenticator) :
    (∃ r, (handleStoreSecrets w cmd { auth := a }).responses = [r] ∧
      (r.Success = true ↔
        ∃ cfg backend0 backend, LoadConfig w cmd.ConfigPath = .ok cfg ∧
          (a.IsAuthenticated cmd.ProcessID w.now).1 = true ∧
          NewBackend cfg.BackendType = .ok backend0 ∧
          backend0.Initialize w cfg.BackendConfig = (backend, none) ∧
          backend.StoreSecrets w cmd.Environment = none)) ∧
    ((a.IsAuthenticated cmd.ProcessID w.now).1 = false →
      (handleStoreSecrets w cmd { auth := a }).backendOps = [] ∧
      ∀ cfg, LoadConfig w cmd.ConfigPath = .ok cfg →
        (handleStoreSecrets w cmd { auth := a }).responses =
          [{ Success := false, Error := "Process is not authenticated", Data := none,
             Output := "" }]) ∧
    (∀ cfg backend0 backend e, LoadConfig w cmd.ConfigPath = .ok cfg →
      (a.IsAuthenticated cmd.ProcessID w.now).1 = true →
      NewBackend cfg.BackendType = .ok backend0 →
      backend0.Initialize w cfg.BackendConfig = (backend, none) →
      backend.StoreSecrets w cmd.Environment = some e →
      (handleStoreSecrets w cmd { auth := a }).responses =
        [{ Success := false, Error := "Failed to store secrets: " ++ e, Data := none,
           Output := "" }]) := by
  refine ⟨?_, ?_, ?_⟩
  · unfold handleStoreSecrets
    cases hcfg : LoadConfig w cmd.ConfigPath with
    | error err => simp [failure]
    | ok cfg =>
      cases hauth : (a.IsAuthenticated cmd.ProcessID w.now).1 with
      | false => simp [hauth, failure]
      | true =>
        cases hnew : NewBackend cfg.BackendType with
        | error err => simp [hauth, hnew, failure]
        | ok backend0 =>
          rcases hinit : backend0.Initialize w cfg.BackendConfig with ⟨backend, ierr⟩
          cases ierr with
          | some err => simp [hauth, hnew, hinit, failure]
          | none =>
            cases hstore : backend.StoreSecrets w cmd.Environment with
            | some e => simp [hauth, hnew, hinit, hstore, failure]
            | none => simp [hauth, hnew, hinit, hstore]
  · intro hno
    unfold handleStoreSecrets
    cases hcfg : LoadConfig w cmd.ConfigPath with
    | error err => simp
    | ok cfg => simp [hno, failure]
  · intro cfg backend0 backend e hcfg hauth hnew hinit hstore
    unfold handleStoreSecrets
    simp [hcfg, hauth, hnew, hinit, hstore, failure]

theorem C12_store_secrets_all_or_nothing_witness :
    ((handleStoreSecrets World.sample
        { Action := "store_secrets", ConfigPath := "/srv/app/.imbued", ProcessID := "42",
          Environment := [("K", "v")] }
        { auth := NewSimpleAuthenticator 10 }).backendOps = [] ∧
      ∀ cfg, LoadConfig World.sample "/srv/app/.imbued" = .ok cfg →
        (handleStoreSecrets World.sample
          { Action := "store_secrets", ConfigPath := "/srv/app/.imbued", ProcessID := "42",
            Environment := [("K", "v")] }
          { auth := NewSimpleAuthenticator 10 }).responses =
          [{ Success := false, Error := "Process is not authenticated", Data := none,
             Output := "" }]) ∧
    (handleStoreSecrets World.onepass
        { Action := "store_secrets", ConfigPath := "/srv/op/.imbued", ProcessID := "42",
          Environment := [("K", "v")] }
        { auth := { authenticatedProcesses := [("42", 500)], authDuration := 10 } }).responses =
      [{ Success := false,
         Error := "Failed to store secrets: " ++
           "storing secrets in 1Password is not implemented",
         Data := none, Output := "" }] :=
  ⟨(C12_store_secrets_all_or_nothing World.sample
      { Action := "store_secrets", ConfigPath := "/srv/app/.imbued", ProcessID := "42",
        Environment := [("K", "v")] }
      (NewSimpleAuthenticator 10)).2.1 (by decide),
   (C12_store_secrets_all_or_nothing World.onepass
      { Action := "store_secrets", ConfigPath := "/srv/op/.imbued", ProcessID := "42",
        Environment := [("K", "v")] }
      { authenticatedProcesses := [("42", 500)], authDuration := 10 }).2.2
      onepassConfig (.onePass {})
      (.onePass { accountToken := "tok", vaultID := "tok", initialized := true })
      "storing secrets in 1Password is not implemented" rfl (by decide) rfl (by decide)
      (by decide)⟩

/-! ## The onepass backend cannot store -/

theorem OnePassBackend.StoreSecrets_isSome (w : World) (b : OnePassBackend)
    (secrets : GoMap String) : ∃ e, b.StoreSecrets w secrets = some e := by
  unfold OnePassBackend.StoreSecrets
  split
  · exact ⟨_, rfl⟩
  · split <;> exact ⟨_, rfl⟩

/-- The loop runs to its end when every lookup reports an error and every creation succeeds. -/
theorem OnePassBackend.storeLoop_none (w : World) (b : OnePassBackend) (secrets : GoMap String)
    (h : ∀ kv ∈ secrets, (∃ err, b.GetSecret w kv.1 = .error err) ∧
      (w.exec "op" ["item", "create", "--vault", b.vaultID, "--category", "password",
        "--title", kv.1, "password=" ++ kv.2]
        ["OP_SERVICE_ACCOUNT_TOKEN=" ++ b.accountToken]).err = none) :
    OnePassBackend.storeLoop w b secrets = none := by
  induction secrets with
  | nil => rfl
  | cons kv secrets ih =>
    obtain ⟨key, value⟩ := kv
    obtain ⟨⟨err, hget⟩, hcreate⟩ := h (key, value) (List.mem_cons_self _ _)
    simp only at hget hcreate
    simp only [OnePassBackend.storeLoop, hget, hcreate]
    exact ih (fun kv' h' => h kv' (List.mem_cons_of_mem _ h'))

/-- C14. With the external tools as inputs of the world: `OnePassBackend.StoreSecrets`
returns a non-nil error for every mapping and every world; on an initialized
backend, when every per-key lookup reports an error and every creation call
succeeds (in particular for the empty mapping), the error is `storing secrets
in 1Password is not implemented`; hence `store_secrets` with a config that
selects the onepass backend never answers `Success = true`. -/
theorem C14_onepass_store_never_succeeds (w : World) (b : OnePassBackend)
    (secrets : GoMap String) (cmd : Command) (a : SimpleAuthenticator) :
    (∃ e, b.StoreSecrets w secrets = some e) ∧
    (b.initialized = true →
      (∀ kv ∈ secrets, (∃ err, b.GetSecret w kv.1 = .error err) ∧
        (w.exec "op" ["item", "create", "--vault", b.vaultID, "--category", "password",
          "--title", kv.1, "password=" ++ kv.2]
          ["OP_SERVICE_ACCOUNT_TOKEN=" ++ b.accountToken]).err = none) →
      b.StoreSecrets w secrets = some "storing secrets in 1Password is not implemented") ∧
    (b.initialized = true →
      b.StoreSecrets w [] = some "storing secrets in 1Password is not implemented") ∧
    (∀ cfg, LoadConfig w cmd.ConfigPath = .ok cfg → cfg.BackendType = "onepass" →
      ∀ r ∈ (handleStoreSecrets w cmd { auth := a }).responses, r.Success = false) := by
  refine ⟨OnePassBackend.StoreSecrets_isSome w b secrets, ?_, ?_, ?_⟩
  · intro hinit h
    have hloop := OnePassBackend.storeLoop_none w b (secrets.range (w.rangeSeed 0))
      (fun kv hkv => h kv ((GoMap.range_perm _ secrets).mem_iff.1 hkv))
    simp [OnePassBackend.StoreSecrets, hinit, hloop]
  · intro hinit
    have hloop : OnePassBackend.storeLoop w b (GoMap.range (w.rangeSeed 0) []) = none := by
      have : GoMap.range (w.rangeSeed 0) ([] : GoMap String) = [] :=
        List.Perm.eq_nil (GoMap.range_perm _ _)
      rw [this]
      rfl
    simp [OnePassBackend.StoreSecrets, hinit, hloop]
  · intro cfg hcfg htype r hr
    have hnew : NewBackend cfg.BackendType = .ok (.onePass {}) := by
      rw [htype]
      rfl
    unfold handleStoreSecrets at hr
    simp only [hcfg, hnew] at hr
    cases hauth : (a.IsAuthenticated cmd.ProcessID w.now).1 with
    | false =>
      simp [hauth, failure] at hr
      rw [hr]
    | true =>
      rcases hinit : (Backend.onePass {}).Initialize w cfg.BackendConfig with ⟨backend, ierr⟩
      cases ierr with
      | some err =>
        simp [hauth, hinit, failure] at hr
        rw [hr]
      | none =>
        have hb : ∃ b', backend = .onePass b' := by
          simp only [Backend.Initialize, Prod.map] at hinit
          exact ⟨_, (Prod.mk.inj hinit).1.symm⟩
        obtain ⟨b', rfl⟩ := hb
        obtain ⟨e, he⟩ := OnePassBackend.StoreSecrets_isSome w b' cmd.Environment
        have hstore : (Backend.onePass b').StoreSecrets w cmd.Environment = some e := he
        simp [hauth, hinit, hstore, failure] at hr
        rw [hr]

theorem C14_onepass_store_never_succeeds_witness :
    OnePassBackend.StoreSecrets World.onepass
        { accountToken := "tok", vaultID := "tok", initialized := true } [("K", "v")] =
      some "storing secrets in 1Password is not implemented" ∧
    (failure ("Failed to store secrets: " ++
      "storing secrets in 1Password is not implemented")).Success = false :=
  ⟨(C14_onepass_store_never_succeeds World.onepass
      { accountToken := "tok", vaultID := "tok", initialized := true } [("K", "v")]
      { Action := "store_secrets", ConfigPath := "/srv/op/.imbued", ProcessID := "42",
        Environment := [("K", "v")] }
      { authenticatedProcesses := [("42", 500)], authDuration := 10 }).2.1 rfl
      (by
        intro kv hkv
        rw [List.mem_singleton] at hkv
        subst hkv
        exact ⟨⟨"secret not found: K", rfl⟩, by decide⟩),
   (C14_onepass_store_never_succeeds World.onepass
      { accountToken := "tok", vaultID := "tok", initialized := true } [("K", "v")]
      { Action := "store_secrets", ConfigPath := "/srv/op/.imbued", ProcessID := "42",
        Environment := [("K", "v")] }
      { authenticatedProcesses := [("42", 500)], authDuration := 10 }).2.2.2
      onepassConfig rfl rfl
      (failure ("Failed to store secrets: " ++
        "storing secrets in 1Password is not implemented")) (by decide)⟩

/-! ## Backends: `Initialize`, `GetSecret` before it, `Close`, the registry -/

/-- C15. For the vault, aws_secret_manager, gcp_secret_manager and env_file
backends and every config map: when a required key is absent, `Initialize`
fails with `<key> is required for <type> backend`, where `<key>` is the first
absent required key, and it returns the backend as it was (an un-initialized
backend stays so); for the three placeholder backends `Initialize` succeeds
exactly when no required key is absent, and then the backend is initialized. -/
theorem C15_initialize_names_missing_key (w : World) (backend : Backend)
    (config : GoMap String) (name : String) (hname : backend.typeName = some name)
    (hnot : name ≠ "onepass") :
    (∀ k, firstAbsent (requiredKeys backend) config = some k →
      backend.Initialize w config =
        (backend, some (k ++ " is required for " ++ name ++ " backend"))) ∧
    (name ≠ "env_file" →
      ((backend.Initialize w config).2 = none ↔
        firstAbsent (requiredKeys backend) config = none) ∧
      ((backend.Initialize w config).2 = none →
        (backend.Initialize w config).1.initialized = some true)) := by
  cases backend with
  | macOSKeychain b => simp [Backend.typeName] at hname
  | onePass b =>
    simp only [Backend.typeName, Option.some.injEq] at hname
    exact absurd hname.symm hnot
  | envFile b =>
    simp only [Backend.typeName, Option.some.injEq] at hname
    subst hname
    refine ⟨?_, fun h => absurd rfl h⟩
    intro k hk
    cases h1 : config.get "file_path" with
    | some v => simp [firstAbsent, requiredKeys, h1] at hk
    | none =>
      simp [firstAbsent, requiredKeys, h1] at hk
      subst hk
      simp [Backend.Initialize, EnvFileBackend.Initialize, h1]
  | vault b =>
    simp only [Backend.typeName, Option.some.injEq] at hname
    subst hname
    cases h1 : config.get "address" <;> cases h2 : config.get "token" <;>
      simp [firstAbsent, requiredKeys, Backend.Initialize, VaultBackend.Initialize, h1, h2,
        Backend.initialized]
  | aws b =>
    simp only [Backend.typeName, Option.some.injEq] at hname
    subst hname
    cases h1 : config.get "region" <;> cases h2 : config.get "access_key" <;>
      cases h3 : config.get "secret_key" <;>
      simp [firstAbsent, requiredKeys, Backend.Initialize, AWSSecretManagerBackend.Initialize,
        h1, h2, h3, Backend.initialized]
  | gcp b =>
    simp only [Backend.typeName, Option.some.injEq] at hname
    subst hname
    cases h1 : config.get "project_id" <;> cases h2 : config.get "credentials" <;>
      simp [firstAbsent, requiredKeys, Backend.Initialize, GCPSecretManagerBackend.Initialize,
        h1, h2, Backend.initialized]

theorem C15_initialize_names_missing_key_witness :
    (Backend.vault {}).Initialize World.bare [("address", "https://vault.local")] =
      (Backend.vault {}, some ("token" ++ " is required for " ++ "vault" ++ " backend")) ∧
    (((Backend.vault {}).Initialize World.bare [("address", "https://vault.local")]).2 = none ↔
      firstAbsent (requiredKeys (Backend.vault {})) [("address", "https://vault.local")] =
        none) :=
  ⟨(C15_initialize_names_missing_key World.bare (.vault {})
      [("address", "https://vault.local")] "vault" rfl (by decide)).1 "token" (by decide),
   ((C15_initialize_names_missing_key World.bare (.vault {})
      [("address", "https://vault.local")] "vault" rfl (by decide)).2 (by decide)).1⟩

/-- C16. What `GetSecret` returns on the fresh backend of each registered type,
for every key: the vault, onepass, aws_secret_manager and gcp_secret_manager
backends fail with `<type> backend not initialized`; the env_file backend has
no such check and fails with `secret not found: <key>`. After an `Initialize`
of the env_file backend that failed while reading the file, `GetSecret` even
succeeds for the keys of the lines read before the failure. -/
theorem C16_get_secret_before_initialize (w : World) (key : String) :
    (NewBackend "vault" = .ok (.vault {}) ∧
      (Backend.vault {}).GetSecret w key = .error "vault backend not initialized") ∧
    (NewBackend "onepass" = .ok (.onePass {}) ∧
      (Backend.onePass {}).GetSecret w key = .error "onepass backend not initialized") ∧
    (NewBackend "aws_secret_manager" = .ok (.aws {}) ∧
      (Backend.aws {}).GetSecret w key =
        .error "aws_secret_manager backend not initialized") ∧
    (NewBackend "gcp_secret_manager" = .ok (.gcp {}) ∧
      (Backend.gcp {}).GetSecret w key =
        .error "gcp_secret_manager backend not initialized") ∧
    (NewBackend "env_file" = .ok (.envFile {}) ∧
      (Backend.envFile {}).GetSecret w key = .error ("secret not found: " ++ key)) ∧
    (((Backend.envFile {}).Initialize
        { World.bare with
          openFile := fun _ => .ok { lines := ["A=va"], err := some "token too long" } }
        [("file_path", "/srv/app/.env")]).2 = some "failed to read env file: token too long" ∧
      ((Backend.envFile {}).Initialize
          { World.bare with
            openFile := fun _ => .ok { lines := ["A=va"], err := some "token too long" } }
          [("file_path", "/srv/app/.env")]).1.GetSecret w "A" = .ok "va") :=
  ⟨⟨rfl, rfl⟩, ⟨rfl, rfl⟩, ⟨rfl, rfl⟩, ⟨rfl, rfl⟩,
    ⟨rfl, by simp [Backend.GetSecret, EnvFileBackend.GetSecret, GoMap.get]⟩,
    ⟨by decide, rfl⟩⟩

/-- C17. For every backend in any state, initialized or not, `Close` returns no
error, and closing twice leaves the same state as closing once. -/
theorem C17_close_safe_and_idempotent (backend : Backend) :
    backend.Close.2 = none ∧ backend.Close.1.Close = backend.Close := by
  cases backend <;> exact ⟨rfl, rfl⟩

/-- Every backend `NewBackend` returns is the fresh value of a registered type. -/
theorem NewBackend_eq_registry (t : String) :
    NewBackend t =
      match registeredBackends.get t with
      | some backend => .ok backend
      | none => .error ("unsupported backend type: " ++ t) := by
  unfold NewBackend
  simp only [registeredBackends, GoMap.get]
  by_cases h1 : t = "env_file"
  · subst h1; rfl
  · by_cases h2 : t = "vault"
    · subst h2; rfl
    · by_cases h3 : t = "onepass"
      · subst h3; rfl
      · by_cases h4 : t = "aws_secret_manager"
        · subst h4; rfl
        · by_cases h5 : t = "gcp_secret_manager"
          · subst h5; rfl
          · simp [h1, h2, h3, h4, h5, Ne.symm h1, Ne.symm h2, Ne.symm h3, Ne.symm h4,
              Ne.symm h5]

/-- C18. The registry of `NewBackend`: a type string selects a backend exactly
when it is one of `env_file`, `vault`, `onepass`, `aws_secret_manager`,
`gcp_secret_manager`, and every other string gives the error `unsupported
backend type: <t>`. No type string selects `MacOSKeychainBackend`, the
OS-native credential store. -/
theorem C18_registry_misses_keychain :
    (∀ t, NewBackend t =
      match registeredBackends.get t with
      | some backend => .ok backend
      | none => .error ("unsupported backend type: " ++ t)) ∧
    registeredBackends.keys =
      ["env_file", "vault", "onepass", "aws_secret_manager", "gcp_secret_manager"] ∧
    (¬ ∃ t b, NewBackend t = .ok (.macOSKeychain b)) ∧
    NewBackend "macos_keychain" = .error "unsupported backend type: macos_keychain" := by
  refine ⟨NewBackend_eq_registry, rfl, ?_, rfl⟩
  rintro ⟨t, b, h⟩
  unfold NewBackend at h
  split_ifs at h <;> cases h

/-! ## The tracker's errors do not reach the outcome -/

@[simp] theorem Conn.auth_emit (c : Conn) (e : Event) : (c.emit e).auth = c.auth := rfl

@[simp] theorem Conn.auth_sendResponse (c : Conn) (r : Response) :
    (sendResponse c r).auth = c.auth := rfl

@[simp] theorem Conn.auth_track (w : World) (c : Conn) (call : TrackerCall) (what : String) :
    (track w c call what).auth = c.auth := by
  unfold track
  split <;> rfl

@[simp] theorem Conn.auth_isAuthenticated (w : World) (c : Conn) (p : String) :
    (c.isAuthenticated w p).2.auth = (c.auth.IsAuthenticated p w.now).2 := rfl

@[simp] theorem Conn.authenticate_fst (w : World) (c : Conn) (p : String)
    (names : List String) :
    (c.authenticate w p names).1 =
      c.auth.Authenticate p names w.now (promptTouchID w) w.nowGrant := rfl

@[simp] theorem Conn.auth_authenticate (w : World) (c : Conn) (p : String)
    (names : List String) :
    (c.authenticate w p names).2.auth =
      (c.auth.Authenticate p names w.now (promptTouchID w) w.nowGrant).auth := rfl

theorem injectFold_auth (w : World) (cmd : Command) (backend : Backend)
    (l : GoMap String) (st : Conn × GoMap String) :
    (l.foldl (injectStep w cmd backend) st).1.auth = st.1.auth := by
  induction l generalizing st with
  | nil => rfl
  | cons kv l ih =>
    rw [List.foldl_cons, ih]
    unfold injectStep
    split <;> simp

/-- The data the loop of `handleInjectEnv` builds depends on the backend only. -/
theorem injectFold_snd (w : World) (cmd : Command) (backend : Backend)
    (l : GoMap String) (st : Conn × GoMap String) :
    (l.foldl (injectStep w cmd backend) st).2 =
      l.foldl (fun data kv =>
        match backend.GetSecret w kv.1 with
        | .ok v => GoMap.set data kv.2 v
        | .error _ => data) st.2 := by
  induction l generalizing st with
  | nil => rfl
  | cons kv l ih => rw [List.foldl_cons, ih, injectStep_snd, List.foldl_cons]

theorem LoadConfig_trackErr (w : World) (f : TrackerCall → Option String) (path : String) :
    LoadConfig (w.withTrackErr f) path = LoadConfig w path := rfl

theorem promptTouchID_trackErr (w : World) (f : TrackerCall → Option String) :
    promptTouchID (w.withTrackErr f) = promptTouchID w := rfl

theorem FindConfig.loop_trackErr (w : World) (f : TrackerCall → Option String) (n : Nat)
    (dir : Path) : FindConfig.loop (w.withTrackErr f) n dir = FindConfig.loop w n dir := by
  induction n generalizing dir with
  | zero => rfl
  | succ n ih =>
    simp only [FindConfig.loop, ih]
    rfl

theorem FindConfig_trackErr (w : World) (f : TrackerCall → Option String) (start : String)
    (n : Int) : FindConfig (w.withTrackErr f) start n = FindConfig w start n := by
  have habs : Abs (w.withTrackErr f) start = Abs w start := rfl
  simp only [FindConfig, habs, FindConfig.loop_trackErr]

theorem Backend.GetSecret_trackErr (w : World) (f : TrackerCall → Option String)
    (backend : Backend) (key : String) :
    backend.GetSecret (w.withTrackErr f) key = backend.GetSecret w key := by
  cases backend <;> rfl

theorem Backend.Initialize_trackErr (w : World) (f : TrackerCall → Option String)
    (backend : Backend) (config : GoMap String) :
    backend.Initialize (w.withTrackErr f) config = backend.Initialize w config := by
  cases backend <;> rfl

theorem OnePassBackend.storeLoop_onepass_trackErr (w : World) (f : TrackerCall → Option String)
    (b : OnePassBackend) (l : GoMap String) :
    OnePassBackend.storeLoop (w.withTrackErr f) b l = OnePassBackend.storeLoop w b l := by
  induction l with
  | nil => rfl
  | cons kv l ih =>
    obtain ⟨key, value⟩ := kv
    have hget : OnePassBackend.GetSecret (w.withTrackErr f) b key =
        OnePassBackend.GetSecret w b key := rfl
    simp only [OnePassBackend.storeLoop, hget, ih]
    rfl

theorem MacOSKeychainBackend.storeLoop_keychain_trackErr (w : World)
    (f : TrackerCall → Option String) (b : MacOSKeychainBackend) (l : GoMap String) :
    MacOSKeychainBackend.storeLoop (w.withTrackErr f) b l =
      MacOSKeychainBackend.storeLoop w b l := by
  induction l with
  | nil => rfl
  | cons kv l ih =>
    obtain ⟨key, value⟩ := kv
    have hset : b.Set (w.withTrackErr f) "imbued" key value = b.Set w "imbued" key value := rfl
    simp only [MacOSKeychainBackend.storeLoop, hset, ih]

theorem Backend.StoreSecrets_trackErr (w : World) (f : TrackerCall → Option String)
    (backend : Backend) (secrets : GoMap String) :
    backend.StoreSecrets (w.withTrackErr f) secrets = backend.StoreSecrets w secrets := by
  cases backend with
  | onePass b =>
    simp only [Backend.StoreSecrets, OnePassBackend.StoreSecrets,
      OnePassBackend.storeLoop_onepass_trackErr]
    rfl
  | macOSKeychain b =>
    simp only [Backend.StoreSecrets, MacOSKeychainBackend.StoreSecrets,
      MacOSKeychainBackend.storeLoop_keychain_trackErr]
    rfl
  | envFile b => rfl
  | vault b => rfl
  | aws b => rfl
  | gcp b => rfl

theorem injectFold_snd_trackErr (w : World) (f : TrackerCall → Option String) (cmd : Command)
    (backend : Backend) (l : GoMap String) (st st' : Conn × GoMap String)
    (h : st.2 = st'.2) :
    (l.foldl (injectStep (w.withTrackErr f) cmd backend) st).2 =
      (l.foldl (injectStep w cmd backend) st').2 := by
  rw [injectFold_snd, injectFold_snd, h]
  simp only [Backend.GetSecret_trackErr]

/-- What a run of `handleAuthenticate` leaves behind, apart from the log lines,
does not depend on the errors of the tracker. -/
theorem handleAuthenticate_trackErr (w : World) (f : TrackerCall → Option String)
    (cmd : Command) (c : Conn) :
    (handleAuthenticate (w.withTrackErr f) cmd c).responses =
        (handleAuthenticate w cmd c).responses ∧
      (handleAuthenticate (w.withTrackErr f) cmd c).auth =
        (handleAuthenticate w cmd c).auth := by
  unfold handleAuthenticate
  rw [LoadConfig_trackErr]
  cases hcfg : LoadConfig w cmd.ConfigPath with
  | error err => simp
  | ok cfg =>
    simp only [Conn.authenticate_fst, Conn.auth_track, promptTouchID_trackErr]
    have hw : (w.withTrackErr f).now = w.now ∧ (w.withTrackErr f).nowGrant = w.nowGrant ∧
        (w.withTrackErr f).rangeSeed = w.rangeSeed := ⟨rfl, rfl, rfl⟩
    simp only [hw.1, hw.2.1, hw.2.2]
    cases herr : (c.auth.Authenticate cmd.ProcessID (GoMap.range (w.rangeSeed 0) cfg.Secrets).keys
      w.now (promptTouchID w) w.nowGrant).err <;>
    cases hok : (c.auth.Authenticate cmd.ProcessID (GoMap.range (w.rangeSeed 0) cfg.Secrets).keys
      w.now (promptTouchID w) w.nowGrant).ok <;>
    simp [hw.1, hw.2.1, hw.2.2, promptTouchID_trackErr]

theorem handleGetSecret_trackErr (w : World) (f : TrackerCall → Option String)
    (cmd : Command) (c : Conn) :
    (handleGetSecret (w.withTrackErr f) cmd c).responses =
        (handleGetSecret w cmd c).responses ∧
      (handleGetSecret (w.withTrackErr f) cmd c).auth = (handleGetSecret w cmd c).auth := by
  unfold handleGetSecret
  rw [LoadConfig_trackErr]
  have hnow : (w.withTrackErr f).now = w.now := rfl
  cases hcfg : LoadConfig w cmd.ConfigPath with
  | error err => simp
  | ok cfg =>
    cases hname : cfg.Secrets.get cmd.SecretName with
    | none => simp [hname]
    | some envName =>
      cases hauth : (c.auth.IsAuthenticated cmd.ProcessID w.now).1 with
      | false => simp [hname, hauth, hnow]
      | true =>
        cases hnew : NewBackend cfg.BackendType with
        | error err => simp [hname, hauth, hnow, hnew]
        | ok backend0 =>
          rcases hinit : backend0.Initialize w cfg.BackendConfig with ⟨backend, ierr⟩
          cases ierr with
          | some err => simp [hname, hauth, hnow, hnew, hinit, Backend.Initialize_trackErr]
          | none =>
            cases hget : backend.GetSecret w cmd.SecretName <;>
              simp [hname, hauth, hnow, hnew, hinit, hget, Backend.Initialize_trackErr,
                Backend.GetSecret_trackErr]

theorem handleStoreSecrets_trackErr (w : World) (f : TrackerCall → Option String)
    (cmd : Command) (c : Conn) :
    (handleStoreSecrets (w.withTrackErr f) cmd c).responses =
        (handleStoreSecrets w cmd c).responses ∧
      (handleStoreSecrets (w.withTrackErr f) cmd c).auth =
        (handleStoreSecrets w cmd c).auth := by
  unfold handleStoreSecrets
  rw [LoadConfig_trackErr]
  have hnow : (w.withTrackErr f).now = w.now := rfl
  cases hcfg : LoadConfig w cmd.ConfigPath with
  | error err => simp
  | ok cfg =>
    cases hauth : (c.auth.IsAuthenticated cmd.ProcessID w.now).1 with
    | false => simp [hauth, hnow]
    | true =>
      cases hnew : NewBackend cfg.BackendType with
      | error err => simp [hauth, hnow, hnew]
      | ok backend0 =>
        rcases hinit : backend0.Initialize w cfg.BackendConfig with ⟨backend, ierr⟩
        cases ierr with
        | some err => simp [hauth, hnow, hnew, hinit, Backend.Initialize_trackErr]
        | none =>
          cases hstore : backend.StoreSecrets w cmd.Environment <;>
            simp [hauth, hnow, hnew, hinit, hstore, Backend.Initialize_trackErr,
              Backend.StoreSecrets_trackErr]

theorem handleInjectEnv_trackErr (w : World) (f : TrackerCall → Option String)
    (cmd : Command) (c : Conn) :
    (handleInjectEnv (w.withTrackErr f) cmd c).responses =
        (handleInjectEnv w cmd c).responses ∧
      (handleInjectEnv (w.withTrackErr f) cmd c).auth = (handleInjectEnv w cmd c).auth := by
  unfold handleInjectEnv
  rw [LoadConfig_trackErr]
  have hnow : (w.withTrackErr f).now = w.now := rfl
  have hseed : (w.withTrackErr f).rangeSeed = w.rangeSeed := rfl
  cases hcfg : LoadConfig w cmd.ConfigPath with
  | error err => simp
  | ok cfg =>
    cases hauth : (c.auth.IsAuthenticated cmd.ProcessID w.now).1 with
    | false => simp [hauth, hnow]
    | true =>
      cases hnew : NewBackend cfg.BackendType with
      | error err => simp [hauth, hnow, hnew]
      | ok backend0 =>
        rcases hinit : backend0.Initialize w cfg.BackendConfig with ⟨backend, ierr⟩
        cases ierr with
        | some err => simp [hauth, hnow, hnew, hinit, Backend.Initialize_trackErr]
        | none =>
          simp [hauth, hnow, hseed, hnew, hinit, Backend.Initialize_trackErr,
            handleInjectEnv_fold_responses, injectFold_auth]
          exact injectFold_snd_trackErr w f cmd backend _ _ _ rfl

/-- What a run of `handleConnection` leaves behind, apart from the log lines,
does not depend on the errors of the tracker. -/
theorem handleConnection_trackErr (w : World) (f : TrackerCall → Option String)
    (input : Decoded) (c : Conn) :
    (handleConnection (w.withTrackErr f) input c).responses =
        (handleConnection w input c).responses ∧
      (handleConnection (w.withTrackErr f) input c).auth =
        (handleConnection w input c).auth := by
  unfold handleConnection
  cases input with
  | error err => exact ⟨rfl, rfl⟩
  | command cmd =>
    simp only [marshalIndentErr]
    split_ifs
    · exact ⟨rfl, rfl⟩
    · exact handleAuthenticate_trackErr w f cmd c
    · exact handleGetSecret_trackErr w f cmd c
    · exact ⟨rfl, rfl⟩
    · exact handleInjectEnv_trackErr w f cmd c
    · exact ⟨rfl, rfl⟩
    · exact ⟨rfl, rfl⟩
    · have h : handleFindConfig (w.withTrackErr f) cmd c = handleFindConfig w cmd c := by
        simp only [handleFindConfig, FindConfig_trackErr]
      rw [h]
      exact ⟨rfl, rfl⟩
    · exact handleStoreSecrets_trackErr w f cmd c
    · exact ⟨rfl, rfl⟩

/-- C19. For every command (or decoding failure), authenticator state, config
and backend behaviour, the responses written and the resulting authenticator
(grant table) are the same in a world where every tracker call returns an
error and in the world where every tracker call succeeds; they are the same
for any two behaviours `f` and `g` of the tracker. -/
theorem C19_tracker_errors_do_not_alter_outcome (w : World) (input : Decoded)
    (a : SimpleAuthenticator) (err : String) (f g : TrackerCall → Option String) :
    ((handleConnection (w.withTrackErr (fun _ => some err)) input { auth := a }).responses =
        (handleConnection (w.withTrackErr (fun _ => none)) input { auth := a }).responses ∧
      (handleConnection (w.withTrackErr (fun _ => some err)) input { auth := a }).auth =
        (handleConnection (w.withTrackErr (fun _ => none)) input { auth := a }).auth) ∧
    ((handleConnection (w.withTrackErr f) input { auth := a }).responses =
        (handleConnection (w.withTrackErr g) input { auth := a }).responses ∧
      (handleConnection (w.withTrackErr f) input { auth := a }).auth =
        (handleConnection (w.withTrackErr g) input { auth := a }).auth) := by
  have key : ∀ f g : TrackerCall → Option String,
      (handleConnection (w.withTrackErr f) input { auth := a }).responses =
        (handleConnection (w.withTrackErr g) input { auth := a }).responses ∧
      (handleConnection (w.withTrackErr f) input { auth := a }).auth =
        (handleConnection (w.withTrackErr g) input { auth := a }).auth := by
    intro f g
    have hf := handleConnection_trackErr w f input { auth := a }
    have hg := handleConnection_trackErr w g input { auth := a }
    exact ⟨hf.1.trans hg.1.symm, hf.2.trans hg.2.symm⟩
  exact ⟨key _ _, key f g⟩

/-- A tracker error shows in the trace as a log line, and only there. -/
theorem tracker_errors_are_logged :
    (handleConnection (World.sample.withTrackErr (fun _ => some "disk full"))
        (.command { Action := "authenticate", ConfigPath := "/srv/app/.imbued",
                    ProcessID := "42" })
        { auth := NewSimpleAuthenticator 10 }).trace ≠
      (handleConnection (World.sample.withTrackErr (fun _ => none))
        (.command { Action := "authenticate", ConfigPath := "/srv/app/.imbued",
                    ProcessID := "42" })
        { auth := NewSimpleAuthenticator 10 }).trace := by
  decide

/-! ## store_secrets on a backend without `StoreSecrets` -/

/-- `Initialize` keeps the dynamic type of a backend. -/
theorem Backend.Initialize_typeName (w : World) (backend : Backend) (config : GoMap String) :
    (backend.Initialize w config).1.typeName = backend.typeName := by
  cases backend <;> rfl

/-- C13. What `handleStoreSecrets` does for an authenticated process when the
config selects env_file, vault, aws_secret_manager or gcp_secret_manager and
the backend initializes: it makes the call `backend.StoreSecrets` although
these types declare no such method, and it forwards whatever that call yields:
`Success = true` for no error, `Failed to store secrets: e` for an error `e`.
The handler has no check of the capability and no `not supported` answer of
its own. -/
theorem C13_store_secrets_without_capability_check (w : World) (cmd : Command)
    (a : SimpleAuthenticator) (cfg : ImbuedConfig) (backend0 backend : Backend)
    (hcfg : LoadConfig w cmd.ConfigPath = .ok cfg)
    (hauth : (a.IsAuthenticated cmd.ProcessID w.now).1 = true)
    (htype : cfg.BackendType ∈
      ["env_file", "vault", "aws_secret_manager", "gcp_secret_manager"])
    (hnew : NewBackend cfg.BackendType = .ok backend0)
    (hinit : backend0.Initialize w cfg.BackendConfig = (backend, none)) :
    (handleStoreSecrets w cmd { auth := a }).responses =
      [match w.storeUndeclared cfg.BackendType cmd.Environment with
        | none => { Success := true }
        | some e => failure ("Failed to store secrets: " ++ e)] := by
  have hstore : backend.StoreSecrets w cmd.Environment =
      w.storeUndeclared cfg.BackendType cmd.Environment := by
    have hname := Backend.Initialize_typeName w backend0 cfg.BackendConfig
    rw [hinit] at hname
    simp only [List.mem_cons, List.mem_singleton, List.not_mem_nil, or_false] at htype
    rcases htype with h | h | h | h <;> rw [h] at hnew ⊢ <;>
      simp only [NewBackend, String.reduceEq, if_true, if_false, Except.ok.injEq] at hnew <;>
      subst hnew <;> cases backend <;> simp [Backend.typeName] at hname <;> rfl
  unfold handleStoreSecrets
  cases hs : w.storeUndeclared cfg.BackendType cmd.Environment with
  | none =>
    rw [hs] at hstore
    simp [hcfg, hauth, hnew, hinit, hstore]
  | some e =>
    rw [hs] at hstore
    simp [hcfg, hauth, hnew, hinit, hstore]

theorem C13_store_secrets_without_capability_check_witness :
    (handleStoreSecrets World.sample
        { Action := "store_secrets", ConfigPath := "/srv/app/.imbued", ProcessID := "42",
          Environment := [("K", "v")] }
        { auth := { authenticatedProcesses := [("42", 500)], authDuration := 10 } }).responses =
      [match World.sample.storeUndeclared sampleConfig.BackendType [("K", "v")] with
        | none => { Success := true }
        | some e => failure ("Failed to store secrets: " ++ e)] :=
  C13_store_secrets_without_capability_check World.sample
    { Action := "store_secrets", ConfigPath := "/srv/app/.imbued", ProcessID := "42",
      Environment := [("K", "v")] }
    { authenticatedProcesses := [("42", 500)], authDuration := 10 } sampleConfig
    (.envFile {})
    (.envFile { filePath := "/srv/app/.env", secrets := [("C", "vc"), ("A", "va")] })
    rfl (by decide) (by decide) rfl (by decide)

/-! ## The audit log: one line per record, appended -/

theorem digitChar_ne_lineFeed (n : Nat) : digitChar n ≠ lineFeed := by
  unfold digitChar
  split <;> decide

theorem hexChar_ne_lineFeed (n : Nat) : hexChar n ≠ lineFeed := by
  unfold hexChar
  split <;> decide

theorem decimalCore_no_lineFeed (fuel n : Nat) (acc : List Char)
    (hacc : ∀ c ∈ acc, c ≠ lineFeed) : ∀ c ∈ decimalCore fuel n acc, c ≠ lineFeed := by
  induction fuel generalizing n acc with
  | zero => exact hacc
  | succ fuel ih =>
    unfold decimalCore
    have hcons : ∀ c ∈ digitChar n :: acc, c ≠ lineFeed := by
      intro c hc
      rcases List.mem_cons.1 hc with h | h
      · rw [h]; exact digitChar_ne_lineFeed n
      · exact hacc c h
    split
    · exact hcons
    · exact ih (n / 10) _ hcons

theorem appendInt_no_lineFeed (x : Int) (width : Nat) : ∀ c ∈ appendInt x width, c ≠ lineFeed := by
  intro c hc
  unfold appendInt at hc
  simp only [List.mem_append, List.mem_replicate] at hc
  rcases hc with (hc | hc) | hc
  · split at hc
    · rw [List.mem_singleton] at hc
      rw [hc]; decide
    · cases hc
  · rw [hc.2]; decide
  · exact decimalCore_no_lineFeed _ _ [] (fun _ h => absurd h (List.not_mem_nil _)) c hc

theorem appendNano_no_lineFeed (ns : Nat) : ∀ c ∈ appendNano ns, c ≠ lineFeed := by
  intro c hc
  unfold appendNano at hc
  split at hc
  · cases hc
  · have hpre : dropTrailing (fun c => decide (c = '0')) ('.' :: appendInt ns 9) <+:
        '.' :: appendInt ns 9 := List.rdropWhile_prefix _ _
    rcases List.mem_cons.1 (hpre.subset hc) with h | h
    · rw [h]; decide
    · exact appendInt_no_lineFeed _ _ c h

theorem appendFormatRFC3339_no_lineFeed (t : WallTime) :
    ∀ c ∈ t.appendFormatRFC3339, c ≠ lineFeed := by
  intro c hc
  unfold WallTime.appendFormatRFC3339 at hc
  have hsingle : ∀ d : Char, d ≠ lineFeed → c ∈ [d] → c ≠ lineFeed := by
    intro d hd h
    rw [List.mem_singleton] at h
    rw [h]; exact hd
  simp only [List.mem_append] at hc
  rcases hc with ((((((((((((h | h) | h) | h) | h) | h) | h) | h) | h) | h) | h) | h) | h)
  · exact appendInt_no_lineFeed _ _ c h
  · exact hsingle '-' (by decide) h
  · exact appendInt_no_lineFeed _ _ c h
  · exact hsingle '-' (by decide) h
  · exact appendInt_no_lineFeed _ _ c h
  · exact hsingle 'T' (by decide) h
  · exact appendInt_no_lineFeed _ _ c h
  · exact hsingle ':' (by decide) h
  · exact appendInt_no_lineFeed _ _ c h
  · exact hsingle ':' (by decide) h
  · exact appendInt_no_lineFeed _ _ c h
  · exact appendNano_no_lineFeed _ c h
  · split at h
    · exact hsingle 'Z' (by decide) h
    · simp only [List.mem_append] at h
      rcases h with ((h | h) | h) | h
      · split at h
        · exact hsingle '-' (by decide) h
        · exact hsingle '+' (by decide) h
      · exact appendInt_no_lineFeed _ _ c h
      · exact hsingle ':' (by decide) h
      · exact appendInt_no_lineFeed _ _ c h

theorem MarshalJSON_no_lineFeed (t : WallTime) (text : List Char)
    (h : t.MarshalJSON = .ok text) : ∀ c ∈ text, c ≠ lineFeed := by
  unfold WallTime.MarshalJSON at h
  split at h
  · cases h
  · split at h
    · cases h
    · injection h with h
      subst h
      intro c hc
      simp only [List.mem_append, List.mem_singleton] at hc
      rcases hc with (hc | hc) | hc
      · rw [hc]; decide
      · exact appendFormatRFC3339_no_lineFeed t c hc
      · rw [hc]; decide

/-- No escape sequence holds a line feed: the line feed itself is written as
a backslash and the letter n. -/
theorem jsonEscape_no_lineFeed (c : Char) : ∀ d ∈ jsonEscape c, d ≠ lineFeed := by
  intro d hd
  unfold jsonEscape at hd
  have hb : backslash ≠ lineFeed := by decide
  split at hd
  · rename_i hc
    simp only [List.mem_cons, List.mem_singleton, List.not_mem_nil, or_false] at hd
    rcases hd with h | h
    · rw [h]; exact hb
    · rw [h]
      rcases hc with hc | hc <;> rw [hc] <;> decide
  · split at hd
    · simp only [List.mem_cons, List.mem_singleton, List.not_mem_nil, or_false] at hd
      rcases hd with h | h <;> rw [h] <;> decide
    · split at hd
      · simp only [List.mem_cons, List.mem_singleton, List.not_mem_nil, or_false] at hd
        rcases hd with h | h <;> rw [h] <;> decide
      · split at hd
        · simp only [List.mem_cons, List.mem_singleton, List.not_mem_nil, or_false] at hd
          rcases hd with h | h <;> rw [h] <;> decide
        · rename_i hlf
          split at hd
          · simp only [List.mem_cons, List.mem_singleton, List.not_mem_nil, or_false] at hd
            rcases hd with h | h <;> rw [h] <;> decide
          · split at hd
            · simp only [List.mem_cons, List.mem_singleton, List.not_mem_nil, or_false] at hd
              rcases hd with h | h <;> rw [h] <;> decide
            · split at hd
              · simp only [List.mem_cons, List.mem_singleton, List.not_mem_nil, or_false] at hd
                rcases hd with h | h | h | h | h | h
                · rw [h]; exact hb
                · rw [h]; decide
                · rw [h]; decide
                · rw [h]; decide
                · rw [h]; exact hexChar_ne_lineFeed _
                · rw [h]; exact hexChar_ne_lineFeed _
              · split at hd
                · simp only [List.mem_cons, List.mem_singleton, List.not_mem_nil, or_false] at hd
                  rcases hd with h | h | h | h | h | h
                  · rw [h]; exact hb
                  · rw [h]; decide
                  · rw [h]; decide
                  · rw [h]; decide
                  · rw [h]; decide
                  · rw [h]; exact hexChar_ne_lineFeed _
                · rw [List.mem_singleton] at hd
                  rw [hd]
                  intro e
                  apply hlf
                  rw [e]
                  decide

theorem jsonString_no_lineFeed (s : String) : ∀ d ∈ jsonString s, d ≠ lineFeed := by
  intro d hd
  unfold jsonString at hd
  simp only [List.mem_append, List.mem_singleton, List.mem_flatMap] at hd
  rcases hd with (hd | ⟨c, _, hd⟩) | hd
  · rw [hd]; decide
  · exact jsonEscape_no_lineFeed c d hd
  · rw [hd]; decide

theorem jsonElements_no_lineFeed (l : List String) : ∀ d ∈ jsonElements l, d ≠ lineFeed := by
  induction l with
  | nil => intro d hd; cases hd
  | cons s rest ih =>
    intro d hd
    cases rest with
    | nil => exact jsonString_no_lineFeed s d hd
    | cons s2 rest2 =>
      simp only [jsonElements, List.mem_append, List.mem_singleton] at hd
      rcases hd with (hd | hd) | hd
      · exact jsonString_no_lineFeed s d hd
      · rw [hd]; decide
      · exact ih d hd

theorem jsonStrings_no_lineFeed (l : List String) : ∀ d ∈ jsonStrings l, d ≠ lineFeed := by
  intro d hd
  unfold jsonStrings at hd
  simp only [List.mem_append, List.mem_singleton] at hd
  rcases hd with (hd | hd) | hd
  · rw [hd]; decide
  · exact jsonElements_no_lineFeed l d hd
  · rw [hd]; decide

/-- The JSON text of a record holds no line feed, whatever its strings hold. -/
theorem Marshal_no_lineFeed (r : AccessRecord) (data : String) (h : r.Marshal = .ok data) :
    lineFeed ∉ data.data := by
  unfold AccessRecord.Marshal at h
  split at h
  · cases h
  · rename_i timestamp hts
    injection h with h
    subst h
    intro hmem
    have hlit : ∀ s : String, lineFeed ∉ s.data → lineFeed ∈ s.data → False :=
      fun _ h1 h2 => h1 h2
    simp only [List.mem_append] at hmem
    rcases hmem with ((((((((h | h) | h) | h) | h) | h) | h) | h) | h)
    · exact hlit _ (by decide) h
    · exact MarshalJSON_no_lineFeed _ _ hts _ h rfl
    · exact hlit _ (by decide) h
    · exact jsonString_no_lineFeed _ _ h rfl
    · exact hlit _ (by decide) h
    · exact jsonString_no_lineFeed _ _ h rfl
    · split at h
      · cases h
      · simp only [List.mem_append] at h
        rcases h with h | h
        · exact hlit _ (by decide) h
        · exact jsonStrings_no_lineFeed _ _ h rfl
    · split at h
      · cases h
      · simp only [List.mem_append] at h
        rcases h with h | h
        · exact hlit _ (by decide) h
        · exact jsonString_no_lineFeed _ _ h rfl
    · exact hlit _ (by decide) h

/-- The JSON text of a record exists whenever the year of its timestamp has four
digits and the hour of its zone is below 24, as for every reading of the clock. -/
theorem Marshal_isOk (r : AccessRecord) (hlo : 0 ≤ r.Timestamp.year)
    (hhi : r.Timestamp.year ≤ 9999) (hzone : r.Timestamp.offset.natAbs / 60 / 60 < 24) :
    ∃ data, r.Marshal = .ok data := by
  unfold AccessRecord.Marshal
  have hts : ∃ text, r.Timestamp.MarshalJSON = .ok text := by
    unfold WallTime.MarshalJSON
    rw [if_neg (by omega), if_neg (by omega)]
    exact ⟨_, rfl⟩
  obtain ⟨text, htext⟩ := hts
  rw [htext]
  exact ⟨_, rfl⟩

/-- C20: the log being the sequence of characters of the file, a successful
`FileTracker.trackEvent` turns the content `L` into `L ++ line`, where `line` is
the JSON text of the record followed by one line feed and the JSON text holds no
line feed, whatever the process id, the secret names and the error message hold;
the call does succeed when the write does and the timestamp is one a clock can
read; and on every outcome, failed ones included, the previous content is a
prefix of the new content. -/
theorem C20_track_event_appends_one_line (t : FileTracker) (record : AccessRecord)
    (write : WriteResult) :
    (∀ t2, t.trackEvent record write = (t2, none) →
      ∃ data, record.Marshal = .ok data ∧
        t2.logFile.data = t.logFile.data ++ (data.data ++ [lineFeed]) ∧
        lineFeed ∉ data.data) ∧
    (0 ≤ record.Timestamp.year → record.Timestamp.year ≤ 9999 →
      record.Timestamp.offset.natAbs / 60 / 60 < 24 →
      (t.trackEvent record .ok).2 = none) ∧
    t.logFile.data <+: (t.trackEvent record write).1.logFile.data := by
  refine ⟨?_, ?_, ?_⟩
  · intro t2 h
    unfold FileTracker.trackEvent at h
    cases hm : record.Marshal with
    | error err => rw [hm] at h; simp at h
    | ok data =>
      rw [hm] at h
      cases write with
      | ok =>
        simp only [Prod.mk.injEq, and_true] at h
        subst h
        exact ⟨data, rfl, rfl, Marshal_no_lineFeed record data hm⟩
      | failed written err => simp at h
  · intro hlo hhi hzone
    obtain ⟨data, hm⟩ := Marshal_isOk record hlo hhi hzone
    unfold FileTracker.trackEvent
    rw [hm]
  · unfold FileTracker.trackEvent
    cases hm : record.Marshal with
    | error err => exact List.prefix_refl _
    | ok data =>
      cases write with
      | ok => exact List.prefix_append _ _
      | failed written err => exact List.prefix_append _ _

/-- C20 at a record whose process id, secret name and error message each hold
a line feed: the new content is the old line, then one new line. -/
theorem C20_track_event_appends_one_line_witness :
    sampleTracker.trackEvent sampleRecord .ok =
        ((sampleTracker.trackEvent sampleRecord .ok).1, none) ∧
      (∃ data, sampleRecord.Marshal = .ok data ∧
        (sampleTracker.trackEvent sampleRecord .ok).1.logFile.data =
          sampleTracker.logFile.data ++ (data.data ++ [lineFeed]) ∧
        lineFeed ∉ data.data) ∧
      (sampleTracker.trackEvent sampleRecord .ok).2 = none ∧
      sampleTracker.logFile.data <+:
        (sampleTracker.trackEvent sampleRecord .ok).1.logFile.data ∧
      (sampleTracker.trackEvent sampleRecord .ok).1.logFile =
        "earlier\n" ++
          "\x7b\"timestamp\":\"2025-03-09T07:05:01.12-05:00\"," ++
          "\"type\":\"secret_access_failure\",\"process_id\":\"4\\n2\"," ++
          "\"secret_names\":[\"A\\nB\"],\"error\":\"x\\ny\"\x7d\n" :=
  ⟨rfl,
    (C20_track_event_appends_one_line sampleTracker sampleRecord .ok).1 _ rfl,
    (C20_track_event_appends_one_line sampleTracker sampleRecord .ok).2.1
      (by decide) (by decide) (by decide),
    (C20_track_event_appends_one_line sampleTracker sampleRecord .ok).2.2,
    by decide⟩

/-! ## Grants are kept per process id -/

/-- `Authenticate(P)` never touches the entry of another process. -/
theorem SimpleAuthenticator.Authenticate_get_other (a : SimpleAuthenticator) (P Q : String)
    (names : List String) (now now0 : Int) (answer : Bool) (h : Q ≠ P) :
    (a.Authenticate P names now answer now0).auth.authenticatedProcesses.get Q =
      a.authenticatedProcesses.get Q := by
  have hother := SimpleAuthenticator.IsAuthenticated_get_other a P Q now h
  unfold SimpleAuthenticator.Authenticate
  dsimp only
  split
  · exact hother
  · split
    · exact hother
    · exact (GoMap.get_set_of_ne _ _ _ _ h).trans hother

/-- C27. For distinct process ids `P` and `Q`, neither `IsAuthenticated(P)` nor
`Authenticate(P, names)`, whether the prompt confirms or denies, changes what
the grant table holds for `Q`. `IsAuthenticated(P)` changes the table only when
`P` has an entry whose expiry lies before the current time, and then only by
deleting that entry (the call returns false); in every other case it leaves the
authenticator as it was. -/
theorem C27_grants_isolated_per_process (a : SimpleAuthenticator) (P Q : String)
    (names : List String) (now now0 : Int) (answer : Bool) (hPQ : P ≠ Q) :
    (a.IsAuthenticated P now).2.authenticatedProcesses.get Q =
        a.authenticatedProcesses.get Q ∧
    (a.Authenticate P names now answer now0).auth.authenticatedProcesses.get Q =
        a.authenticatedProcesses.get Q ∧
    (∀ e, a.authenticatedProcesses.get P = some e → e < now →
      a.IsAuthenticated P now =
        (false, { a with authenticatedProcesses := a.authenticatedProcesses.delete P }) ∧
      (a.IsAuthenticated P now).2.authenticatedProcesses.get P = none) ∧
    (∀ e, a.authenticatedProcesses.get P = some e → now ≤ e →
      a.IsAuthenticated P now = (true, a)) ∧
    (a.authenticatedProcesses.get P = none → a.IsAuthenticated P now = (false, a)) := by
  refine ⟨SimpleAuthenticator.IsAuthenticated_get_other a P Q now (Ne.symm hPQ),
    SimpleAuthenticator.Authenticate_get_other a P Q names now now0 answer (Ne.symm hPQ),
    ?_, ?_, ?_⟩
  · intro e he hlt
    have hcall : a.IsAuthenticated P now =
        (false, { a with authenticatedProcesses := a.authenticatedProcesses.delete P }) := by
      unfold SimpleAuthenticator.IsAuthenticated
      simp [he, hlt]
    refine ⟨hcall, ?_⟩
    rw [hcall]
    exact GoMap.get_delete_self _ _
  · intro e he hle
    unfold SimpleAuthenticator.IsAuthenticated
    simp [he, not_lt.mpr hle]
  · intro hnone
    unfold SimpleAuthenticator.IsAuthenticated
    simp [hnone]

/-- C27 on a table with an expired entry for process 1 and a valid entry for
process 2, at time 100. -/
theorem C27_grants_isolated_per_process_witness :
    "1" ≠ "2" ∧
    GoMap.get ((⟨[("1", 50), ("2", 150)], 10⟩ : SimpleAuthenticator).IsAuthenticated "1"
        100).2.authenticatedProcesses "2" = some 150 ∧
    GoMap.get ((⟨[("1", 50), ("2", 150)], 10⟩ : SimpleAuthenticator).Authenticate "1" ["A"]
        100 true 101).auth.authenticatedProcesses "2" = some 150 ∧
    GoMap.get ((⟨[("1", 50), ("2", 150)], 10⟩ : SimpleAuthenticator).IsAuthenticated "1"
        100).2.authenticatedProcesses "1" = none :=
  ⟨by decide,
    (C27_grants_isolated_per_process ⟨[("1", 50), ("2", 150)], 10⟩ "1" "2" ["A"] 100 101 true
      (by decide)).1,
    (C27_grants_isolated_per_process ⟨[("1", 50), ("2", 150)], 10⟩ "1" "2" ["A"] 100 101 true
      (by decide)).2.1,
    ((C27_grants_isolated_per_process ⟨[("1", 50), ("2", 150)], 10⟩ "1" "2" ["A"] 100 101 true
      (by decide)).2.2.1 50 rfl (by decide)).2⟩

/-! ## get_secret: the lookup in the config comes first -/

/-- The two failure messages of `handleGetSecret` before the backend differ for every name. -/
theorem not_authenticated_ne_not_found (name : String) :
    "Process is not authenticated" ≠ "Secret not found: " ++ name := by
  intro h
  have hdata := congrArg String.data h
  rw [String.data_append] at hdata
  have hhead := congrArg List.head? hdata
  have hlit : ("Secret not found: ".data ++ name.data).head? = some 'S' := rfl
  rw [hlit] at hhead
  exact absurd hhead (by decide)

/-- C29. In `get_secret` the lookup in the config precedes the authentication
gate: when the config loads and the secret name is not a key of its secrets,
the handler only writes the response `Success = false`, `Error = "Secret not
found: <name>"`, for every process id and every grant table: the trace gains
that one response and nothing else (no call of the authenticator, of the
tracker or of a backend), and the authenticator is unchanged. A process without
a valid grant that asks for a configured name is answered `Process is not
authenticated`, a different response, so it can tell configured names from
unconfigured ones. -/
theorem C29_config_lookup_precedes_auth_gate (w : World) (cmd : Command) (c : Conn)
    (cfg : ImbuedConfig) (hcfg : LoadConfig w cmd.ConfigPath = .ok cfg)
    (hname : cfg.Secrets.get cmd.SecretName = none) :
    (handleGetSecret w cmd c).trace =
      c.trace ++ [.response { Success := false, Error := "Secret not found: " ++ cmd.SecretName,
                              Data := none, Output := "" }] ∧
    (handleGetSecret w cmd c).auth = c.auth ∧
    (handleGetSecret w cmd c).tracked = c.tracked ∧
    (handleGetSecret w cmd c).backendOps = c.backendOps ∧
    (∀ (configured envName : String), cfg.Secrets.get configured = some envName →
      (c.auth.IsAuthenticated cmd.ProcessID w.now).1 = false →
      (handleGetSecret w { cmd with SecretName := configured } c).responses =
        c.responses ++ [failure "Process is not authenticated"] ∧
      (handleGetSecret w { cmd with SecretName := configured } c).responses ≠
        (handleGetSecret w cmd c).responses) := by
  have hrun : handleGetSecret w cmd c =
      sendResponse c (failure ("Secret not found: " ++ cmd.SecretName)) := by
    unfold handleGetSecret
    simp [hcfg, hname]
  rw [hrun]
  refine ⟨rfl, rfl, by simp, by simp, ?_⟩
  intro configured envName hconf hno
  have hden := handleGetSecret_denied w { cmd with SecretName := configured } c cfg envName
    hcfg hconf hno
  rw [hden]
  refine ⟨by simp, ?_⟩
  simp only [Conn.responses_sendResponse, Conn.responses_isAuthenticated]
  intro h
  have h2 := List.append_cancel_left h
  simp only [failure, List.cons.injEq, Response.mk.injEq, and_true, true_and] at h2
  exact not_authenticated_ne_not_found _ h2

/-- C29 in the sample world: the name X is not configured, B is, and process 42
holds no grant. -/
theorem C29_config_lookup_precedes_auth_gate_witness :
    (handleGetSecret World.sample
        { Action := "get_secret", ConfigPath := "/srv/app/.imbued", SecretName := "X",
          ProcessID := "42" }
        { auth := NewSimpleAuthenticator 10 }).trace =
      [.response { Success := false, Error := "Secret not found: X", Data := none,
                   Output := "" }] ∧
    (handleGetSecret World.sample
        { Action := "get_secret", ConfigPath := "/srv/app/.imbued", SecretName := "B",
          ProcessID := "42" }
        { auth := NewSimpleAuthenticator 10 }).responses =
      [failure "Process is not authenticated"] :=
  ⟨(C29_config_lookup_precedes_auth_gate World.sample
      { Action := "get_secret", ConfigPath := "/srv/app/.imbued", SecretName := "X",
        ProcessID := "42" }
      { auth := NewSimpleAuthenticator 10 } sampleConfig rfl (by decide)).1,
    ((C29_config_lookup_precedes_auth_gate World.sample
      { Action := "get_secret", ConfigPath := "/srv/app/.imbued", SecretName := "X",
        ProcessID := "42" }
      { auth := NewSimpleAuthenticator 10 } sampleConfig rfl (by decide)).2.2.2.2
        "B" "ENV_B" (by decide) (by decide)).1⟩

/-- C23. For an authenticated process and a loadable config that maps the
secret name `s` to the environment name `e`: when the backend is created,
initializes and returns `v` for `GetSecret(s)`, `get_secret` writes the single
response `Success = true` with the data `env_name: e, value: v` and nothing
else; when the creation of the backend, its `Initialize` or `GetSecret` fails,
the single response is `Success = false` with the error of that step and no
data. -/
theorem C23_get_secret_value_or_failure (w : World) (cmd : Command) (a : SimpleAuthenticator)
    (cfg : ImbuedConfig) (envName : String)
    (hcfg : LoadConfig w cmd.ConfigPath = .ok cfg)
    (hname : cfg.Secrets.get cmd.SecretName = some envName)
    (hauth : (a.IsAuthenticated cmd.ProcessID w.now).1 = true) :
    (∀ backend0 backend v, NewBackend cfg.BackendType = .ok backend0 →
      backend0.Initialize w cfg.BackendConfig = (backend, none) →
      backend.GetSecret w cmd.SecretName = .ok v →
      (handleGetSecret w cmd { auth := a }).responses =
        [{ Success := true, Error := "",
           Data := some [("env_name", envName), ("value", v)], Output := "" }]) ∧
    (∀ err, NewBackend cfg.BackendType = .error err →
      (handleGetSecret w cmd { auth := a }).responses =
        [{ Success := false, Error := "Failed to create secret backend: " ++ err,
           Data := none, Output := "" }]) ∧
    (∀ backend0 backend err, NewBackend cfg.BackendType = .ok backend0 →
      backend0.Initialize w cfg.BackendConfig = (backend, some err) →
      (handleGetSecret w cmd { auth := a }).responses =
        [{ Success := false, Error := "Failed to initialize secret backend: " ++ err,
           Data := none, Output := "" }]) ∧
    (∀ backend0 backend err, NewBackend cfg.BackendType = .ok backend0 →
      backend0.Initialize w cfg.BackendConfig = (backend, none) →
      backend.GetSecret w cmd.SecretName = .error err →
      (handleGetSecret w cmd { auth := a }).responses =
        [{ Success := false, Error := "Failed to get secret: " ++ err,
           Data := none, Output := "" }]) := by
  refine ⟨?_, ?_, ?_, ?_⟩
  · intro backend0 backend v hnew hinit hget
    unfold handleGetSecret
    simp [hcfg, hname, hauth, hnew, hinit, hget]
  · intro err hnew
    unfold handleGetSecret
    simp [hcfg, hname, hauth, hnew, failure]
  · intro backend0 backend err hnew hinit
    unfold handleGetSecret
    simp [hcfg, hname, hauth, hnew, hinit, failure]
  · intro backend0 backend err hnew hinit hget
    unfold handleGetSecret
    simp [hcfg, hname, hauth, hnew, hinit, hget, failure]

/-- C23 in the sample world, whose env file defines A but not B, for process 42
with a grant that lasts until time 500. -/
theorem C23_get_secret_value_or_failure_witness :
    (handleGetSecret World.sample
        { Action := "get_secret", ConfigPath := "/srv/app/.imbued", SecretName := "A",
          ProcessID := "42" }
        { auth := { authenticatedProcesses := [("42", 500)], authDuration := 10 } }).responses =
      [{ Success := true, Error := "", Data := some [("env_name", "ENV_A"), ("value", "va")],
         Output := "" }] ∧
    (handleGetSecret World.sample
        { Action := "get_secret", ConfigPath := "/srv/app/.imbued", SecretName := "B",
          ProcessID := "42" }
        { auth := { authenticatedProcesses := [("42", 500)], authDuration := 10 } }).responses =
      [{ Success := false, Error := "Failed to get secret: " ++ "secret not found: B",
         Data := none, Output := "" }] :=
  ⟨(C23_get_secret_value_or_failure World.sample
      { Action := "get_secret", ConfigPath := "/srv/app/.imbued", SecretName := "A",
        ProcessID := "42" }
      { authenticatedProcesses := [("42", 500)], authDuration := 10 } sampleConfig "ENV_A"
      rfl (by decide) (by decide)).1 (.envFile {})
      (.envFile { filePath := "/srv/app/.env", secrets := [("C", "vc"), ("A", "va")] }) "va"
      rfl (by decide) rfl,
    (C23_get_secret_value_or_failure World.sample
      { Action := "get_secret", ConfigPath := "/srv/app/.imbued", SecretName := "B",
        ProcessID := "42" }
      { authenticatedProcesses := [("42", 500)], authDuration := 10 } sampleConfig "ENV_B"
      rfl (by decide) (by decide)).2.2.2 (.envFile {})
      (.envFile { filePath := "/srv/app/.env", secrets := [("C", "vc"), ("A", "va")] })
      "secret not found: B" rfl (by decide) rfl⟩

/-! ## authenticate: the audit trail -/

@[simp] theorem Conn.tracked_authenticate (w : World) (c : Conn) (p : String)
    (names : List String) : (c.authenticate w p names).2.tracked = c.tracked := by
  unfold Conn.authenticate
  simp only
  split <;> simp [Conn.emit, Conn.tracked, List.filterMap_append]

/-- `SimpleAuthenticator.Authenticate` returns no error. -/
theorem SimpleAuthenticator.Authenticate_err (a : SimpleAuthenticator) (P : String)
    (names : List String) (now now0 : Int) (answer : Bool) :
    (a.Authenticate P names now answer now0).err = none := by
  unfold SimpleAuthenticator.Authenticate
  dsimp only
  split
  · rfl
  · split <;> rfl

/-- C22. For every `authenticate` command whose config loads, the handler asks
the tracker to append exactly two records, an `authentication_request` and then
one outcome record, both with the process id of the command and the secret
names of the config (its keys, in the order the handler collected them), and
it calls the authenticator with these names: when `Authenticate` returns true
the outcome record is `authentication_success` and the response is `Success =
true`, `Output = "Authentication successful"`; when it returns false without
error the outcome record is `authentication_failure` and the response is
`Success = false`, `Error = "Authentication denied"`. When the config does not
load, the handler only writes the failure response: nothing is tracked and the
authenticator is not called. -/
theorem C22_authenticate_audit_trail (w : World) (cmd : Command) (a : SimpleAuthenticator)
    (stamp : WallTime) :
    (∀ cfg, LoadConfig w cmd.ConfigPath = .ok cfg →
      ∃ names : List String, names.Perm cfg.Secrets.keys ∧
        (a.Authenticate cmd.ProcessID names w.now (promptTouchID w) w.nowGrant).err = none ∧
        (handleAuthenticate w cmd { auth := a }).auth =
          (a.Authenticate cmd.ProcessID names w.now (promptTouchID w) w.nowGrant).auth ∧
        ((a.Authenticate cmd.ProcessID names w.now (promptTouchID w) w.nowGrant).ok = true →
          (handleAuthenticate w cmd { auth := a }).tracked =
            [.TrackAuthenticationRequest cmd.ProcessID names,
             .TrackAuthenticationSuccess cmd.ProcessID names] ∧
          ((handleAuthenticate w cmd { auth := a }).tracked.map
              fun call => (call.record stamp).Type_) =
            ["authentication_request", "authentication_success"] ∧
          (handleAuthenticate w cmd { auth := a }).responses =
            [{ Success := true, Error := "", Data := none,
               Output := "Authentication successful" }]) ∧
        ((a.Authenticate cmd.ProcessID names w.now (promptTouchID w) w.nowGrant).ok = false →
          (handleAuthenticate w cmd { auth := a }).tracked =
            [.TrackAuthenticationRequest cmd.ProcessID names,
             .TrackAuthenticationFailure cmd.ProcessID names "authentication denied"] ∧
          ((handleAuthenticate w cmd { auth := a }).tracked.map
              fun call => (call.record stamp).Type_) =
            ["authentication_request", "authentication_failure"] ∧
          (handleAuthenticate w cmd { auth := a }).responses =
            [{ Success := false, Error := "Authentication denied", Data := none,
               Output := "" }])) ∧
    (∀ err, LoadConfig w cmd.ConfigPath = .error err →
      handleAuthenticate w cmd { auth := a } =
        { auth := a,
          trace := [.response { Success := false, Error := "Failed to load config: " ++ err,
                                Data := none, Output := "" }] }) := by
  refine ⟨?_, ?_⟩
  · intro cfg hcfg
    refine ⟨(cfg.Secrets.range (w.rangeSeed 0)).keys,
      (GoMap.range_perm (w.rangeSeed 0) cfg.Secrets).map Prod.fst,
      SimpleAuthenticator.Authenticate_err _ _ _ _ _ _, ?_, ?_, ?_⟩
    · have herr := SimpleAuthenticator.Authenticate_err a cmd.ProcessID
        (cfg.Secrets.range (w.rangeSeed 0)).keys w.now w.nowGrant (promptTouchID w)
      unfold handleAuthenticate
      simp only [hcfg, Conn.authenticate_fst, Conn.auth_track, herr]
      split <;> simp
    · intro hok
      have herr := SimpleAuthenticator.Authenticate_err a cmd.ProcessID
        (cfg.Secrets.range (w.rangeSeed 0)).keys w.now w.nowGrant (promptTouchID w)
      have hrun : (handleAuthenticate w cmd { auth := a }).tracked =
            [.TrackAuthenticationRequest cmd.ProcessID (cfg.Secrets.range (w.rangeSeed 0)).keys,
             .TrackAuthenticationSuccess cmd.ProcessID
               (cfg.Secrets.range (w.rangeSeed 0)).keys] ∧
          (handleAuthenticate w cmd { auth := a }).responses =
            [{ Success := true, Error := "", Data := none,
               Output := "Authentication successful" }] := by
        unfold handleAuthenticate
        simp [hcfg, herr, hok]
      exact ⟨hrun.1, by rw [hrun.1]; rfl, hrun.2⟩
    · intro hok
      have herr := SimpleAuthenticator.Authenticate_err a cmd.ProcessID
        (cfg.Secrets.range (w.rangeSeed 0)).keys w.now w.nowGrant (promptTouchID w)
      have hrun : (handleAuthenticate w cmd { auth := a }).tracked =
            [.TrackAuthenticationRequest cmd.ProcessID (cfg.Secrets.range (w.rangeSeed 0)).keys,
             .TrackAuthenticationFailure cmd.ProcessID
               (cfg.Secrets.range (w.rangeSeed 0)).keys "authentication denied"] ∧
          (handleAuthenticate w cmd { auth := a }).responses =
            [{ Success := false, Error := "Authentication denied", Data := none,
               Output := "" }] := by
        unfold handleAuthenticate
        simp [hcfg, herr, hok, failure]
      exact ⟨hrun.1, by rw [hrun.1]; rfl, hrun.2⟩
  · intro err herr
    unfold handleAuthenticate
    simp [herr, sendResponse, Conn.emit, failure]

/-- C22 in the sample world: process 42 holds no grant and the presence prompt
fails, so the request is followed by a failure record; process 7 holds a grant,
so the request is followed by a success record. -/
theorem C22_authenticate_audit_trail_witness :
    ((handleAuthenticate World.sample
        { Action := "authenticate", ConfigPath := "/srv/app/.imbued", ProcessID := "42" }
        { auth := NewSimpleAuthenticator 10 }).tracked.map
          fun call => (call.record sampleTime).Type_) =
      ["authentication_request", "authentication_failure"] ∧
    (handleAuthenticate World.sample
        { Action := "authenticate", ConfigPath := "/srv/app/.imbued", ProcessID := "42" }
        { auth := NewSimpleAuthenticator 10 }).responses =
      [{ Success := false, Error := "Authentication denied", Data := none, Output := "" }] ∧
    (handleAuthenticate World.sample
        { Action := "authenticate", ConfigPath := "/srv/app/.imbued", ProcessID := "7" }
        { auth := { authenticatedProcesses := [("7", 500)], authDuration := 10 } }).tracked =
      [.TrackAuthenticationRequest "7" ["A", "B", "C"],
       .TrackAuthenticationSuccess "7" ["A", "B", "C"]] ∧
    handleAuthenticate World.sample
        { Action := "authenticate", ConfigPath := "/nowhere/.imbued", ProcessID := "42" }
        { auth := NewSimpleAuthenticator 10 } =
      { auth := NewSimpleAuthenticator 10,
        trace := [.response
          { Success := false,
            Error := "Failed to load config: " ++
              "failed to decode config file: no such file or directory",
            Data := none, Output := "" }] } := by
  obtain ⟨names, _, _, _, _, hdenied⟩ :=
    (C22_authenticate_audit_trail World.sample
      { Action := "authenticate", ConfigPath := "/srv/app/.imbued", ProcessID := "42" }
      (NewSimpleAuthenticator 10) sampleTime).1 sampleConfig rfl
  refine ⟨(hdenied rfl).2.1, (hdenied rfl).2.2, by decide, ?_⟩
  exact (C22_authenticate_audit_trail World.sample
      { Action := "authenticate", ConfigPath := "/nowhere/.imbued", ProcessID := "42" }
      (NewSimpleAuthenticator 10) sampleTime).2
    "failed to decode config file: no such file or directory" rfl

/-! ## Which access attempts reach the tracker -/

/-- The records of `handleGetSecret` for a configured secret and a process with a valid grant. -/
theorem handleGetSecret_tracked_granted (w : World) (cmd : Command) (a : SimpleAuthenticator)
    (cfg : ImbuedConfig) (envName : String) (hcfg : LoadConfig w cmd.ConfigPath = .ok cfg)
    (hname : cfg.Secrets.get cmd.SecretName = some envName)
    (hauth : (a.IsAuthenticated cmd.ProcessID w.now).1 = true) :
    ∃ rest, (handleGetSecret w cmd { auth := a }).tracked =
      .TrackSecretAccess cmd.ProcessID [cmd.SecretName] :: rest := by
  unfold handleGetSecret
  cases hnew : NewBackend cfg.BackendType with
  | error err => simp [hcfg, hname, hauth, hnew]
  | ok backend0 =>
    rcases hinit : backend0.Initialize w cfg.BackendConfig with ⟨backend, ierr⟩
    cases ierr with
    | some err => simp [hcfg, hname, hauth, hnew, hinit]
    | none =>
      cases hget : backend.GetSecret w cmd.SecretName with
      | error err => simp [hcfg, hname, hauth, hnew, hinit, hget]
      | ok v => simp [hcfg, hname, hauth, hnew, hinit, hget]

/-- The records of `handleStoreSecrets` for a process with a valid grant. -/
theorem handleStoreSecrets_tracked_granted (w : World) (cmd : Command)
    (a : SimpleAuthenticator) (cfg : ImbuedConfig)
    (hcfg : LoadConfig w cmd.ConfigPath = .ok cfg)
    (hauth : (a.IsAuthenticated cmd.ProcessID w.now).1 = true) :
    (handleStoreSecrets w cmd { auth := a }).tracked =
      [.TrackSecretAccess cmd.ProcessID [cmd.SecretName]] := by
  unfold handleStoreSecrets
  cases hnew : NewBackend cfg.BackendType with
  | error err => simp [hcfg, hauth, hnew]
  | ok backend0 =>
    rcases hinit : backend0.Initialize w cfg.BackendConfig with ⟨backend, ierr⟩
    cases ierr with
    | some err => simp [hcfg, hauth, hnew, hinit]
    | none =>
      cases hstore : backend.StoreSecrets w cmd.Environment with
      | some err => simp [hcfg, hauth, hnew, hinit, hstore]
      | none => simp [hcfg, hauth, hnew, hinit, hstore]

/-- The records of `handleInjectEnv` for a process with a valid grant. -/
theorem handleInjectEnv_tracked_granted (w : World) (cmd : Command) (a : SimpleAuthenticator)
    (cfg : ImbuedConfig) (hcfg : LoadConfig w cmd.ConfigPath = .ok cfg)
    (hauth : (a.IsAuthenticated cmd.ProcessID w.now).1 = true) :
    ∃ rest, (handleInjectEnv w cmd { auth := a }).tracked =
      .TrackSecretAccess cmd.ProcessID (cfg.Secrets.range (w.rangeSeed 0)).keys :: rest := by
  unfold handleInjectEnv
  cases hnew : NewBackend cfg.BackendType with
  | error err => simp [hcfg, hauth, hnew]
  | ok backend0 =>
    rcases hinit : backend0.Initialize w cfg.BackendConfig with ⟨backend, ierr⟩
    cases ierr with
    | some err => simp [hcfg, hauth, hnew, hinit]
    | none => simp [hcfg, hauth, hnew, hinit, injectFold_tracked]

/-- The three handlers that reach for secrets record nothing for a process
without a valid grant. -/
theorem denied_access_not_tracked (w : World) (cmd : Command) (a : SimpleAuthenticator)
    (cfg : ImbuedConfig) (hcfg : LoadConfig w cmd.ConfigPath = .ok cfg)
    (hno : (a.IsAuthenticated cmd.ProcessID w.now).1 = false) :
    (handleGetSecret w cmd { auth := a }).tracked = [] ∧
    (handleInjectEnv w cmd { auth := a }).tracked = [] ∧
    (handleStoreSecrets w cmd { auth := a }).tracked = [] := by
  refine ⟨?_, ?_, ?_⟩
  · unfold handleGetSecret
    cases hname : cfg.Secrets.get cmd.SecretName <;> simp [hcfg, hname, hno]
  · unfold handleInjectEnv
    simp [hcfg, hno]
  · unfold handleStoreSecrets
    simp [hcfg, hno]

/-- C21 (amended). Every granted secret-access attempt is recorded: for every
`get_secret` command whose secret name is configured, every `inject_env` and
every `store_secrets` command, with a loadable config and a process id that
holds a valid grant, the handler asks the tracker to append at least one
record, the first being the `secret_access` record of the process id. When the
attempt is denied because the process is not authenticated, the handler
records nothing. -/
theorem C21_granted_access_is_recorded (w : World) (cmd : Command) (a : SimpleAuthenticator)
    (cfg : ImbuedConfig) (hcfg : LoadConfig w cmd.ConfigPath = .ok cfg) :
    ((a.IsAuthenticated cmd.ProcessID w.now).1 = true →
      (∀ envName, cfg.Secrets.get cmd.SecretName = some envName →
        ∃ rest, (handleGetSecret w cmd { auth := a }).tracked =
          .TrackSecretAccess cmd.ProcessID [cmd.SecretName] :: rest) ∧
      (∃ names rest, names.Perm cfg.Secrets.keys ∧
        (handleInjectEnv w cmd { auth := a }).tracked =
          .TrackSecretAccess cmd.ProcessID names :: rest) ∧
      (∃ rest, (handleStoreSecrets w cmd { auth := a }).tracked =
          .TrackSecretAccess cmd.ProcessID [cmd.SecretName] :: rest)) ∧
    ((a.IsAuthenticated cmd.ProcessID w.now).1 = false →
      (handleGetSecret w cmd { auth := a }).tracked = [] ∧
      (handleInjectEnv w cmd { auth := a }).tracked = [] ∧
      (handleStoreSecrets w cmd { auth := a }).tracked = []) := by
  refine ⟨fun hauth => ⟨?_, ?_, ?_⟩, denied_access_not_tracked w cmd a cfg hcfg⟩
  · intro envName hname
    exact handleGetSecret_tracked_granted w cmd a cfg envName hcfg hname hauth
  · obtain ⟨rest, hrest⟩ := handleInjectEnv_tracked_granted w cmd a cfg hcfg hauth
    exact ⟨_, rest, (GoMap.range_perm (w.rangeSeed 0) cfg.Secrets).map Prod.fst, hrest⟩
  · exact ⟨[], handleStoreSecrets_tracked_granted w cmd a cfg hcfg hauth⟩

/-- C21 as stated fails: in the sample world the config loads and process 42
holds no grant; its `get_secret`, `inject_env` and `store_secrets` commands are
denied and the tracker is not called at all. -/
theorem C21_counterexample_denied_not_recorded :
    LoadConfig World.sample "/srv/app/.imbued" = .ok sampleConfig ∧
    ((NewSimpleAuthenticator 10).IsAuthenticated "42" World.sample.now).1 = false ∧
    (handleGetSecret World.sample
        { Action := "get_secret", ConfigPath := "/srv/app/.imbued", SecretName := "A",
          ProcessID := "42" }
        { auth := NewSimpleAuthenticator 10 }).responses =
      [failure "Process is not authenticated"] ∧
    (handleGetSecret World.sample
        { Action := "get_secret", ConfigPath := "/srv/app/.imbued", SecretName := "A",
          ProcessID := "42" }
        { auth := NewSimpleAuthenticator 10 }).tracked = [] ∧
    (handleInjectEnv World.sample
        { Action := "inject_env", ConfigPath := "/srv/app/.imbued", ProcessID := "42" }
        { auth := NewSimpleAuthenticator 10 }).tracked = [] ∧
    (handleStoreSecrets World.sample
        { Action := "store_secrets", ConfigPath := "/srv/app/.imbued", ProcessID := "42",
          Environment := [("K", "v")] }
        { auth := NewSimpleAuthenticator 10 }).tracked = [] :=
  ⟨rfl, by decide, by decide, by decide, by decide, by decide⟩

/-- C21 (amended) in the sample world for process 42 with a grant until time 500. -/
theorem C21_granted_access_is_recorded_witness :
    (∃ rest, (handleGetSecret World.sample
        { Action := "get_secret", ConfigPath := "/srv/app/.imbued", SecretName := "B",
          ProcessID := "42" }
        { auth := { authenticatedProcesses := [("42", 500)], authDuration := 10 } }).tracked =
      .TrackSecretAccess "42" ["B"] :: rest) ∧
    (handleInjectEnv World.sample
        { Action := "inject_env", ConfigPath := "/srv/app/.imbued", ProcessID := "42" }
        { auth := NewSimpleAuthenticator 10 }).tracked = [] :=
  ⟨((C21_granted_access_is_recorded World.sample
      { Action := "get_secret", ConfigPath := "/srv/app/.imbued", SecretName := "B",
        ProcessID := "42" }
      { authenticatedProcesses := [("42", 500)], authDuration := 10 } sampleConfig rfl).1
        (by decide)).1 "ENV_B" (by decide),
    ((C21_granted_access_is_recorded World.sample
      { Action := "inject_env", ConfigPath := "/srv/app/.imbued", ProcessID := "42" }
      (NewSimpleAuthenticator 10) sampleConfig rfl).2 (by decide)).2.1⟩

/-! ## inject_env: which backend errors are skipped -/

/-- Every binding of the data `handleInjectEnv` collects comes from a retrieval
that succeeded (or was there before the loop). -/
theorem injectFold_data_sound (w : World) (cmd : Command) (backend : Backend)
    (l : GoMap String) (st : Conn × GoMap String) (e v : String)
    (h : (l.foldl (injectStep w cmd backend) st).2.get e = some v) :
    (∃ s, (s, e) ∈ l ∧ backend.GetSecret w s = .ok v) ∨ st.2.get e = some v := by
  induction l generalizing st with
  | nil => exact Or.inr h
  | cons kv l ih =>
    obtain ⟨s0, e0⟩ := kv
    rw [List.foldl_cons] at h
    rcases ih _ h with ⟨s, hs, hok⟩ | hstep
    · exact Or.inl ⟨s, List.mem_cons_of_mem _ hs, hok⟩
    · rw [injectStep_snd] at hstep
      cases h0 : backend.GetSecret w s0 with
      | error err =>
        rw [h0] at hstep
        exact Or.inr hstep
      | ok v0 =>
        rw [h0] at hstep
        by_cases he : e = e0
        · subst he
          rw [GoMap.get_set_self] at hstep
          injection hstep with hv
          subst hv
          exact Or.inl ⟨s0, List.mem_cons_self _ _, h0⟩
        · exact Or.inr ((GoMap.get_set_of_ne _ _ _ _ he).symm.trans hstep)

/-- C24 (amended). In `inject_env` every retrieval error is downgraded to a
per-item skip: for an authenticated process, a loadable config and a backend
that is created and initializes, the single response is `Success = true`
whatever `GetSecret` returns for the configured secrets, and every binding of
its data comes from a secret whose retrieval succeeded. An error of the
creation of the backend or of its `Initialize` is not skipped: the single
response is then `Success = false` with `Failed to create secret backend: e` or
`Failed to initialize secret backend: e`, and no data. -/
theorem C24_inject_env_skips_retrieval_errors_only (w : World) (cmd : Command)
    (a : SimpleAuthenticator) (cfg : ImbuedConfig)
    (hcfg : LoadConfig w cmd.ConfigPath = .ok cfg)
    (hauth : (a.IsAuthenticated cmd.ProcessID w.now).1 = true) :
    (∀ backend0 backend, NewBackend cfg.BackendType = .ok backend0 →
      backend0.Initialize w cfg.BackendConfig = (backend, none) →
      ∃ data, (handleInjectEnv w cmd { auth := a }).responses =
          [{ Success := true, Error := "", Data := some data, Output := "" }] ∧
        ∀ e v, data.get e = some v →
          ∃ s, (s, e) ∈ cfg.Secrets ∧ backend.GetSecret w s = .ok v) ∧
    (∀ backend0 backend err, NewBackend cfg.BackendType = .ok backend0 →
      backend0.Initialize w cfg.BackendConfig = (backend, some err) →
      (handleInjectEnv w cmd { auth := a }).responses =
        [{ Success := false, Error := "Failed to initialize secret backend: " ++ err,
           Data := none, Output := "" }]) ∧
    (∀ err, NewBackend cfg.BackendType = .error err →
      (handleInjectEnv w cmd { auth := a }).responses =
        [{ Success := false, Error := "Failed to create secret backend: " ++ err,
           Data := none, Output := "" }]) := by
  refine ⟨?_, ?_, ?_⟩
  · intro backend0 backend hnew hinit
    rw [handleInjectEnv_granted w cmd { auth := a } cfg backend0 backend hcfg hauth hnew hinit]
    refine ⟨((cfg.Secrets.range (w.rangeSeed 1)).foldl (injectStep w cmd backend)
      ((((track w (({ auth := a } : Conn).isAuthenticated w cmd.ProcessID).2
        (.TrackSecretAccess cmd.ProcessID (cfg.Secrets.range (w.rangeSeed 0)).keys)
        "Failed to track secret access").emit
          (.backend (.NewBackend cfg.BackendType))).emit (.backend .Initialize)), [])).2,
      ?_, ?_⟩
    · simp [handleInjectEnv_fold_responses]
    · intro e v hget
      rcases injectFold_data_sound w cmd backend _ _ e v hget with ⟨s, hs, hok⟩ | hnone
      · exact ⟨s, (GoMap.range_perm _ cfg.Secrets).mem_iff.1 hs, hok⟩
      · cases hnone
  · intro backend0 backend err hnew hinit
    unfold handleInjectEnv
    simp [hcfg, hauth, hnew, hinit, failure]
  · intro err hnew
    unfold handleInjectEnv
    simp [hcfg, hauth, hnew, failure]

/-- C24 as stated fails: in the sample world without its env file the config
loads and process 42 holds a grant, but `Initialize` of the env_file backend
fails, and `inject_env` answers `Success = false`. -/
theorem C24_counterexample_initialize_error_is_fatal :
    LoadConfig { World.sample with openFile := fun _ => .error "no such file or directory" }
      "/srv/app/.imbued" = .ok sampleConfig ∧
    ((⟨[("42", 500)], 10⟩ : SimpleAuthenticator).IsAuthenticated "42" 100).1 = true ∧
    (handleInjectEnv
        { World.sample with openFile := fun _ => .error "no such file or directory" }
        { Action := "inject_env", ConfigPath := "/srv/app/.imbued", ProcessID := "42" }
        { auth := ⟨[("42", 500)], 10⟩ }).responses =
      [{ Success := false,
         Error := "Failed to initialize secret backend: " ++
           "failed to open env file: no such file or directory",
         Data := none, Output := "" }] :=
  ⟨rfl, by decide, by decide⟩

/-- C24 (amended) in the sample world, whose env file defines A and C but not
B: the retrieval error for B is skipped. -/
theorem C24_inject_env_skips_retrieval_errors_only_witness :
    (handleInjectEnv World.sample
        { Action := "inject_env", ConfigPath := "/srv/app/.imbued", ProcessID := "42" }
        { auth := ⟨[("42", 500)], 10⟩ }).responses =
      [{ Success := true, Error := "", Data := some [("ENV_C", "vc"), ("ENV_A", "va")],
         Output := "" }] ∧
    ∃ data, (handleInjectEnv World.sample
        { Action := "inject_env", ConfigPath := "/srv/app/.imbued", ProcessID := "42" }
        { auth := ⟨[("42", 500)], 10⟩ }).responses =
          [{ Success := true, Error := "", Data := some data, Output := "" }] ∧
        ∀ e v, data.get e = some v →
          ∃ s, (s, e) ∈ sampleConfig.Secrets ∧
            (Backend.envFile
              { filePath := "/srv/app/.env", secrets := [("C", "vc"), ("A", "va")] }).GetSecret
              World.sample s = .ok v :=
  ⟨by decide,
    (C24_inject_env_skips_retrieval_errors_only World.sample
      { Action := "inject_env", ConfigPath := "/srv/app/.imbued", ProcessID := "42" }
      ⟨[("42", 500)], 10⟩ sampleConfig rfl (by decide)).1 (.envFile {})
      (.envFile { filePath := "/srv/app/.env", secrets := [("C", "vc"), ("A", "va")] })
      rfl (by decide)⟩

/-! ## The env_file backend against the table of the specification -/

theorem cutAt_eq_none_iff (l : List Char) : cutAt '=' l = none ↔ '=' ∉ l := by
  induction l with
  | nil => simp [cutAt]
  | cons c cs ih =>
    by_cases hc : c = '='
    · simp [cutAt, hc]
    · cases hcut : cutAt '=' cs with
      | none =>
        have := ih.1 hcut
        simp [cutAt, hc, hcut, this, Ne.symm hc]
      | some ab =>
        have hmem : '=' ∈ cs := by
          by_contra hno
          rw [ih.2 hno] at hcut
          cases hcut
        simp [cutAt, hc, hcut, hmem]

theorem cutAt_eq_takeWhile (l : List Char) (h : '=' ∈ l) :
    cutAt '=' l =
      some (l.takeWhile (fun c => c != '='), (l.dropWhile (fun c => c != '=')).drop 1) := by
  induction l with
  | nil => cases h
  | cons c cs ih =>
    by_cases hc : c = '='
    · subst hc
      simp [cutAt]
    · have hmem : '=' ∈ cs := by
        rcases List.mem_cons.1 h with h1 | h1
        · exact absurd h1.symm hc
        · exact h1
      simp [cutAt, hc, ih hmem]

theorem HasPrefix_hash (s : String) : HasPrefix s "#" = true ↔ s.data.head? = some '#' := by
  unfold HasPrefix
  have h1 : ("#" : String).data = ['#'] := rfl
  rw [h1]
  cases s.data with
  | nil => simp [List.isPrefixOf]
  | cons c cs =>
    simp only [List.isPrefixOf, Bool.and_true, beq_iff_eq, List.head?_cons, Option.some.injEq]
    exact eq_comm

theorem unquote_eq_spec (value : String) : unquote value = specStripQuotes value := by
  unfold unquote specStripQuotes
  cases hd : value.data with
  | nil => simp
  | cons q rest =>
    cases rest with
    | nil => simp
    | cons r rs =>
      simp only [ne_eq, reduceCtorEq, not_false_eq_true, true_and, List.length_cons,
        List.head?_cons, Option.some.injEq, List.drop_succ_cons, List.drop_zero]
      have hlast : (q :: r :: rs).getLast? = (r :: rs).getLast? := by
        simp [List.getLast?_cons_cons]
      rw [hlast]
      by_cases h1 : q = Char.ofNat 34
      · subst h1
        by_cases h2 : (r :: rs).getLast? = some (Char.ofNat 34)
        · simp [h2]
        · have hne : Char.ofNat 34 ≠ Char.ofNat 39 := by decide
          simp [h2, hne]
      · by_cases h3 : q = Char.ofNat 39
        · subst h3
          by_cases h2 : (r :: rs).getLast? = some (Char.ofNat 39)
          · simp [h2]
          · simp [h2, h1]
        · simp [h1, h3]

/-- The body of the scanner loop stores exactly the pair the specification
reads from the line. -/
theorem envFileLine_eq_spec (secrets : GoMap String) (text : String) :
    envFileLine secrets text =
      match specPair text with
      | some kv => secrets.set kv.1 kv.2
      | none => secrets := by
  unfold envFileLine specPair
  dsimp only
  by_cases hempty : (TrimSpace text).data = []
  · have : TrimSpace text = "" := String.ext hempty
    simp [this, hempty]
  · have hne : TrimSpace text ≠ "" := fun e => hempty (by rw [e])
    by_cases hhash : (TrimSpace text).data.head? = some '#'
    · have := (HasPrefix_hash _).2 hhash
      simp [hne, hempty, hhash, this]
    · have hpre : HasPrefix (TrimSpace text) "#" = false := by
        cases h : HasPrefix (TrimSpace text) "#" with
        | false => rfl
        | true => exact absurd ((HasPrefix_hash _).1 h) hhash
      by_cases hmem : '=' ∈ (TrimSpace text).data
      · have hsplit := cutAt_eq_takeWhile _ hmem
        simp [hne, hempty, hhash, hpre, hmem, SplitN2, hsplit, unquote_eq_spec]
      · have hsplit := (cutAt_eq_none_iff _).2 hmem
        simp [hne, hempty, hhash, hpre, hmem, SplitN2, hsplit]

/-- The table after the scanner loop: the value of the last line that defines
the key, else what the table held before. -/
theorem foldl_envFileLine_get (lines : List String) (secrets : GoMap String) (k : String) :
    (lines.foldl envFileLine secrets).get k =
      match specTable lines k with
      | some v => some v
      | none => secrets.get k := by
  induction lines using List.reverseRecOn with
  | nil => rfl
  | append_singleton pre line ih =>
    rw [foldl_envFileLine_last, envFileLine_eq_spec]
    unfold specTable at ih ⊢
    rw [List.filterMap_append, List.reverse_append]
    cases hp : specPair line with
    | none =>
      simp only [List.filterMap_cons, hp, List.filterMap_nil, List.reverse_nil, List.nil_append]
      exact ih
    | some kv =>
      simp only [List.filterMap_cons, hp, List.filterMap_nil, List.reverse_cons,
        List.reverse_nil, List.nil_append, List.singleton_append, List.find?_cons]
      by_cases hk : kv.1 = k
      · subst hk
        simp [GoMap.get_set_self]
      · rw [GoMap.get_set_of_ne _ _ _ _ (Ne.symm hk)]
        simp only [hk, decide_False]
        exact ih

/-- C28. For every env file, given as the list of lines the scanner delivers
without error, `EnvFileBackend.Initialize` succeeds, and then `GetSecret(k)`
equals the lookup in the table the specification defines from the lines (trim,
skip empty lines, comments and lines without `=`, split at the first `=`, trim
key and value, strip one pair of equal surrounding quotes, later lines
override): the value when `k` is in the table, the error `secret not found: k`
otherwise. Conversely a successful `Initialize` has read such a file. -/
theorem C28_env_file_table (w : World) (b : EnvFileBackend) (config : GoMap String)
    (k : String) :
    (∀ path lines, config.get "file_path" = some path →
      w.openFile path = .ok { lines := lines, err := none } →
      (b.Initialize w config).2 = none ∧
      (b.Initialize w config).1.GetSecret k =
        match specTable lines k with
        | some v => .ok v
        | none => .error ("secret not found: " ++ k)) ∧
    (∀ b2, b.Initialize w config = (b2, none) →
      ∃ path lines, config.get "file_path" = some path ∧
        w.openFile path = .ok { lines := lines, err := none } ∧
        b2.GetSecret k =
          match specTable lines k with
          | some v => .ok v
          | none => .error ("secret not found: " ++ k)) := by
  have hread : ∀ path lines, config.get "file_path" = some path →
      w.openFile path = .ok { lines := lines, err := none } →
      b.Initialize w config =
        ({ filePath := path, secrets := lines.foldl envFileLine [] }, none) := by
    intro path lines hpath hopen
    unfold EnvFileBackend.Initialize
    simp [hpath, hopen]
  have hget : ∀ path lines,
      EnvFileBackend.GetSecret { filePath := path, secrets := lines.foldl envFileLine [] } k =
        match specTable lines k with
        | some v => .ok v
        | none => .error ("secret not found: " ++ k) := by
    intro path lines
    unfold EnvFileBackend.GetSecret
    simp only [foldl_envFileLine_get lines [] k]
    cases specTable lines k <;> rfl
  refine ⟨?_, ?_⟩
  · intro path lines hpath hopen
    rw [hread path lines hpath hopen]
    exact ⟨rfl, hget path lines⟩
  · intro b2 hinit
    cases hpath : config.get "file_path" with
    | none =>
      unfold EnvFileBackend.Initialize at hinit
      simp [hpath] at hinit
    | some path =>
      cases hopen : w.openFile path with
      | error err =>
        unfold EnvFileBackend.Initialize at hinit
        simp [hpath, hopen] at hinit
      | ok file =>
        obtain ⟨lines, ferr⟩ := file
        cases ferr with
        | some err =>
          unfold EnvFileBackend.Initialize at hinit
          simp [hpath, hopen] at hinit
        | none =>
          rw [hread path lines hpath hopen] at hinit
          injection hinit with hb _
          subst hb
          exact ⟨path, lines, rfl, hopen, hget path lines⟩

/-- C28 on `sampleEnvLines`: the later line wins for A, the single quote is a
value of length 1 and stays, the unclosed quote stays, and `D` is not defined. -/
theorem C28_env_file_table_witness :
    ((EnvFileBackend.Initialize World.envLines {} [("file_path", "/srv/app/.env")]).2 = none ∧
      (EnvFileBackend.Initialize World.envLines {} [("file_path", "/srv/app/.env")]).1.GetSecret
          "A" =
        match specTable sampleEnvLines "A" with
        | some v => .ok v
        | none => .error ("secret not found: " ++ "A")) ∧
    specTable sampleEnvLines "A" = some "z" ∧
    specTable sampleEnvLines "B" = some "\"" ∧
    specTable sampleEnvLines "C" = some "'open" ∧
    specTable sampleEnvLines "D" = none ∧
    (sampleEnvLines.take 1).foldl envFileLine [] = [("A", "x=y")] :=
  ⟨(C28_env_file_table World.envLines {} [("file_path", "/srv/app/.env")] "A").1
      "/srv/app/.env" sampleEnvLines (by decide) rfl,
    by decide, by decide, by decide, by decide, by decide⟩

/-! ## `IsWithinValidDepth`: the test on the text of the paths -/

/-- C26. What `IsWithinValidDepth` returns for the config directory `/a/b`, for
every valid depth: the directory itself is within the depth; the subdirectory
`/a/b/c/d`, two levels down, is within it exactly when the depth is at least 2;
the directory `/a/c` is not. The directory `/a/bc` is no subdirectory of `/a/b`
(the one path is not an initial part of the other), but its text starts with
the text `/a/b`, so it passes the test `strings.HasPrefix`, its relative path
is `../bc`, and it is treated like a subdirectory two levels down: the function
returns true for it whenever the depth is at least 2. -/
theorem C26_text_test_admits_sibling_directory (w : World) (validDepth : Int) :
    IsWithinValidDepth w "/a/b" "/a/b" validDepth = .ok true ∧
    IsWithinValidDepth w "/a/b" "/a/b/c/d" validDepth = .ok (decide (2 ≤ validDepth)) ∧
    IsWithinValidDepth w "/a/b" "/a/c" validDepth = .ok false ∧
    cleanAbs "/a/b" = ["a", "b"] ∧ cleanAbs "/a/bc" = ["a", "bc"] ∧
    ¬ (["a", "b"] <+: ["a", "bc"]) ∧
    Rel ["a", "b"] ["a", "bc"] = .ok "../bc" ∧
    IsWithinValidDepth w "/a/b" "/a/bc" validDepth = .ok (decide (2 ≤ validDepth)) ∧
    IsWithinValidDepth w "/a/b" "/a/bc" 2 = .ok true := by
  have habs : ∀ p : String, IsAbs p = true → Abs w p = .ok (cleanAbs p) := by
    intro p hp
    unfold Abs
    rw [if_pos hp]
  have h0 : Abs w "/a/b" = .ok ["a", "b"] := habs _ (by decide)
  have h1 : Abs w "/a/b/c/d" = .ok ["a", "b", "c", "d"] := habs _ (by decide)
  have h2 : Abs w "/a/c" = .ok ["a", "c"] := habs _ (by decide)
  have h3 : Abs w "/a/bc" = .ok ["a", "bc"] := habs _ (by decide)
  have hsibling : ∀ depth : Int,
      IsWithinValidDepth w "/a/b" "/a/bc" depth = .ok (decide (2 ≤ depth)) := by
    intro depth
    have hp : HasPrefix (Path.render ["a", "bc"]) (Path.render ["a", "b"]) = true := by decide
    have hr : Rel ["a", "b"] ["a", "bc"] = .ok "../bc" := rfl
    have hc : ((countSeparators "../bc" : Nat) : Int) + 1 = 2 := by decide
    have hne : ("../bc" : String) ≠ "." := by decide
    unfold IsWithinValidDepth
    simp only [h0, h3, hp, hr, hc, hne, Bool.not_true, Bool.false_eq_true, if_false]
  refine ⟨?_, ?_, ?_, by decide, by decide, by decide, rfl, hsibling validDepth, ?_⟩
  · have hp : HasPrefix (Path.render ["a", "b"]) (Path.render ["a", "b"]) = true := by decide
    have hr : Rel ["a", "b"] ["a", "b"] = .ok "." := rfl
    unfold IsWithinValidDepth
    simp only [h0, hp, hr, Bool.not_true, Bool.false_eq_true, if_false, if_true]
  · have hp : HasPrefix (Path.render ["a", "b", "c", "d"]) (Path.render ["a", "b"]) = true := by
      decide
    have hr : Rel ["a", "b"] ["a", "b", "c", "d"] = .ok "c/d" := rfl
    have hc : ((countSeparators "c/d" : Nat) : Int) + 1 = 2 := by decide
    have hne : ("c/d" : String) ≠ "." := by decide
    unfold IsWithinValidDepth
    simp only [h0, h1, hp, hr, hc, hne, Bool.not_true, Bool.false_eq_true, if_false]
  · have hp : HasPrefix (Path.render ["a", "c"]) (Path.render ["a", "b"]) = false := by decide
    unfold IsWithinValidDepth
    simp only [h0, h2, hp, Bool.not_false, if_true]
  · rw [hsibling 2]
    rfl

/-! ## check-onepass: the masked account token -/

/-- C30. What `check-onepass` does with the account token the keychain lookup
returns, when the lookup of the vault id succeeds too: for a token of at least
10 bytes it prints the first 10 bytes followed by `***` and returns nil; for a
token shorter than 10 bytes, the empty token included, the slice expression
`accountToken[:10]` is out of range and the command panics with `slice bounds
out of range [:10] with length n` after its first line of output. -/
theorem C30_short_account_token_panics (w : World) (accountToken vaultID : String)
    (htoken : GetKeychainItem w KeychainServiceName KeychainAccountTokenKey = .ok accountToken)
    (hvault : GetKeychainItem w KeychainServiceName KeychainVaultIDKey = .ok vaultID) :
    ((goBytes accountToken).length < 10 →
      checkOnePassCredentialsCmd w =
        ([goBytes "1Password credentials found in the macOS Keychain:\n"],
          .panicked ("runtime error: slice bounds out of range [:10] with length " ++
            String.mk (decimal (goBytes accountToken).length)))) ∧
    (10 ≤ (goBytes accountToken).length →
      checkOnePassCredentialsCmd w =
        ([goBytes "1Password credentials found in the macOS Keychain:\n",
          goBytes "Account token: " ++ ((goBytes accountToken).take 10 ++ goBytes "***") ++
            goBytes "...\n",
          goBytes "Vault ID: " ++ goBytes vaultID ++ goBytes "\n"],
          .returned none)) := by
  refine ⟨?_, ?_⟩
  · intro hshort
    have hslice : sliceTo (goBytes accountToken) 10 =
        .error ("runtime error: slice bounds out of range [:10] with length " ++
          String.mk (decimal (goBytes accountToken).length)) := by
      unfold sliceTo
      rw [if_neg (by omega)]
      rfl
    unfold checkOnePassCredentialsCmd
    simp only [htoken, hvault, hslice]
  · intro hlong
    have hslice : sliceTo (goBytes accountToken) 10 = .ok ((goBytes accountToken).take 10) := by
      unfold sliceTo
      rw [if_pos hlong]
    unfold checkOnePassCredentialsCmd
    simp only [htoken, hvault, hslice, List.singleton_append]

/-- C30 at a keychain that holds the account token `tok`, three bytes long. -/
theorem C30_short_account_token_panics_witness :
    GetKeychainItem World.shortToken KeychainServiceName KeychainAccountTokenKey = .ok "tok" ∧
    GetKeychainItem World.shortToken KeychainServiceName KeychainVaultIDKey =
      .ok "vault-1234567" ∧
    (goBytes "tok").length < 10 ∧
    (checkOnePassCredentialsCmd World.shortToken).2 =
      .panicked "runtime error: slice bounds out of range [:10] with length 3" :=
  ⟨rfl, rfl, by decide,
    congrArg Prod.snd
      ((C30_short_account_token_panics World.shortToken "tok" "vault-1234567" rfl rfl).1
        (by decide))⟩

/-! ## env_file: `StoreSecrets` followed by `GetSecret` -/

theorem Backend.GetSecret_withStore (w : World) (store : String → GoMap String → Option String)
    (backend : Backend) (key : String) :
    backend.GetSecret (w.withStore store) key = backend.GetSecret w key := by
  cases backend <;> rfl

end Imbued
